import Mathlib

/-!
# Whiteboard drawing-state engine

A shallow embedding of `src/components/Whiteboard/Canvas.js`: the element
sequence, the undo and redo stacks, the socket handlers for remote
elements, the hit test and the pointer-driven tool handlers.

Numbers are exact rationals.  JavaScript numbers are IEEE doubles; the
embedding reads every arithmetic expression of the source over exact
numbers, and a comparison against `Math.sqrt`/`Math.hypot` is decided
exactly through the squares (see `sqrtLe`, `hypotLt`).  The one place where
the source multiplies a root by itself, `length * length` in the line branch
of the hit test, is kept in two forms: `lineHitWith` takes the number
`Math.hypot` returned as an argument, `lineHit` is its exact reading.  A
React state update is one atomic transition: a handler runs on the state of the last
render and all the `setX` calls it makes give the next state.
-/

namespace Whiteboard

/-! ## Element model -/

/-- A JavaScript value held in an `id` property: `undefined` (no such
property), a number, or a string. -/
inductive JsId where
  | undef
  | num (n : ℚ)
  | str (s : String)
  deriving DecidableEq

/-- JavaScript truthiness of an id, as tested by `element.id && ...`. -/
def JsId.truthy : JsId → Bool
  | .undef => false
  | .num n => decide (n ≠ 0)
  | .str s => decide (s ≠ "")

/-- The `type` tag of an element. -/
inductive ElType where
  | rectangle
  | circle
  | path
  | eraseRect
  | line
  | arrow
  | text
  | other (tag : String)
  deriving DecidableEq

/-- A point `{ x, y }`. -/
structure Point where
  x : ℚ
  y : ℚ
  deriving DecidableEq

/-- The value of a `radius` property.  It is either a number carried by an
element as such, or the value `Math.sqrt(w * w + h * h) / 2` computed by the
circle tool, kept with its two arguments because it is irrational in
general. -/
inductive Radius where
  | lit (r : ℚ)
  | halfDiag (w h : ℚ)
  deriving DecidableEq

/-- The square of a radius value. -/
def Radius.sq : Radius → ℚ
  | .lit r => r * r
  | .halfDiag w h => (w * w + h * h) / 4

/-- Whether a radius value is `>= 0`. -/
def Radius.nonneg : Radius → Bool
  | .lit r => decide (0 ≤ r)
  | .halfDiag _ _ => true

/-- The comparison `Math.sqrt(s) <= radius` for `s ≥ 0`, decided on the
squares: a root is at most `r` when `r` is non-negative and `s ≤ r²`. -/
def sqrtLe (s : ℚ) : Radius → Bool
  | .lit r => decide (0 ≤ r ∧ s ≤ r * r)
  | .halfDiag w h => decide (4 * s ≤ w * w + h * h)

/-- The comparison `Math.hypot(a, b) < c`, decided on the squares. -/
def hypotLt (a b c : ℚ) : Bool :=
  decide (0 < c ∧ a * a + b * b < c * c)

/-- The test `Math.hypot(a, b) === 0`. -/
def hypotIsZero (a b : ℚ) : Bool :=
  decide (a * a + b * b = 0)

/-- A drawing element: a JavaScript object read through the properties the
canvas uses.  A property an element does not carry holds its default here.
The `width` property is the box width of a rectangle, erase-rect or text and
the stroke width of a path, line or arrow, as in the source. -/
structure Element where
  id : JsId
  type : ElType
  x : ℚ := 0
  y : ℚ := 0
  width : ℚ := 0
  height : ℚ := 0
  radius : Radius := .lit 0
  x1 : ℚ := 0
  y1 : ℚ := 0
  x2 : ℚ := 0
  y2 : ℚ := 0
  points : List Point := []
  color : String := ""
  lineWidth : ℚ := 0
  fill : Option String := none
  text : String := ""
  fontSize : ℚ := 0
  fontFamily : String := ""
  bold : Bool := false
  italic : Bool := false
  underline : Bool := false
  deriving DecidableEq

/-- An outbound socket message (the `roomId` of the payload is left out). -/
inductive Msg where
  | drawStart (x y : ℚ) (color : String) (width : ℚ)
  | drawMove (x y : ℚ)
  | drawEnd
  | addElement (element : Element)
  | updateElement (element : Element)
  | syncElements (elements : List Element)
  deriving DecidableEq

/-! ## Component state -/

/-- The tools of the toolbar. -/
inductive Tool where
  | pen
  | line
  | arrow
  | rectangle
  | circle
  | paint
  | text
  | eraser
  | drag
  deriving DecidableEq

/-- The `previewShape` state. -/
structure PreviewShape where
  type : String
  x1 : ℚ
  y1 : ℚ
  x2 : ℚ
  y2 : ℚ
  color : String := ""
  width : ℚ := 0
  deriving DecidableEq

/-- The `eraserRect` state. -/
structure EraserRect where
  x1 : ℚ
  y1 : ℚ
  x2 : ℚ
  y2 : ℚ
  deriving DecidableEq

/-- The `textFormatting` state. -/
structure TextFormatting where
  fontSize : ℚ := 18
  fontFamily : String := "Arial, sans-serif"
  bold : Bool := false
  italic : Bool := false
  underline : Bool := false
  deriving DecidableEq

/-- The `dragging` state; `elementId` is `none` for `null`. -/
structure Dragging where
  isDragging : Bool := false
  elementId : Option JsId := none
  initialMouseX : ℚ := 0
  initialMouseY : ℚ := 0
  originalElementX : ℚ := 0
  originalElementY : ℚ := 0
  originalElementX2 : ℚ := 0
  originalElementY2 : ℚ := 0
  deriving DecidableEq

/-- The React state of the `Canvas` component. -/
structure CanvasState where
  elements : List Element
  undoStack : List (List Element) := []
  redoStack : List (List Element) := []
  isDrawing : Bool := false
  startX : ℚ := 0
  startY : ℚ := 0
  currentPath : List Point := []
  previewShape : Option PreviewShape := none
  eraserPos : Option Point := none
  eraserRect : Option EraserRect := none
  editingTextId : Option JsId := none
  pendingText : String := ""
  textFormatting : TextFormatting := {}
  dragging : Dragging := {}
  deriving DecidableEq

/-- What a handler reads besides the state: the props `roomId`, `tool`,
`color`, `width`, whether the context holds a socket and whether it is
connected, the `lineWidth` of the 2d context, and the values `Date.now()`
and `Math.random()` return during the call.  `Math.random()` is only ever
read inside the sum `Date.now() + Math.random()`; `random` is what it adds
there, the sum (a double, the nearest one to the exact sum) minus
`Date.now()`. -/
structure Env where
  roomId : String
  tool : Tool
  color : String
  width : ℚ
  socket : Bool
  connected : Bool
  lineWidth : ℚ
  now : ℚ
  random : ℚ

/-- The id `Date.now() + Math.random()` given to a new element.  Nothing
compares it with the ids already in the sequence. -/
def Env.freshId (env : Env) : JsId :=
  .num (env.now + env.random)

/-- The name `emitSyncElements` destructured from `useSocket()`.  The hook
returns the context value of `SocketContext.js` spread with `onEvent`, and
that value has no `emitSyncElements` key: the name is `undefined`. -/
def emitSyncElements : Option (String → List Element → List Msg) :=
  none

/-- The messages of the guarded call
`if (roomId && emitSyncElements) emitSyncElements(roomId, state)`. -/
def syncCall (env : Env) (state : List Element) : List Msg :=
  match emitSyncElements with
  | some emit => if env.roomId ≠ "" then emit env.roomId state else []
  | none => []

/-! ## Undo, redo, clear -/

/-- The `handleUndo` callback. -/
def handleUndo (env : Env) (s : CanvasState) : CanvasState × List Msg :=
  if s.undoStack.length = 0 then (s, [])
  else
    match s.undoStack.getLast? with
    | none => (s, [])
    | some prevState =>
      ({ s with
          redoStack := s.elements :: s.redoStack
          elements := prevState
          undoStack := s.undoStack.dropLast },
        syncCall env prevState)

/-- The `handleRedo` callback. -/
def handleRedo (env : Env) (s : CanvasState) : CanvasState × List Msg :=
  if s.redoStack.length = 0 then (s, [])
  else
    match s.redoStack.head? with
    | none => (s, [])
    | some nextState =>
      ({ s with
          undoStack := s.undoStack ++ [s.elements]
          elements := nextState
          redoStack := s.redoStack.drop 1 },
        syncCall env nextState)

/-- The `clearCanvas` method of the imperative handle. -/
def clearCanvas (s : CanvasState) : CanvasState :=
  { s with elements := [], undoStack := [], redoStack := [] }

/-! ## Socket handlers for remote elements -/

/-- The state updater of the `update-element` listener. -/
def applyRemoteElementUpdate (element : Element) (prev : List Element) : List Element :=
  prev.map (fun el => if el.id = element.id then element else el)

/-- The state updater of the `add-element` listener. -/
def applyRemoteElementAdd (element : Element) (prev : List Element) : List Element :=
  if element.id.truthy && prev.any (fun el => decide (el.id = element.id)) then prev
  else prev ++ [element]

/-- The `update-element` listener. -/
def onUpdateElement (element : Element) (s : CanvasState) : CanvasState :=
  { s with elements := applyRemoteElementUpdate element s.elements }

/-- The `add-element` listener. -/
def onAddElement (element : Element) (s : CanvasState) : CanvasState :=
  { s with elements := applyRemoteElementAdd element s.elements }

/-- The `sync-elements` listener, on a payload whose `elements` is an array. -/
def onSyncElements (elements : List Element) (s : CanvasState) : CanvasState :=
  { s with elements := elements, undoStack := [], redoStack := [] }

/-! ## Hit test -/

/-- The two arguments of the final `Math.hypot` of `distToSegment`; the
caller tests `Math.hypot(px - closestX, py - closestY) < 8`. -/
def distToSegment (px py x1 y1 x2 y2 : ℚ) : ℚ × ℚ :=
  let L2 := (x2 - x1) * (x2 - x1) + (y2 - y1) * (y2 - y1)
  if L2 = 0 then (px - x1, py - y1)
  else
    let t := ((px - x1) * (x2 - x1) + (py - y1) * (y2 - y1)) / L2
    if t < 0 then (px - x1, py - y1)
    else if t > 1 then (px - x2, py - y2)
    else (px - (x1 + t * (x2 - x1)), py - (y1 + t * (y2 - y1)))

/-- The inner loop of the path branch, over consecutive point pairs. -/
def pathNear (x y : ℚ) : List Point → Bool
  | p1 :: p2 :: rest =>
    let d := distToSegment x y p1.x p1.y p2.x p2.y
    if hypotLt d.1 d.2 8 then true else pathNear x y (p2 :: rest)
  | _ => false

/-- The line/arrow branch of `hitTestElement` as written, after
`const length = Math.hypot(x2 - x1, y2 - y1)`: the number `length` that
`Math.hypot` returned is an argument.  It is a double close to the root of
`(x2 - x1)² + (y2 - y1)²`, in general not the root itself, and which double
is left to the engine. -/
def lineHitWith (length x y x1 y1 x2 y2 : ℚ) : Bool :=
  if length = 0 then false
  else
    let dot := ((x - x1) * (x2 - x1) + (y - y1) * (y2 - y1)) / (length * length)
    let closestX := x1 + dot * (x2 - x1)
    let closestY := y1 + dot * (y2 - y1)
    let onSegment :=
      decide (closestX ≥ min x1 x2) && decide (closestX ≤ max x1 x2) &&
      decide (closestY ≥ min y1 y2) && decide (closestY ≤ max y1 y2)
    if !onSegment then false
    else hypotLt (closestX - x) (closestY - y) 8

/-- The line/arrow branch of `hitTestElement` in the exact reading:
`length * length` is the squared length `(x2 - x1)² + (y2 - y1)²`.  It is
`lineHitWith` for every `length` whose square is that number; for another
`length` the two can differ only where the closest point falls on the far
end `(x2, y2)` of the segment or within a rounding error of it. -/
def lineHit (x y x1 y1 x2 y2 : ℚ) : Bool :=
  if hypotIsZero (x2 - x1) (y2 - y1) then false
  else
    let dot := ((x - x1) * (x2 - x1) + (y - y1) * (y2 - y1)) /
      ((x2 - x1) * (x2 - x1) + (y2 - y1) * (y2 - y1))
    let closestX := x1 + dot * (x2 - x1)
    let closestY := y1 + dot * (y2 - y1)
    let onSegment :=
      decide (closestX ≥ min x1 x2) && decide (closestX ≤ max x1 x2) &&
      decide (closestY ≥ min y1 y2) && decide (closestY ≤ max y1 y2)
    if !onSegment then false
    else hypotLt (closestX - x) (closestY - y) 8

/-- The value `v || d` for a number `v`. -/
def orDefault (v d : ℚ) : ℚ :=
  if v = 0 then d else v

/-- The body of the loop of `hitTestElement`: whether the element at hand
is returned for the point `(x, y)`. -/
def hitsElement (x y : ℚ) (el : Element) : Bool :=
  match el.type with
  | .rectangle =>
    decide (x ≥ el.x) && decide (x ≤ el.x + el.width) &&
    decide (y ≥ el.y) && decide (y ≤ el.y + el.height)
  | .circle =>
    let dx := x - el.x
    let dy := y - el.y
    sqrtLe (dx * dx + dy * dy) el.radius
  | .text =>
    decide (x ≥ el.x) && decide (x ≤ el.x + orDefault el.width 200) &&
    decide (y ≥ el.y) && decide (y ≤ el.y + orDefault el.height 30)
  | .path => pathNear x y el.points
  | .line => lineHit x y el.x1 el.y1 el.x2 el.y2
  | .arrow => lineHit x y el.x1 el.y1 el.x2 el.y2
  | _ => false

/-- The loop `for (let i = elements.length - 1; i >= 0; i--)` of
`hitTestElement`, entered with `n = i + 1`. -/
def hitTestLoop (elements : List Element) (x y : ℚ) : Nat → Option Element
  | 0 => none
  | i + 1 =>
    match elements[i]? with
    | some el => if hitsElement x y el then some el else hitTestLoop elements x y i
    | none => hitTestLoop elements x y i

/-- The function `hitTestElement(x, y)` on the current `elements`. -/
def hitTestElement (elements : List Element) (x y : ℚ) : Option Element :=
  hitTestLoop elements x y elements.length

/-- The predicate of `elements.findLast(...)` in the paint branch of
`startDrawing`. -/
def paintHits (x y : ℚ) (el : Element) : Bool :=
  match el.type with
  | .rectangle =>
    decide (x ≥ el.x) && decide (x ≤ el.x + el.width) &&
    decide (y ≥ el.y) && decide (y ≤ el.y + el.height)
  | .circle =>
    let dx := x - el.x
    let dy := y - el.y
    sqrtLe (dx * dx + dy * dy) el.radius
  | _ => false

/-! ## Tool handlers -/

/-- The three calls every local edit makes:
`setUndoStack((prev) => [...prev, elements])`, `setRedoStack([])` and
`setElements(update)`. -/
def commit (update : List Element → List Element) (s : CanvasState) : CanvasState :=
  { s with
      undoStack := s.undoStack ++ [s.elements]
      redoStack := []
      elements := update s.elements }

/-- The messages of `if (socket) socket.emit(...)`. -/
def socketEmit (env : Env) (m : Msg) : List Msg :=
  if env.socket then [m] else []

/-- The messages of a context emitter (`emitDrawStart`, `emitDrawMove`,
`emitDrawEnd`), which sends `if (socket && connected)`. -/
def contextEmit (env : Env) (m : Msg) : List Msg :=
  if env.socket && env.connected then [m] else []

/-- The `type` string a tool gives to the preview it opens. -/
def Tool.tag : Tool → String
  | .pen => "pen"
  | .line => "line"
  | .arrow => "arrow"
  | .rectangle => "rectangle"
  | .circle => "circle"
  | .paint => "paint"
  | .text => "text"
  | .eraser => "eraser"
  | .drag => "drag"

/-- The function `startDrawing` at cursor position `(x, y)`. -/
def startDrawing (env : Env) (x y : ℚ) (s : CanvasState) : CanvasState × List Msg :=
  match env.tool with
  | .pen =>
    ({ s with isDrawing := true, currentPath := [⟨x, y⟩] },
      contextEmit env (.drawStart x y env.color env.width))
  | .text =>
    ({ s with
        isDrawing := false
        startX := x
        startY := y
        editingTextId := some (.str "pending")
        previewShape := none }, [])
  | .rectangle =>
    ({ s with
        startX := x
        startY := y
        isDrawing := true
        previewShape := some
          { type := env.tool.tag, x1 := x, y1 := y, x2 := x, y2 := y,
            color := env.color, width := env.width } }, [])
  | .circle =>
    ({ s with
        startX := x
        startY := y
        isDrawing := true
        previewShape := some
          { type := env.tool.tag, x1 := x, y1 := y, x2 := x, y2 := y,
            color := env.color, width := env.width } }, [])
  | .eraser =>
    ({ s with
        isDrawing := true
        startX := x
        startY := y
        eraserRect := some { x1 := x, y1 := y, x2 := x, y2 := y } }, [])
  | .paint =>
    match s.elements.reverse.find? (paintHits x y) with
    | some clickedElement =>
      let newElement : Element :=
        { clickedElement with id := env.freshId, fill := some env.color }
      (commit (fun prev => prev ++ [newElement]) s,
        socketEmit env (.addElement newElement))
    | none => (s, [])
  | .line =>
    ({ s with
        startX := x
        startY := y
        isDrawing := true
        previewShape := some
          { type := env.tool.tag, x1 := x, y1 := y, x2 := x, y2 := y,
            color := env.color, width := env.lineWidth } }, [])
  | .arrow =>
    ({ s with
        startX := x
        startY := y
        isDrawing := true
        previewShape := some
          { type := env.tool.tag, x1 := x, y1 := y, x2 := x, y2 := y,
            color := env.color, width := env.lineWidth } }, [])
  | .drag => (s, [])

/-- The preview update `prev ? { ...prev, x2: x, y2: y } : fresh`. -/
def movePreview (x y : ℚ) (fresh : PreviewShape) : Option PreviewShape → Option PreviewShape
  | some prev => some { prev with x2 := x, y2 := y }
  | none => some fresh

/-- The function `draw` at cursor position `(x, y)`. -/
def draw (env : Env) (x y : ℚ) (s : CanvasState) : CanvasState × List Msg :=
  if !s.isDrawing then
    if env.tool = .eraser then ({ s with eraserPos := some ⟨x, y⟩ }, [])
    else (s, [])
  else
    match env.tool with
    | .pen =>
      ({ s with currentPath := s.currentPath ++ [⟨x, y⟩] },
        contextEmit env (.drawMove x y))
    | .text =>
      let fresh : PreviewShape :=
        { type := "text-area", x1 := s.startX, y1 := s.startY, x2 := x, y2 := y }
      ({ s with previewShape := movePreview x y fresh s.previewShape }, [])
    | .rectangle =>
      let fresh : PreviewShape :=
        { type := env.tool.tag, x1 := s.startX, y1 := s.startY, x2 := x, y2 := y,
          color := env.color, width := env.width }
      ({ s with previewShape := movePreview x y fresh s.previewShape }, [])
    | .circle =>
      let fresh : PreviewShape :=
        { type := env.tool.tag, x1 := s.startX, y1 := s.startY, x2 := x, y2 := y,
          color := env.color, width := env.width }
      ({ s with previewShape := movePreview x y fresh s.previewShape }, [])
    | .eraser =>
      let next : EraserRect :=
        match s.eraserRect with
        | some prev => { prev with x2 := x, y2 := y }
        | none => { x1 := s.startX, y1 := s.startY, x2 := x, y2 := y }
      ({ s with eraserRect := some next }, [])
    | .line =>
      let fresh : PreviewShape := { type := "", x1 := 0, y1 := 0, x2 := x, y2 := y }
      ({ s with previewShape := movePreview x y fresh s.previewShape }, [])
    | .arrow =>
      let fresh : PreviewShape := { type := "", x1 := 0, y1 := 0, x2 := x, y2 := y }
      ({ s with previewShape := movePreview x y fresh s.previewShape }, [])
    | _ => (s, [])

/-- The element built by the text branch of `stopDrawing`; its id is
`Date.now()`, and `fontSize` is the number in front of the `px` suffix. -/
def newTextElement (env : Env) (x y : ℚ) (s : CanvasState) : Element :=
  { id := .num env.now
    type := .text
    x := min s.startX x
    y := min s.startY y
    width := |x - s.startX|
    height := |y - s.startY|
    text := ""
    color := env.color
    fontSize := max 14 (env.width * 5)
    fontFamily := s.textFormatting.fontFamily
    bold := s.textFormatting.bold
    italic := s.textFormatting.italic
    underline := s.textFormatting.underline }

/-- The element built by the rectangle branch of `stopDrawing`. -/
def newRectangle (env : Env) (x y : ℚ) (s : CanvasState) : Element :=
  { id := env.freshId
    type := .rectangle
    x := s.startX
    y := s.startY
    width := x - s.startX
    height := y - s.startY
    color := env.color
    lineWidth := env.lineWidth }

/-- The element built by the circle branch of `stopDrawing`. -/
def newCircle (env : Env) (x y : ℚ) (s : CanvasState) : Element :=
  let w := x - s.startX
  let h := y - s.startY
  { id := env.freshId
    type := .circle
    x := s.startX + w / 2
    y := s.startY + h / 2
    radius := .halfDiag w h
    color := env.color
    lineWidth := env.lineWidth }

/-- The element built by the eraser branch of `stopDrawing`. -/
def eraseElement (env : Env) (x y : ℚ) (s : CanvasState) : Element :=
  let left := min s.startX x
  let top := min s.startY y
  let right := max s.startX x
  let bottom := max s.startY y
  { id := env.freshId
    type := .eraseRect
    x := left
    y := top
    width := right - left
    height := bottom - top }

/-- The element built by the pen branch of `stopDrawing`. -/
def newPath (env : Env) (s : CanvasState) : Element :=
  { id := env.freshId
    type := .path
    color := env.color
    width := env.lineWidth
    points := s.currentPath }

/-- The element built by the line/arrow branch of `stopDrawing`. -/
def newLine (env : Env) (type : ElType) (x y : ℚ) (s : CanvasState) : Element :=
  { id := env.freshId
    type := type
    x1 := s.startX
    y1 := s.startY
    x2 := x
    y2 := y
    color := env.color
    width := env.lineWidth }

/-- The function `stopDrawing` at cursor position `(x, y)`. -/
def stopDrawing (env : Env) (x y : ℚ) (s : CanvasState) : CanvasState × List Msg :=
  if !s.isDrawing then (s, [])
  else
    match env.tool with
    | .text =>
      let el := newTextElement env x y s
      ({ commit (fun prev => prev ++ [el]) s with
          isDrawing := false
          editingTextId := some el.id
          previewShape := none },
        socketEmit env (.addElement el))
    | .rectangle =>
      let el := newRectangle env x y s
      ({ commit (fun prev => prev ++ [el]) s with
          isDrawing := false
          previewShape := none },
        socketEmit env (.addElement el))
    | .circle =>
      let el := newCircle env x y s
      ({ commit (fun prev => prev ++ [el]) s with
          isDrawing := false
          previewShape := none },
        socketEmit env (.addElement el))
    | .eraser =>
      let el := eraseElement env x y s
      ({ commit (fun prev => prev ++ [el]) s with
          isDrawing := false
          eraserRect := none
          eraserPos := none },
        socketEmit env (.addElement el))
    | .pen =>
      let el := newPath env s
      ({ commit (fun prev => prev ++ [el]) s with
          currentPath := []
          isDrawing := false },
        contextEmit env .drawEnd ++ socketEmit env (.addElement el))
    | .line =>
      let el := newLine env .line x y s
      ({ commit (fun prev => prev ++ [el]) s with
          isDrawing := false
          previewShape := none },
        socketEmit env (.addElement el))
    | .arrow =>
      let el := newLine env .arrow x y s
      ({ commit (fun prev => prev ++ [el]) s with
          isDrawing := false
          previewShape := none },
        socketEmit env (.addElement el))
    | _ => (s, [])

/-- JavaScript truthiness of `dragging.elementId` / `editingTextId`. -/
def idTruthy : Option JsId → Bool
  | some i => i.truthy
  | none => false

/-- The state updater of the drag pointer-down: move the element with the
given id to the end of the array (`findIndex`, `splice`, `push`). -/
def bringToTop (id : JsId) (prev : List Element) : List Element :=
  match prev.findIdx? (fun e => decide (e.id = id)) with
  | none => prev
  | some idx =>
    match prev[idx]? with
    | some dragged => prev.eraseIdx idx ++ [dragged]
    | none => prev

/-- The function `handleCanvasMouseDown`.  A path returned by the hit test
has at least two points, so `points[0]` exists; the default stands for the
case that cannot arise. -/
def handleCanvasMouseDown (env : Env) (x y : ℚ) (s : CanvasState) :
    CanvasState × List Msg :=
  if env.tool = .drag then
    match hitTestElement s.elements x y with
    | some clickedElement =>
      let p0 := clickedElement.points.headD ⟨0, 0⟩
      let isLine := decide (clickedElement.type = .line) || decide (clickedElement.type = .arrow)
      let originalX :=
        if clickedElement.type = .path then p0.x
        else if isLine then clickedElement.x1 else clickedElement.x
      let originalY :=
        if clickedElement.type = .path then p0.y
        else if isLine then clickedElement.y1 else clickedElement.y
      let originalElementX2 :=
        if clickedElement.type = .path then 0
        else if isLine then clickedElement.x2 else 0
      let originalElementY2 :=
        if clickedElement.type = .path then 0
        else if isLine then clickedElement.y2 else 0
      ({ commit (bringToTop clickedElement.id) s with
          dragging :=
            { isDragging := true
              elementId := some clickedElement.id
              initialMouseX := x
              initialMouseY := y
              originalElementX := originalX
              originalElementY := originalY
              originalElementX2 := originalElementX2
              originalElementY2 := originalElementY2 } }, [])
    | none => (s, [])
  else startDrawing env x y s

/-- The callback mapped over the elements by the drag branch of
`handleCanvasMouseMove`, for the pointer delta `(dx, dy)`. -/
def dragElement (d : Dragging) (dx dy : ℚ) (el : Element) : Element :=
  if some el.id ≠ d.elementId then el
  else
    match el.type with
    | .rectangle => { el with x := d.originalElementX + dx, y := d.originalElementY + dy }
    | .text => { el with x := d.originalElementX + dx, y := d.originalElementY + dy }
    | .circle => { el with x := d.originalElementX + dx, y := d.originalElementY + dy }
    | .path =>
      let p0 := el.points.headD ⟨0, 0⟩
      let offsetX := d.originalElementX + dx - p0.x
      let offsetY := d.originalElementY + dy - p0.y
      { el with points := el.points.map (fun pt => ⟨pt.x + offsetX, pt.y + offsetY⟩) }
    | .line =>
      { el with
          x1 := d.originalElementX + dx
          y1 := d.originalElementY + dy
          x2 := d.originalElementX2 + dx
          y2 := d.originalElementY2 + dy }
    | .arrow =>
      { el with
          x1 := d.originalElementX + dx
          y1 := d.originalElementY + dy
          x2 := d.originalElementX2 + dx
          y2 := d.originalElementY2 + dy }
    | _ => el

/-- The function `handleCanvasMouseMove`. -/
def handleCanvasMouseMove (env : Env) (x y : ℚ) (s : CanvasState) :
    CanvasState × List Msg :=
  if s.dragging.isDragging && idTruthy s.dragging.elementId then
    let dx := x - s.dragging.initialMouseX
    let dy := y - s.dragging.initialMouseY
    (commit (fun prev => prev.map (dragElement s.dragging dx dy)) s, [])
  else if !s.dragging.isDragging then draw env x y s
  else (s, [])

/-- The drag release shared by `handleCanvasMouseUp` and
`handleCanvasMouseLeave`: reset `dragging` and emit the element found under
the dragged id. -/
def endDrag (env : Env) (s : CanvasState) : CanvasState × List Msg :=
  let reset : Dragging :=
    { isDragging := false
      elementId := none
      initialMouseX := 0
      initialMouseY := 0
      originalElementX := 0
      originalElementY := 0
      originalElementX2 := 0
      originalElementY2 := 0 }
  ({ s with dragging := reset },
    match s.elements.find? (fun el => decide (some el.id = s.dragging.elementId)) with
    | some updatedElement => socketEmit env (.updateElement updatedElement)
    | none => [])

/-- The function `handleCanvasMouseUp`. -/
def handleCanvasMouseUp (env : Env) (x y : ℚ) (s : CanvasState) :
    CanvasState × List Msg :=
  if s.dragging.isDragging then endDrag env s
  else stopDrawing env x y s

/-- The function `handleCanvasMouseLeave`. -/
def handleCanvasMouseLeave (env : Env) (x y : ℚ) (s : CanvasState) :
    CanvasState × List Msg :=
  let r1 := if s.dragging.isDragging then endDrag env s else (s, [])
  let r2 := stopDrawing env x y { r1.1 with eraserPos := none }
  (r2.1, r1.2 ++ r2.2)

/-! ## Text editor handlers -/

/-- The argument of `handleTextFormatting`. -/
inductive FormatUpdate where
  | fontSize (size : ℚ)
  | fontFamily (family : String)
  | fontStyle (bold italic underline : Bool)
  deriving DecidableEq

/-- The spread `{ ...prev, ...updates }` on the formatting state. -/
def FormatUpdate.onFormatting : FormatUpdate → TextFormatting → TextFormatting
  | .fontSize size, f => { f with fontSize := size }
  | .fontFamily family, f => { f with fontFamily := family }
  | .fontStyle b i u, f => { f with bold := b, italic := i, underline := u }

/-- The spread `{ ...el, ...updates }` on an element. -/
def FormatUpdate.onElement : FormatUpdate → Element → Element
  | .fontSize size, el => { el with fontSize := size }
  | .fontFamily family, el => { el with fontFamily := family }
  | .fontStyle b i u, el => { el with bold := b, italic := i, underline := u }

/-- The function `handleTextFormatting`. -/
def handleTextFormatting (updates : FormatUpdate) (s : CanvasState) : CanvasState :=
  let s1 := { s with textFormatting := updates.onFormatting s.textFormatting }
  if idTruthy s.editingTextId then
    commit (fun prev => prev.map (fun el =>
      if some el.id = s.editingTextId then updates.onElement el else el)) s1
  else s1

/-- The `onChange` handler of the textarea, which is rendered only while
`editingTextId` is truthy. -/
def onTextChange (value : String) (s : CanvasState) : CanvasState :=
  if idTruthy s.editingTextId then
    { commit (fun prev => prev.map (fun el =>
        if some el.id = s.editingTextId then { el with text := value } else el)) s with
      pendingText := value }
  else s

/-- The element built by the `Done` button. -/
def doneTextElement (env : Env) (s : CanvasState) : Element :=
  { id := .num env.now
    type := .text
    x := s.startX
    y := s.startY
    width := 100
    height := 50
    text := s.pendingText
    color := env.color
    fontSize := max 14 (env.width * 5)
    fontFamily := s.textFormatting.fontFamily
    bold := s.textFormatting.bold
    italic := s.textFormatting.italic
    underline := s.textFormatting.underline }

/-- The code points `String.prototype.trim` removes: the white space and
line terminator characters of ECMAScript. -/
def isJsWhiteSpace (c : Char) : Bool :=
  let n := c.toNat
  decide (n = 0x09) || decide (n = 0x0A) || decide (n = 0x0B) || decide (n = 0x0C) ||
  decide (n = 0x0D) || decide (n = 0x20) || decide (n = 0xA0) || decide (n = 0x1680) ||
  (decide (0x2000 ≤ n) && decide (n ≤ 0x200A)) ||
  decide (n = 0x2028) || decide (n = 0x2029) || decide (n = 0x202F) ||
  decide (n = 0x205F) || decide (n = 0x3000) || decide (n = 0xFEFF)

/-- The method `String.prototype.trim`. -/
def jsTrim (s : String) : String :=
  String.mk ((s.toList.dropWhile isJsWhiteSpace).reverse.dropWhile isJsWhiteSpace).reverse

/-- The `onClick` handler of the `Done` button. -/
def onTextDone (env : Env) (s : CanvasState) : CanvasState × List Msg :=
  if idTruthy s.editingTextId then
    if jsTrim s.pendingText ≠ "" then
      let el := doneTextElement env s
      ({ commit (fun prev => prev ++ [el]) s with
          editingTextId := none
          pendingText := "" },
        socketEmit env (.addElement el))
    else ({ s with editingTextId := none }, [])
  else (s, [])

/-- The close button and the Escape key of the text editor. -/
def onTextClose (s : CanvasState) : CanvasState :=
  { s with editingTextId := none }

/-! ## Events -/

/-- A user event on the canvas or its text editor, with the cursor position
`getCursorPosition` returns for it. -/
inductive Event where
  | mouseDown (x y : ℚ)
  | mouseMove (x y : ℚ)
  | mouseUp (x y : ℚ)
  | mouseLeave (x y : ℚ)
  | textChange (value : String)
  | textDone
  | textClose
  | format (updates : FormatUpdate)
  deriving DecidableEq

/-- The handler the component runs for an event. -/
def step (env : Env) (e : Event) (s : CanvasState) : CanvasState × List Msg :=
  match e with
  | .mouseDown x y => handleCanvasMouseDown env x y s
  | .mouseMove x y => handleCanvasMouseMove env x y s
  | .mouseUp x y => handleCanvasMouseUp env x y s
  | .mouseLeave x y => handleCanvasMouseLeave env x y s
  | .textChange value => (onTextChange value s, [])
  | .textDone => onTextDone env s
  | .textClose => (onTextClose s, [])
  | .format updates => (handleTextFormatting updates s, [])

/-- The state after a sequence of events, each with the environment its
handler runs in, and the messages sent on the way. -/
def run : List (Env × Event) → CanvasState → CanvasState × List Msg
  | [], s => (s, [])
  | (env, e) :: es, s =>
    let r := step env e s
    let r2 := run es r.1
    (r2.1, r.2 ++ r2.2)

/-- The inbound listener a message sent by a peer reaches.  The stroke
preview messages draw on the 2d context and leave the state alone. -/
def receive (m : Msg) (s : CanvasState) : CanvasState :=
  match m with
  | .addElement element => onAddElement element s
  | .updateElement element => onUpdateElement element s
  | .syncElements elements => onSyncElements elements s
  | .drawStart _ _ _ _ => s
  | .drawMove _ _ => s
  | .drawEnd => s

/-- The state of a peer after the messages reach it in the order sent. -/
def deliver (ms : List Msg) (s : CanvasState) : CanvasState :=
  ms.foldl (fun st m => receive m st) s

/-- Pointer-move events at the given points, in one environment. -/
def movesOf (env : Env) (pts : List Point) : List (Env × Event) :=
  pts.map (fun p => (env, Event.mouseMove p.x p.y))

/-- A pointer gesture: pointer-down at `a`, pointer-moves through `pts`,
pointer-up at `b`, all in one environment. -/
def gesture (env : Env) (a : Point) (pts : List Point) (b : Point) : List (Env × Event) :=
  (env, Event.mouseDown a.x a.y) :: (movesOf env pts ++ [(env, Event.mouseUp b.x b.y)])

/-- The value of `data.elements` in a `sync-elements` payload: an array of
elements, or anything else. -/
inductive SyncData where
  | array (elements : List Element)
  | notArray
  deriving DecidableEq

/-- The `sync-elements` listener with its guard
`if (Array.isArray(data.elements))`. -/
def syncElementsListener (data : SyncData) (s : CanvasState) : CanvasState :=
  match data with
  | .array elements => onSyncElements elements s
  | .notArray => s

/-- The `add-element` listener on a payload whose `element` field may be
absent (`none`).  The state updater evaluates `element.id`; on an absent
element this throws a `TypeError`. -/
def addElementListener (element : Option Element) (s : CanvasState) :
    Except String CanvasState :=
  match element with
  | some el => .ok (onAddElement el s)
  | none => .error "TypeError: cannot read properties of undefined (reading 'id')"

/-- The `update-element` listener on a payload whose `element` field may be
absent (`none`).  The callback of `prev.map` evaluates `element.id` for the
first element of the sequence; on an empty sequence it is never called. -/
def updateElementListener (element : Option Element) (s : CanvasState) :
    Except String CanvasState :=
  match element with
  | some el => .ok (onUpdateElement el s)
  | none =>
    if s.elements = [] then .ok s
    else .error "TypeError: cannot read properties of undefined (reading 'id')"

/-- The drag state `handleCanvasMouseDown` records for the element it hits,
with the pointer at `(x, y)`. -/
def dragOf (clickedElement : Element) (x y : ℚ) : Dragging :=
  let p0 := clickedElement.points.headD ⟨0, 0⟩
  let isLine := decide (clickedElement.type = .line) || decide (clickedElement.type = .arrow)
  { isDragging := true
    elementId := some clickedElement.id
    initialMouseX := x
    initialMouseY := y
    originalElementX :=
      if clickedElement.type = .path then p0.x
      else if isLine then clickedElement.x1 else clickedElement.x
    originalElementY :=
      if clickedElement.type = .path then p0.y
      else if isLine then clickedElement.y1 else clickedElement.y
    originalElementX2 :=
      if clickedElement.type = .path then 0
      else if isLine then clickedElement.x2 else 0
    originalElementY2 :=
      if clickedElement.type = .path then 0
      else if isLine then clickedElement.y2 else 0 }

/-- The element translated by `(dx, dy)`, in the words of the drag rule:
`x, y` for a rectangle, circle or text, both endpoints for a line or arrow,
every point for a path; an element of another type is left as it is. -/
def translated (dx dy : ℚ) (el : Element) : Element :=
  match el.type with
  | .rectangle => { el with x := el.x + dx, y := el.y + dy }
  | .circle => { el with x := el.x + dx, y := el.y + dy }
  | .text => { el with x := el.x + dx, y := el.y + dy }
  | .line =>
    { el with x1 := el.x1 + dx, y1 := el.y1 + dy, x2 := el.x2 + dx, y2 := el.y2 + dy }
  | .arrow =>
    { el with x1 := el.x1 + dx, y1 := el.y1 + dy, x2 := el.x2 + dx, y2 := el.y2 + dy }
  | .path => { el with points := el.points.map (fun pt => ⟨pt.x + dx, pt.y + dy⟩) }
  | _ => el

/-- The state after `handleUndo`. -/
def undoStep (env : Env) (s : CanvasState) : CanvasState :=
  (handleUndo env s).1

/-- The state after `handleRedo`. -/
def redoStep (env : Env) (s : CanvasState) : CanvasState :=
  (handleRedo env s).1

/-- The relation "`t` is reached from `s` by the element-creating commits
`es`, in this order": each commit takes a state with sequence `E` and undo
stack `U` to one with sequence `E ++ [e]`, undo stack `U ++ [E]` and an empty
redo stack, whatever it does to the transient state. -/
inductive Commits : CanvasState → List Element → CanvasState → Prop where
  | none (s : CanvasState) : Commits s [] s
  | next (s t t2 : CanvasState) (es : List Element) (e : Element) :
      Commits s es t →
      t2.elements = t.elements ++ [e] →
      t2.undoStack = t.undoStack ++ [t.elements] →
      t2.redoStack = [] →
      Commits s (es ++ [e]) t2

/-! ## Sample values -/

/-- A sample environment: the pen tool in a connected room. -/
def sampleEnv : Env :=
  { roomId := "room", tool := .pen, color := "#000000", width := 2,
    socket := true, connected := true, lineWidth := 2, now := 1000, random := 1 / 2 }

/-- The sample environment with another tool selected. -/
def sampleEnvWith (tool : Tool) : Env :=
  { sampleEnv with tool := tool }

/-- A sample rectangle with the given id, at (10,10) and of size 100 by 50. -/
def sampleRect (id : JsId) : Element :=
  { id := id, type := .rectangle, x := 10, y := 10, width := 100, height := 50 }

/-- A sample state: one rectangle drawn on an empty board. -/
def sampleState : CanvasState :=
  { elements := [sampleRect (.num 1)], undoStack := [[]] }

/-- A sample state in the middle of a pen stroke. -/
def samplePenState : CanvasState :=
  { elements := [sampleRect (.num 1)], undoStack := [[]], isDrawing := true,
    currentPath := [⟨0, 0⟩, ⟨5, 5⟩] }

/-- The empty board. -/
def emptyBoard : CanvasState :=
  { elements := [] }

/-- The empty board after two commits: a rectangle, then a circle. -/
def sampleTwoCommits : CanvasState :=
  commit (fun prev => prev ++ [{ id := .num 2, type := .circle, radius := .lit 10 }])
    (commit (fun prev => prev ++ [sampleRect (.num 1)]) emptyBoard)

/-- A sample circle: centre (0,0), radius 10. -/
def sampleCircle : Element :=
  { id := .num 2, type := .circle, x := 0, y := 0, radius := .lit 10 }

/-- A sample path with the two points (0,0) and (100,0). -/
def samplePath : Element :=
  { id := .num 4, type := .path, points := [⟨0, 0⟩, ⟨100, 0⟩] }

/-- A sample erase-rect at (10,10) of size 100 by 50. -/
def sampleErase : Element :=
  { id := .num 5, type := .eraseRect, x := 10, y := 10, width := 100, height := 50 }

/-- A sample board: the sample rectangle beneath the sample circle. -/
def sampleBoard : CanvasState :=
  { elements := [sampleRect (.num 1),
      { id := .num 2, type := .circle, x := 0, y := 0, radius := .lit 10 }] }

/-- A board holding one rectangle that carries no id. -/
def sampleNoIdBoard : CanvasState :=
  { elements := [sampleRect .undef] }

/-- A board on which a circle and the sample rectangle above it carry the
same id. -/
def sampleDuplicateBoard : CanvasState :=
  { elements := [{ id := .num 1, type := .circle, x := 0, y := 0, radius := .lit 10 },
      sampleRect (.num 1)] }

/-- A sample text box at (10,10) of size 100 by 50. -/
def sampleText : Element :=
  { id := .num 6, type := .text, x := 10, y := 10, width := 100, height := 50, text := "note" }

/-- A board holding the sample rectangle beneath the sample text box. -/
def sampleTextBoard : CanvasState :=
  { elements := [sampleRect (.num 1), sampleText] }

/-- A circle that carries no id: centre (200,200), radius 10. -/
def noIdCircle : Element :=
  { id := .undef, type := .circle, x := 200, y := 200, radius := .lit 10 }

/-- The empty board after the add-element messages for a rectangle and a
circle that carry no id. -/
def sampleTwoNoIdBoard : CanvasState :=
  deliver [.addElement (sampleRect .undef), .addElement noIdCircle] emptyBoard

/-- The state and the messages of the empty board after a rectangle-tool drag
from the anchor (110,60) up and to the left to (10,10). -/
def sampleLeftward : CanvasState × List Msg :=
  run (gesture (sampleEnvWith .rectangle) ⟨110, 60⟩ [] ⟨10, 10⟩) emptyBoard

/-- The paint tool at a moment when `Date.now()` is 1762348800123 and
`Math.random()` is 0.5. -/
def sampleClockEnv : Env :=
  { sampleEnvWith .paint with now := 1762348800123, random := 1 / 2 }

/-- A board holding the sample rectangle under the id 1762348800123.5. -/
def sampleClockBoard : CanvasState :=
  { elements := [sampleRect (.num (1762348800123 + 1 / 2))] }

/-- The double `8.06225774829855`, which `Math.hypot(1, 8)` evaluates to: the
double nearest to the root of 65.  Its square is below 65. -/
def hypotOneEight : ℚ :=
  283665476492205 / 35184372088832

/-- A sample line from (0,0) to (100,0). -/
def sampleLine : Element :=
  { id := .num 3, type := .line, x1 := 0, y1 := 0, x2 := 100, y2 := 0 }

/-! ## Undo and redo -/

/-- C1: on a state whose undo stack is non-empty, undo followed by redo
gives back the element sequence, the undo stack and the redo stack the
state had before the undo (the whole component state is restored). -/
theorem undo_then_redo_restores (env env2 : Env) (s : CanvasState)
    (h : s.undoStack ≠ []) :
    (handleRedo env2 (handleUndo env s).1).1.elements = s.elements ∧
    (handleRedo env2 (handleUndo env s).1).1.undoStack = s.undoStack ∧
    (handleRedo env2 (handleUndo env s).1).1.redoStack = s.redoStack ∧
    (handleRedo env2 (handleUndo env s).1).1 = s := by
  obtain ⟨elements, undoStack, redoStack⟩ := s
  simp only at h
  obtain ⟨prevState, hlast⟩ : ∃ a, undoStack.getLast? = some a := by
    cases hl : undoStack.getLast? with
    | none => exact absurd (List.getLast?_eq_none_iff.mp hl) h
    | some a => exact ⟨a, rfl⟩
  have hrestore : undoStack.dropLast ++ [prevState] = undoStack :=
    List.dropLast_append_getLast? prevState (by simp [hlast])
  simp [handleUndo, handleRedo, h, hlast, hrestore]

/-- Witness for C1: one snapshot on the undo stack. -/
theorem undo_then_redo_restores_witness :
    sampleState.undoStack ≠ [] ∧
    (handleRedo sampleEnv (handleUndo sampleEnv sampleState).1).1.elements
      = sampleState.elements ∧
    (handleRedo sampleEnv (handleUndo sampleEnv sampleState).1).1.undoStack
      = sampleState.undoStack ∧
    (handleRedo sampleEnv (handleUndo sampleEnv sampleState).1).1.redoStack
      = sampleState.redoStack ∧
    (handleRedo sampleEnv (handleUndo sampleEnv sampleState).1).1 = sampleState :=
  ⟨by simp [sampleState],
    undo_then_redo_restores sampleEnv sampleEnv sampleState (by simp [sampleState])⟩

/-! ## Remote element handlers -/

/-- Adding an element whose id is truthy and already present changes
nothing. -/
theorem applyRemoteElementAdd_of_mem (element : Element) (prev : List Element)
    (ht : element.id.truthy = true) (hm : ∃ el ∈ prev, el.id = element.id) :
    applyRemoteElementAdd element prev = prev := by
  unfold applyRemoteElementAdd
  have hany : prev.any (fun el => decide (el.id = element.id)) = true := by
    simpa [List.any_eq_true] using hm
  simp [ht, hany]

/-- After an add, the element's id is in the sequence. -/
theorem applyRemoteElementAdd_has_id (element : Element) (prev : List Element) :
    ∃ el ∈ applyRemoteElementAdd element prev, el.id = element.id := by
  unfold applyRemoteElementAdd
  split
  · rename_i h
    simp only [Bool.and_eq_true, List.any_eq_true, decide_eq_true_eq] at h
    exact h.2
  · exact ⟨element, by simp, rfl⟩

/-- C2, as the code has it: for every element sequence and every incoming
element whose id is truthy (present, not `0`, not the empty string),
applying the same add-element message twice gives the sequence that
applying it once gives. -/
theorem applyRemoteElementAdd_idempotent (element : Element) (prev : List Element)
    (ht : element.id.truthy = true) :
    applyRemoteElementAdd element (applyRemoteElementAdd element prev)
      = applyRemoteElementAdd element prev :=
  applyRemoteElementAdd_of_mem element _ ht (applyRemoteElementAdd_has_id element prev)

/-- Witness for C2 as amended: a rectangle with id 1 delivered twice to an
empty board. -/
theorem applyRemoteElementAdd_idempotent_witness :
    (sampleRect (.num 1)).id.truthy = true ∧
    applyRemoteElementAdd (sampleRect (.num 1))
        (applyRemoteElementAdd (sampleRect (.num 1)) [])
      = applyRemoteElementAdd (sampleRect (.num 1)) [] :=
  ⟨by simp [sampleRect, JsId.truthy],
    applyRemoteElementAdd_idempotent (sampleRect (.num 1)) []
      (by simp [sampleRect, JsId.truthy])⟩

/-- C2 as stated fails: an element that carries no id is appended at every
delivery, so the second delivery gives two copies where the first gave
one. -/
theorem applyRemoteElementAdd_not_idempotent_without_id :
    applyRemoteElementAdd (sampleRect .undef)
        (applyRemoteElementAdd (sampleRect .undef) [])
      = [sampleRect .undef, sampleRect .undef] ∧
    applyRemoteElementAdd (sampleRect .undef) [] = [sampleRect .undef] ∧
    applyRemoteElementAdd (sampleRect .undef)
        (applyRemoteElementAdd (sampleRect .undef) [])
      ≠ applyRemoteElementAdd (sampleRect .undef) [] := by
  simp [applyRemoteElementAdd, sampleRect, JsId.truthy]

/-- C3: when the id of the incoming element matches no element of the
sequence, the update-element handler leaves the sequence unchanged. -/
theorem applyRemoteElementUpdate_absent (element : Element) (prev : List Element)
    (h : ∀ el ∈ prev, el.id ≠ element.id) :
    applyRemoteElementUpdate element prev = prev := by
  unfold applyRemoteElementUpdate
  induction prev with
  | nil => rfl
  | cons a rest ih =>
    have ha : a.id ≠ element.id := h a (by simp)
    have hr : ∀ el ∈ rest, el.id ≠ element.id := fun el hel => h el (by simp [hel])
    simp [List.map_cons, ha, ih hr]

/-- Witness for C3: an update for id 2 on a board holding only id 1. -/
theorem applyRemoteElementUpdate_absent_witness :
    (∀ el ∈ [sampleRect (.num 1)], el.id ≠ (sampleRect (.num 2)).id) ∧
    applyRemoteElementUpdate (sampleRect (.num 2)) [sampleRect (.num 1)]
      = [sampleRect (.num 1)] :=
  ⟨by simp [sampleRect],
    applyRemoteElementUpdate_absent (sampleRect (.num 2)) [sampleRect (.num 1)]
      (by simp [sampleRect])⟩

/-! ## Clear -/

/-- C10: for every state, the `clearCanvas` handle gives a state whose
element sequence, undo stack and redo stack are all empty. -/
theorem clearCanvas_empties (s : CanvasState) :
    (clearCanvas s).elements = [] ∧
    (clearCanvas s).undoStack = [] ∧
    (clearCanvas s).redoStack = [] :=
  ⟨rfl, rfl, rfl⟩

/-! ## The exact comparisons against roots -/

/-- The comparison `sqrtLe` on a number radius is the comparison of the
real square root. -/
theorem sqrtLe_lit_iff (s r : ℚ) :
    sqrtLe s (.lit r) = true ↔ Real.sqrt (s : ℝ) ≤ (r : ℝ) := by
  simp only [sqrtLe, decide_eq_true_eq, Real.sqrt_le_iff]
  constructor
  · rintro ⟨h0, h1⟩
    refine ⟨by exact_mod_cast h0, ?_⟩
    have : (s : ℝ) ≤ (r : ℝ) * (r : ℝ) := by exact_mod_cast h1
    nlinarith
  · rintro ⟨h0, h1⟩
    refine ⟨by exact_mod_cast h0, ?_⟩
    have : (s : ℝ) ≤ (r : ℝ) * (r : ℝ) := by nlinarith
    exact_mod_cast this

/-- The comparison `sqrtLe` on the radius the circle tool computes is the
comparison against `Math.sqrt(w * w + h * h) / 2` over the reals. -/
theorem sqrtLe_halfDiag_iff (s w h : ℚ) :
    sqrtLe s (.halfDiag w h) = true ↔
      Real.sqrt (s : ℝ) ≤ Real.sqrt ((w : ℝ) * w + h * h) / 2 := by
  have hD : (0 : ℝ) ≤ (w : ℝ) * w + h * h := by nlinarith [mul_self_nonneg (w : ℝ), mul_self_nonneg (h : ℝ)]
  have h4 : Real.sqrt (4 * (s : ℝ)) = 2 * Real.sqrt (s : ℝ) := by
    have : (4 : ℝ) * s = 2 ^ 2 * s := by norm_num
    rw [this, Real.sqrt_mul (by norm_num), Real.sqrt_sq (by norm_num)]
  have key : Real.sqrt (s : ℝ) ≤ Real.sqrt ((w : ℝ) * w + h * h) / 2 ↔
      (4 : ℝ) * s ≤ (w : ℝ) * w + h * h := by
    rw [← Real.sqrt_le_sqrt_iff hD, h4]
    constructor <;> intro hh <;> linarith
  rw [key]
  simp only [sqrtLe, decide_eq_true_eq]
  constructor
  · intro h1
    exact_mod_cast h1
  · intro h1
    exact_mod_cast h1

/-- The comparison `hypotLt` is the comparison of the real
`√(a² + b²)`. -/
theorem hypotLt_iff (a b c : ℚ) :
    hypotLt a b c = true ↔ Real.sqrt ((a : ℝ) * a + b * b) < (c : ℝ) := by
  simp only [hypotLt, decide_eq_true_eq]
  constructor
  · rintro ⟨h0, h1⟩
    have hc : (0 : ℝ) < c := by exact_mod_cast h0
    rw [Real.sqrt_lt' hc]
    have : (a : ℝ) * a + b * b < (c : ℝ) * c := by exact_mod_cast h1
    nlinarith
  · intro h
    have hc : (0 : ℝ) < c := lt_of_le_of_lt (Real.sqrt_nonneg _) h
    rw [Real.sqrt_lt' hc] at h
    refine ⟨by exact_mod_cast hc, ?_⟩
    have : (a : ℝ) * a + b * b < (c : ℝ) * c := by nlinarith
    exact_mod_cast this

/-! ## Hit test -/

/-- On a one-element sequence the hit test returns the element when the
loop body accepts it and `null` otherwise. -/
theorem hitTestElement_singleton (el : Element) (x y : ℚ) :
    hitTestElement [el] x y = if hitsElement x y el then some el else none := by
  simp [hitTestElement, hitTestLoop]

/-- C6: on a sequence holding one rectangle with non-negative width and
height, the hit test returns the rectangle exactly when the point lies in
the box `x ≤ px ≤ x + width`, `y ≤ py ≤ y + height`, and `null` otherwise;
the rectangle (10,10,100,50) is hit at (50,30) and not at (200,200). -/
theorem hitTest_rectangle (el : Element) (px py : ℚ)
    (ht : el.type = .rectangle) (_hw : 0 ≤ el.width) (_hh : 0 ≤ el.height) :
    (hitTestElement [el] px py = some el ↔
      (el.x ≤ px ∧ px ≤ el.x + el.width ∧ el.y ≤ py ∧ py ≤ el.y + el.height)) ∧
    (¬ (el.x ≤ px ∧ px ≤ el.x + el.width ∧ el.y ≤ py ∧ py ≤ el.y + el.height) →
      hitTestElement [el] px py = none) ∧
    hitTestElement [sampleRect el.id] 50 30 = some (sampleRect el.id) ∧
    hitTestElement [sampleRect el.id] 200 200 = none := by
  refine ⟨?_, ?_, ?_, ?_⟩
  · rw [hitTestElement_singleton]
    simp only [hitsElement, ht, Bool.and_eq_true, decide_eq_true_eq, ge_iff_le]
    constructor
    · intro h
      split at h
      · rename_i hc
        tauto
      · cases h
    · intro h
      rw [if_pos (by tauto)]
  · intro h
    rw [hitTestElement_singleton]
    simp only [hitsElement, ht, Bool.and_eq_true, decide_eq_true_eq, ge_iff_le]
    rw [if_neg (by tauto)]
  · rw [hitTestElement_singleton]
    simp only [hitsElement, sampleRect]
    norm_num
  · rw [hitTestElement_singleton]
    simp only [hitsElement, sampleRect]
    norm_num

/-- Witness for C6: the sample rectangle and the point (50,30). -/
theorem hitTest_rectangle_witness :
    (sampleRect (.num 1)).type = .rectangle ∧
    0 ≤ (sampleRect (.num 1)).width ∧ 0 ≤ (sampleRect (.num 1)).height ∧
    hitTestElement [sampleRect (.num 1)] 50 30 = some (sampleRect (.num 1)) ∧
    hitTestElement [sampleRect (.num 1)] 200 200 = none :=
  ⟨rfl, by simp [sampleRect], by simp [sampleRect],
    (hitTest_rectangle (sampleRect (.num 1)) 50 30 rfl
      (by simp [sampleRect]) (by simp [sampleRect])).2.2⟩

/-- For a radius that is `>= 0`, the comparison `Math.sqrt(s) <= radius` is
the comparison of `s` with the square of the radius. -/
theorem sqrtLe_iff_le_sq (s : ℚ) (ρ : Radius) (h0 : ρ.nonneg = true) :
    sqrtLe s ρ = true ↔ s ≤ ρ.sq := by
  cases ρ with
  | lit r =>
    simp only [Radius.nonneg, decide_eq_true_eq] at h0
    simp only [sqrtLe, Radius.sq, decide_eq_true_eq]
    exact ⟨fun h => h.2, fun h => ⟨h0, h⟩⟩
  | halfDiag w h =>
    simp only [sqrtLe, Radius.sq, decide_eq_true_eq]
    constructor <;> intro hh <;> linarith

/-- C7: on a sequence holding one circle with centre `(x, y)` and a radius
that is `>= 0`, the hit test returns the circle exactly when the Euclidean
distance from the point to the centre is at most the radius, which is to
say `(px - x)² + (py - y)² ≤ radius²`, and `null` otherwise.  The distance
form is given for a radius carried as a number and for the radius the
circle tool computes.  The circle of centre (0,0) and radius 10 is hit at
(7,7) and not at (8,8). -/
theorem hitTest_circle (el : Element) (px py : ℚ)
    (ht : el.type = .circle) (h0 : el.radius.nonneg = true) :
    (hitTestElement [el] px py = some el ↔
      (px - el.x) ^ 2 + (py - el.y) ^ 2 ≤ el.radius.sq) ∧
    (∀ r : ℚ, el.radius = .lit r →
      (hitTestElement [el] px py = some el ↔
        Real.sqrt (((px - el.x) ^ 2 + (py - el.y) ^ 2 : ℚ) : ℝ) ≤ (r : ℝ))) ∧
    (∀ w h : ℚ, el.radius = .halfDiag w h →
      (hitTestElement [el] px py = some el ↔
        Real.sqrt (((px - el.x) ^ 2 + (py - el.y) ^ 2 : ℚ) : ℝ)
          ≤ Real.sqrt ((w : ℝ) * w + h * h) / 2)) ∧
    (¬ ((px - el.x) ^ 2 + (py - el.y) ^ 2 ≤ el.radius.sq) →
      hitTestElement [el] px py = none) ∧
    hitTestElement [sampleCircle] 7 7 = some sampleCircle ∧
    hitTestElement [sampleCircle] 8 8 = none := by
  have hsquare : (px - el.x) * (px - el.x) + (py - el.y) * (py - el.y)
      = (px - el.x) ^ 2 + (py - el.y) ^ 2 := by ring
  have hhit : hitTestElement [el] px py = some el ↔
      sqrtLe ((px - el.x) ^ 2 + (py - el.y) ^ 2) el.radius = true := by
    rw [hitTestElement_singleton]
    simp only [hitsElement, ht, hsquare]
    constructor
    · intro h
      split at h
      · assumption
      · cases h
    · intro h
      rw [if_pos h]
  refine ⟨?_, ?_, ?_, ?_, ?_, ?_⟩
  · rw [hhit, sqrtLe_iff_le_sq _ _ h0]
  · intro r hr
    rw [hhit, hr, sqrtLe_lit_iff]
  · intro w h hr
    rw [hhit, hr, sqrtLe_halfDiag_iff]
  · intro h
    rw [hitTestElement_singleton]
    simp only [hitsElement, ht, hsquare]
    rw [if_neg]
    intro hc
    exact h ((sqrtLe_iff_le_sq _ _ h0).mp hc)
  · rw [hitTestElement_singleton]
    simp only [hitsElement, sampleCircle, sqrtLe]
    norm_num
  · rw [hitTestElement_singleton]
    simp only [hitsElement, sampleCircle, sqrtLe]
    norm_num

/-- Witness for C7: the sample circle and the points (7,7) and (8,8). -/
theorem hitTest_circle_witness :
    sampleCircle.type = .circle ∧ sampleCircle.radius.nonneg = true ∧
    (hitTestElement [sampleCircle] 7 7 = some sampleCircle ↔
      (7 - sampleCircle.x) ^ 2 + (7 - sampleCircle.y) ^ 2 ≤ sampleCircle.radius.sq) ∧
    hitTestElement [sampleCircle] 7 7 = some sampleCircle ∧
    hitTestElement [sampleCircle] 8 8 = none :=
  ⟨rfl, by simp [sampleCircle, Radius.nonneg],
    (hitTest_circle sampleCircle 7 7 rfl (by simp [sampleCircle, Radius.nonneg])).1,
    (hitTest_circle sampleCircle 7 7 rfl (by simp [sampleCircle, Radius.nonneg])).2.2.2.2⟩

/-- When `d ≠ 0`, the number `a + t * d` lies between `a` and `a + d`
exactly when `0 ≤ t ≤ 1`. -/
theorem between_iff (a d t : ℚ) (hd : d ≠ 0) :
    (a + t * d ≥ min a (a + d) ∧ a + t * d ≤ max a (a + d)) ↔ (0 ≤ t ∧ t ≤ 1) := by
  rcases lt_or_gt_of_ne hd with h | h
  · have hmin : min a (a + d) = a + d := min_eq_right (by linarith)
    have hmax : max a (a + d) = a := max_eq_left (by linarith)
    rw [hmin, hmax]
    constructor
    · rintro ⟨h1, h2⟩
      constructor
      · by_contra hc
        push_neg at hc
        nlinarith
      · by_contra hc
        push_neg at hc
        nlinarith
    · rintro ⟨h1, h2⟩
      constructor <;> nlinarith
  · have hmin : min a (a + d) = a := min_eq_left (by linarith)
    have hmax : max a (a + d) = a + d := max_eq_right (by linarith)
    rw [hmin, hmax]
    constructor
    · rintro ⟨h1, h2⟩
      constructor
      · by_contra hc
        push_neg at hc
        nlinarith
      · by_contra hc
        push_neg at hc
        nlinarith
    · rintro ⟨h1, h2⟩
      constructor <;> nlinarith

/-- For `0 ≤ t ≤ 1` the number `a + t * d` lies between `a` and `a + d`. -/
theorem between_of_unit (a d t : ℚ) (h0 : 0 ≤ t) (h1 : t ≤ 1) :
    a + t * d ≥ min a (a + d) ∧ a + t * d ≤ max a (a + d) := by
  by_cases hd : d = 0
  · subst hd
    simp
  · exact (between_iff a d t hd).mpr ⟨h0, h1⟩

/-- The line branch of the hit test written out, for distinct endpoints:
the span check on the closest point and the tolerance comparison. -/
theorem lineHit_unfold (x y x1 y1 x2 y2 : ℚ)
    (hL0 : (x2 - x1) * (x2 - x1) + (y2 - y1) * (y2 - y1) ≠ 0) :
    lineHit x y x1 y1 x2 y2 = true ↔
      ((x1 + ((x - x1) * (x2 - x1) + (y - y1) * (y2 - y1)) /
            ((x2 - x1) * (x2 - x1) + (y2 - y1) * (y2 - y1)) * (x2 - x1) ≥ min x1 x2 ∧
        x1 + ((x - x1) * (x2 - x1) + (y - y1) * (y2 - y1)) /
            ((x2 - x1) * (x2 - x1) + (y2 - y1) * (y2 - y1)) * (x2 - x1) ≤ max x1 x2 ∧
        y1 + ((x - x1) * (x2 - x1) + (y - y1) * (y2 - y1)) /
            ((x2 - x1) * (x2 - x1) + (y2 - y1) * (y2 - y1)) * (y2 - y1) ≥ min y1 y2 ∧
        y1 + ((x - x1) * (x2 - x1) + (y - y1) * (y2 - y1)) /
            ((x2 - x1) * (x2 - x1) + (y2 - y1) * (y2 - y1)) * (y2 - y1) ≤ max y1 y2) ∧
       hypotLt
        (x1 + ((x - x1) * (x2 - x1) + (y - y1) * (y2 - y1)) /
            ((x2 - x1) * (x2 - x1) + (y2 - y1) * (y2 - y1)) * (x2 - x1) - x)
        (y1 + ((x - x1) * (x2 - x1) + (y - y1) * (y2 - y1)) /
            ((x2 - x1) * (x2 - x1) + (y2 - y1) * (y2 - y1)) * (y2 - y1) - y) 8 = true) := by
  unfold lineHit
  have hz : hypotIsZero (x2 - x1) (y2 - y1) = false := by
    simp [hypotIsZero, hL0]
  rw [hz]
  simp only [Bool.false_eq_true, if_false]
  generalize (x1 + ((x - x1) * (x2 - x1) + (y - y1) * (y2 - y1)) /
            ((x2 - x1) * (x2 - x1) + (y2 - y1) * (y2 - y1)) * (x2 - x1)) = cx
  generalize (y1 + ((x - x1) * (x2 - x1) + (y - y1) * (y2 - y1)) /
            ((x2 - x1) * (x2 - x1) + (y2 - y1) * (y2 - y1)) * (y2 - y1)) = cy
  by_cases hb : (decide (cx ≥ min x1 x2) && decide (cx ≤ max x1 x2) &&
      decide (cy ≥ min y1 y2) && decide (cy ≤ max y1 y2)) = true
  · simp only [hb, Bool.not_true, Bool.false_eq_true, if_false]
    simp only [Bool.and_eq_true, decide_eq_true_eq] at hb
    obtain ⟨⟨⟨a, b⟩, c⟩, d⟩ := hb
    exact ⟨fun h => ⟨⟨a, b, c, d⟩, h⟩, fun h => h.2⟩
  · have hb2 := hb
    simp only [Bool.not_eq_true] at hb2
    simp only [hb2, Bool.not_false, if_true, Bool.false_eq_true, false_iff]
    rintro ⟨⟨a, b, c, d⟩, _⟩
    apply hb
    simp only [Bool.and_eq_true, decide_eq_true_eq]
    exact ⟨⟨⟨a, b⟩, c⟩, d⟩

/-- The line branch of the hit test, for distinct endpoints: it accepts the
point exactly when some `t` in `[0, 1]` gives a point
`q = p1 + t (p2 - p1)` of the segment with `p - q` orthogonal to the segment
and `|p - q|² < 64`. -/
theorem lineHit_iff (x y x1 y1 x2 y2 : ℚ) (hd : x1 ≠ x2 ∨ y1 ≠ y2) :
    lineHit x y x1 y1 x2 y2 = true ↔
      ∃ t : ℚ, 0 ≤ t ∧ t ≤ 1 ∧
        (x - (x1 + t * (x2 - x1))) * (x2 - x1) + (y - (y1 + t * (y2 - y1))) * (y2 - y1) = 0 ∧
        (x - (x1 + t * (x2 - x1))) ^ 2 + (y - (y1 + t * (y2 - y1))) ^ 2 < 64 := by
  have hL : 0 < (x2 - x1) * (x2 - x1) + (y2 - y1) * (y2 - y1) := by
    rcases hd with h | h
    · have : x2 - x1 ≠ 0 := sub_ne_zero.mpr (Ne.symm h)
      have := mul_self_pos.mpr this
      nlinarith [mul_self_nonneg (y2 - y1)]
    · have : y2 - y1 ≠ 0 := sub_ne_zero.mpr (Ne.symm h)
      have := mul_self_pos.mpr this
      nlinarith [mul_self_nonneg (x2 - x1)]
  have hL0 : (x2 - x1) * (x2 - x1) + (y2 - y1) * (y2 - y1) ≠ 0 := ne_of_gt hL
  rw [lineHit_unfold x y x1 y1 x2 y2 hL0]
  have hdotL : ((x - x1) * (x2 - x1) + (y - y1) * (y2 - y1)) /
      ((x2 - x1) * (x2 - x1) + (y2 - y1) * (y2 - y1)) *
        ((x2 - x1) * (x2 - x1) + (y2 - y1) * (y2 - y1))
      = (x - x1) * (x2 - x1) + (y - y1) * (y2 - y1) := by
    field_simp
  generalize ((x - x1) * (x2 - x1) + (y - y1) * (y2 - y1)) /
      ((x2 - x1) * (x2 - x1) + (y2 - y1) * (y2 - y1)) = dot at hdotL ⊢
  have hx2 : x1 + (x2 - x1) = x2 := by ring
  have hy2 : y1 + (y2 - y1) = y2 := by ring
  have hspan : (x1 + dot * (x2 - x1) ≥ min x1 x2 ∧ x1 + dot * (x2 - x1) ≤ max x1 x2 ∧
      y1 + dot * (y2 - y1) ≥ min y1 y2 ∧ y1 + dot * (y2 - y1) ≤ max y1 y2) ↔
      (0 ≤ dot ∧ dot ≤ 1) := by
    constructor
    · rintro ⟨a1, a2, b1, b2⟩
      rcases hd with h | h
      · have hne : x2 - x1 ≠ 0 := sub_ne_zero.mpr (Ne.symm h)
        refine (between_iff x1 (x2 - x1) dot hne).mp ?_
        rw [hx2]
        exact ⟨a1, a2⟩
      · have hne : y2 - y1 ≠ 0 := sub_ne_zero.mpr (Ne.symm h)
        refine (between_iff y1 (y2 - y1) dot hne).mp ?_
        rw [hy2]
        exact ⟨b1, b2⟩
    · rintro ⟨h0, h1⟩
      have hx := between_of_unit x1 (x2 - x1) dot h0 h1
      have hy := between_of_unit y1 (y2 - y1) dot h0 h1
      rw [hx2] at hx
      rw [hy2] at hy
      exact ⟨hx.1, hx.2, hy.1, hy.2⟩
  rw [hspan]
  simp only [hypotLt, decide_eq_true_eq]
  constructor
  · rintro ⟨⟨h0, h1⟩, _, h2⟩
    refine ⟨dot, h0, h1, ?_, ?_⟩
    · linear_combination -hdotL
    · have e : (x - (x1 + dot * (x2 - x1))) ^ 2 + (y - (y1 + dot * (y2 - y1))) ^ 2
          = (x1 + dot * (x2 - x1) - x) * (x1 + dot * (x2 - x1) - x) +
            (y1 + dot * (y2 - y1) - y) * (y1 + dot * (y2 - y1) - y) := by ring
      rw [e]
      linarith
  · rintro ⟨t, h0, h1, horth, hdist⟩
    have ht : t = dot := by
      have : t * ((x2 - x1) * (x2 - x1) + (y2 - y1) * (y2 - y1))
          = dot * ((x2 - x1) * (x2 - x1) + (y2 - y1) * (y2 - y1)) := by
        rw [hdotL]
        linear_combination -horth
      exact mul_right_cancel₀ hL0 this
    subst ht
    have e : (x - (x1 + t * (x2 - x1))) ^ 2 + (y - (y1 + t * (y2 - y1))) ^ 2
        = (x1 + t * (x2 - x1) - x) * (x1 + t * (x2 - x1) - x) +
          (y1 + t * (y2 - y1) - y) * (y1 + t * (y2 - y1) - y) := by ring
    rw [e] at hdist
    exact ⟨⟨h0, h1⟩, by norm_num, by linarith⟩

/-- On a one-element sequence holding a line or an arrow the hit test is the
line branch. -/
theorem hitTestElement_line (el : Element) (px py : ℚ)
    (ht : el.type = .line ∨ el.type = .arrow) :
    hitTestElement [el] px py =
      if lineHit px py el.x1 el.y1 el.x2 el.y2 then some el else none := by
  rw [hitTestElement_singleton]
  rcases ht with h | h <;> simp only [hitsElement, h]

/-- The line branch for a given value of `length`, written out: the span
check on the closest point and the tolerance comparison. -/
theorem lineHitWith_unfold (length x y x1 y1 x2 y2 : ℚ) (hL0 : length ≠ 0) :
    lineHitWith length x y x1 y1 x2 y2 = true ↔
      ((x1 + ((x - x1) * (x2 - x1) + (y - y1) * (y2 - y1)) / (length * length) * (x2 - x1)
            ≥ min x1 x2 ∧
        x1 + ((x - x1) * (x2 - x1) + (y - y1) * (y2 - y1)) / (length * length) * (x2 - x1)
            ≤ max x1 x2 ∧
        y1 + ((x - x1) * (x2 - x1) + (y - y1) * (y2 - y1)) / (length * length) * (y2 - y1)
            ≥ min y1 y2 ∧
        y1 + ((x - x1) * (x2 - x1) + (y - y1) * (y2 - y1)) / (length * length) * (y2 - y1)
            ≤ max y1 y2) ∧
       hypotLt
        (x1 + ((x - x1) * (x2 - x1) + (y - y1) * (y2 - y1)) / (length * length) * (x2 - x1) - x)
        (y1 + ((x - x1) * (x2 - x1) + (y - y1) * (y2 - y1)) / (length * length) * (y2 - y1) - y)
        8 = true) := by
  unfold lineHitWith
  simp only [hL0, if_false]
  generalize (x1 + ((x - x1) * (x2 - x1) + (y - y1) * (y2 - y1)) /
            (length * length) * (x2 - x1)) = cx
  generalize (y1 + ((x - x1) * (x2 - x1) + (y - y1) * (y2 - y1)) /
            (length * length) * (y2 - y1)) = cy
  by_cases hb : (decide (cx ≥ min x1 x2) && decide (cx ≤ max x1 x2) &&
      decide (cy ≥ min y1 y2) && decide (cy ≤ max y1 y2)) = true
  · simp only [hb, Bool.not_true, Bool.false_eq_true, if_false]
    simp only [Bool.and_eq_true, decide_eq_true_eq] at hb
    obtain ⟨⟨⟨a, b⟩, c⟩, d⟩ := hb
    exact ⟨fun h => ⟨⟨a, b, c, d⟩, h⟩, fun h => h.2⟩
  · have hb2 := hb
    simp only [Bool.not_eq_true] at hb2
    simp only [hb2, Bool.not_false, if_true, Bool.false_eq_true, false_iff]
    rintro ⟨⟨a, b, c, d⟩, _⟩
    apply hb
    simp only [Bool.and_eq_true, decide_eq_true_eq]
    exact ⟨⟨⟨a, b⟩, c⟩, d⟩

/-- The line branch for a given non-zero value of `length` and distinct
endpoints: with `u` the computed position
`((p - p1) · (p2 - p1)) / (length * length)`, it accepts the point exactly
when `0 ≤ u ≤ 1` and the point `p1 + u (p2 - p1)` is at a distance less than
8. -/
theorem lineHitWith_iff (length x y x1 y1 x2 y2 : ℚ) (hL0 : length ≠ 0)
    (hd : x1 ≠ x2 ∨ y1 ≠ y2) :
    lineHitWith length x y x1 y1 x2 y2 = true ↔
      0 ≤ ((x - x1) * (x2 - x1) + (y - y1) * (y2 - y1)) / (length * length) ∧
      ((x - x1) * (x2 - x1) + (y - y1) * (y2 - y1)) / (length * length) ≤ 1 ∧
      (x - (x1 + ((x - x1) * (x2 - x1) + (y - y1) * (y2 - y1)) / (length * length)
          * (x2 - x1))) ^ 2 +
        (y - (y1 + ((x - x1) * (x2 - x1) + (y - y1) * (y2 - y1)) / (length * length)
          * (y2 - y1))) ^ 2 < 64 := by
  rw [lineHitWith_unfold length x y x1 y1 x2 y2 hL0]
  generalize ((x - x1) * (x2 - x1) + (y - y1) * (y2 - y1)) / (length * length) = dot
  have hx2 : x1 + (x2 - x1) = x2 := by ring
  have hy2 : y1 + (y2 - y1) = y2 := by ring
  have hspan : (x1 + dot * (x2 - x1) ≥ min x1 x2 ∧ x1 + dot * (x2 - x1) ≤ max x1 x2 ∧
      y1 + dot * (y2 - y1) ≥ min y1 y2 ∧ y1 + dot * (y2 - y1) ≤ max y1 y2) ↔
      (0 ≤ dot ∧ dot ≤ 1) := by
    constructor
    · rintro ⟨a1, a2, b1, b2⟩
      rcases hd with h | h
      · have hne : x2 - x1 ≠ 0 := sub_ne_zero.mpr (Ne.symm h)
        refine (between_iff x1 (x2 - x1) dot hne).mp ?_
        rw [hx2]
        exact ⟨a1, a2⟩
      · have hne : y2 - y1 ≠ 0 := sub_ne_zero.mpr (Ne.symm h)
        refine (between_iff y1 (y2 - y1) dot hne).mp ?_
        rw [hy2]
        exact ⟨b1, b2⟩
    · rintro ⟨h0, h1⟩
      have hx := between_of_unit x1 (x2 - x1) dot h0 h1
      have hy := between_of_unit y1 (y2 - y1) dot h0 h1
      rw [hx2] at hx
      rw [hy2] at hy
      exact ⟨hx.1, hx.2, hy.1, hy.2⟩
  rw [hspan]
  simp only [hypotLt, decide_eq_true_eq]
  have e : (x - (x1 + dot * (x2 - x1))) ^ 2 + (y - (y1 + dot * (y2 - y1))) ^ 2
      = (x1 + dot * (x2 - x1) - x) * (x1 + dot * (x2 - x1) - x) +
        (y1 + dot * (y2 - y1) - y) * (y1 + dot * (y2 - y1) - y) := by ring
  rw [e]
  constructor
  · rintro ⟨⟨h0, h1⟩, _, h2⟩
    exact ⟨h0, h1, by linarith⟩
  · rintro ⟨h0, h1, h2⟩
    exact ⟨⟨h0, h1⟩, by norm_num, by linarith⟩

/-- Where the square of `length` is the squared length of the segment, the
line branch as written is its exact reading. -/
theorem lineHitWith_exact (length x y x1 y1 x2 y2 : ℚ)
    (h : length * length = (x2 - x1) * (x2 - x1) + (y2 - y1) * (y2 - y1)) :
    lineHitWith length x y x1 y1 x2 y2 = lineHit x y x1 y1 x2 y2 := by
  unfold lineHitWith lineHit hypotIsZero
  by_cases h0 : length = 0
  · have hz : (x2 - x1) * (x2 - x1) + (y2 - y1) * (y2 - y1) = 0 := by
      rw [← h, h0]; ring
    simp [h0, hz]
  · have hz : (x2 - x1) * (x2 - x1) + (y2 - y1) * (y2 - y1) ≠ 0 := by
      rw [← h]
      exact mul_ne_zero h0 h0
    simp only [h0, hz, if_false, decide_False, Bool.false_eq_true, h]

/-- C8, as the code has it: on a sequence holding one line or arrow with
distinct endpoints, read over exact numbers, the hit test returns the element
only if the orthogonal projection of the point onto the line falls within the
segment span (`0 ≤ t ≤ 1`) at a distance strictly less than the tolerance 8
(squared distance `< 64`); it does return it when moreover the projection
stops short of the far end `(x2, y2)` (`t < 1`), and it returns `null` when
the projection falls outside the span or the distance is 8 or more.  The
far end itself is left to the number `Math.hypot` returns for the length:
for every such number `length ≠ 0` the branch accepts the point exactly when
the computed position `u = ((p - p1) · (p2 - p1)) / (length * length)` is in
`[0, 1]` and `p1 + u (p2 - p1)` is nearer than 8, which is the exact reading
whenever `length * length` is the squared length.  The line (0,0)-(100,0)
is hit at (50,3) and not at (50,20). -/
theorem hitTest_line (el : Element) (px py : ℚ)
    (ht : el.type = .line ∨ el.type = .arrow)
    (hd : el.x1 ≠ el.x2 ∨ el.y1 ≠ el.y2) :
    (hitTestElement [el] px py = some el →
      ∃ t : ℚ, 0 ≤ t ∧ t ≤ 1 ∧
        (px - (el.x1 + t * (el.x2 - el.x1))) * (el.x2 - el.x1) +
          (py - (el.y1 + t * (el.y2 - el.y1))) * (el.y2 - el.y1) = 0 ∧
        (px - (el.x1 + t * (el.x2 - el.x1))) ^ 2 +
          (py - (el.y1 + t * (el.y2 - el.y1))) ^ 2 < 64) ∧
    (∀ t : ℚ, 0 ≤ t → t < 1 →
      (px - (el.x1 + t * (el.x2 - el.x1))) * (el.x2 - el.x1) +
        (py - (el.y1 + t * (el.y2 - el.y1))) * (el.y2 - el.y1) = 0 →
      (px - (el.x1 + t * (el.x2 - el.x1))) ^ 2 +
        (py - (el.y1 + t * (el.y2 - el.y1))) ^ 2 < 64 →
      hitTestElement [el] px py = some el) ∧
    (∀ t : ℚ,
      (px - (el.x1 + t * (el.x2 - el.x1))) * (el.x2 - el.x1) +
        (py - (el.y1 + t * (el.y2 - el.y1))) * (el.y2 - el.y1) = 0 →
      (t < 0 ∨ 1 < t ∨
        64 ≤ (px - (el.x1 + t * (el.x2 - el.x1))) ^ 2 +
          (py - (el.y1 + t * (el.y2 - el.y1))) ^ 2) →
      hitTestElement [el] px py = none) ∧
    (hitTestElement [el] px py = some el ∨ hitTestElement [el] px py = none) ∧
    (∀ length : ℚ, length ≠ 0 →
      (lineHitWith length px py el.x1 el.y1 el.x2 el.y2 = true ↔
        0 ≤ ((px - el.x1) * (el.x2 - el.x1) + (py - el.y1) * (el.y2 - el.y1))
            / (length * length) ∧
        ((px - el.x1) * (el.x2 - el.x1) + (py - el.y1) * (el.y2 - el.y1))
            / (length * length) ≤ 1 ∧
        (px - (el.x1 + ((px - el.x1) * (el.x2 - el.x1) + (py - el.y1) * (el.y2 - el.y1))
            / (length * length) * (el.x2 - el.x1))) ^ 2 +
          (py - (el.y1 + ((px - el.x1) * (el.x2 - el.x1) + (py - el.y1) * (el.y2 - el.y1))
            / (length * length) * (el.y2 - el.y1))) ^ 2 < 64)) ∧
    (∀ length : ℚ,
      length * length
        = (el.x2 - el.x1) * (el.x2 - el.x1) + (el.y2 - el.y1) * (el.y2 - el.y1) →
      hitTestElement [el] px py =
        if lineHitWith length px py el.x1 el.y1 el.x2 el.y2 then some el else none) ∧
    hitTestElement [sampleLine] 50 3 = some sampleLine ∧
    hitTestElement [sampleLine] 50 20 = none := by
  have hiff := lineHit_iff px py el.x1 el.y1 el.x2 el.y2 hd
  have hline := hitTestElement_line el px py ht
  refine ⟨?_, ?_, ?_, ?_, ?_, ?_, ?_, ?_⟩
  · intro h
    rw [hline] at h
    apply hiff.mp
    split at h
    · assumption
    · cases h
  · intro t h0 h1 horth hdist
    rw [hline, if_pos (hiff.mpr ⟨t, h0, le_of_lt h1, horth, hdist⟩)]
  · intro t horth hbad
    rw [hline]
    have hno : ¬ lineHit px py el.x1 el.y1 el.x2 el.y2 = true := by
      intro hc
      obtain ⟨t2, a0, a1, aorth, adist⟩ := hiff.mp hc
      have hL : (el.x2 - el.x1) * (el.x2 - el.x1) + (el.y2 - el.y1) * (el.y2 - el.y1) ≠ 0 := by
        rcases hd with h | h
        · have hne : el.x2 - el.x1 ≠ 0 := sub_ne_zero.mpr (Ne.symm h)
          have := mul_self_pos.mpr hne
          nlinarith [mul_self_nonneg (el.y2 - el.y1)]
        · have hne : el.y2 - el.y1 ≠ 0 := sub_ne_zero.mpr (Ne.symm h)
          have := mul_self_pos.mpr hne
          nlinarith [mul_self_nonneg (el.x2 - el.x1)]
      have heq : t2 = t := by
        have : t2 * ((el.x2 - el.x1) * (el.x2 - el.x1) + (el.y2 - el.y1) * (el.y2 - el.y1))
            = t * ((el.x2 - el.x1) * (el.x2 - el.x1) + (el.y2 - el.y1) * (el.y2 - el.y1)) := by
          linear_combination horth - aorth
        exact mul_right_cancel₀ hL this
      subst heq
      rcases hbad with hb | hb | hb
      · linarith
      · linarith
      · linarith
    rw [if_neg hno]
  · rw [hline]
    split
    · exact Or.inl rfl
    · exact Or.inr rfl
  · intro length hL0
    exact lineHitWith_iff length px py el.x1 el.y1 el.x2 el.y2 hL0 hd
  · intro length hsq
    rw [hline, lineHitWith_exact length px py el.x1 el.y1 el.x2 el.y2 hsq]
  · rw [hitTestElement_singleton]
    simp only [hitsElement, sampleLine, lineHit, hypotIsZero, hypotLt]
    norm_num
  · rw [hitTestElement_singleton]
    simp only [hitsElement, sampleLine, lineHit, hypotIsZero, hypotLt]
    norm_num

/-- Witness for C8 as amended: the sample line, whose length 100 is exact, and
the point (50,3), which projects to the middle of the segment (`t = 1/2`). -/
theorem hitTest_line_witness :
    (sampleLine.type = .line ∨ sampleLine.type = .arrow) ∧
    (sampleLine.x1 ≠ sampleLine.x2 ∨ sampleLine.y1 ≠ sampleLine.y2) ∧
    (0 : ℚ) ≤ 1 / 2 ∧ (1 / 2 : ℚ) < 1 ∧
    hitTestElement [sampleLine] 50 3 = some sampleLine ∧
    (100 : ℚ) * 100
      = (sampleLine.x2 - sampleLine.x1) * (sampleLine.x2 - sampleLine.x1) +
        (sampleLine.y2 - sampleLine.y1) * (sampleLine.y2 - sampleLine.y1) ∧
    hitTestElement [sampleLine] 50 3 =
      (if lineHitWith 100 50 3 sampleLine.x1 sampleLine.y1 sampleLine.x2 sampleLine.y2
        then some sampleLine else none) :=
  ⟨Or.inl rfl, Or.inl (by norm_num [sampleLine]), by norm_num, by norm_num,
    (hitTest_line sampleLine 50 3 (Or.inl rfl) (Or.inl (by norm_num [sampleLine]))).2.1
      (1 / 2) (by norm_num) (by norm_num) (by norm_num [sampleLine])
      (by norm_num [sampleLine]),
    by norm_num [sampleLine],
    (hitTest_line sampleLine 50 3 (Or.inl rfl)
      (Or.inl (by norm_num [sampleLine]))).2.2.2.2.2.1 100 (by norm_num [sampleLine])⟩

/-- C8 as stated fails twice.  At (50,8) the projection onto the line
(0,0)-(100,0) is (50,0), inside the span (`t = 1/2`), at distance exactly 8,
which is `<= 8`; the hit test returns `null`.  And at (1,8), the far end of
the line (0,0)-(1,8), the projection is the point itself (`t = 1`, distance
0), yet with the number `Math.hypot(1, 8)` evaluates to, whose square is
below 65, the computed position exceeds 1 and the branch rejects the
point. -/
theorem hitTest_line_at_tolerance :
    hitTestElement [sampleLine] 50 8 = none ∧
    (∃ t : ℚ, 0 ≤ t ∧ t ≤ 1 ∧
      (50 - (sampleLine.x1 + t * (sampleLine.x2 - sampleLine.x1))) *
          (sampleLine.x2 - sampleLine.x1) +
        (8 - (sampleLine.y1 + t * (sampleLine.y2 - sampleLine.y1))) *
          (sampleLine.y2 - sampleLine.y1) = 0 ∧
      (50 - (sampleLine.x1 + t * (sampleLine.x2 - sampleLine.x1))) ^ 2 +
        (8 - (sampleLine.y1 + t * (sampleLine.y2 - sampleLine.y1))) ^ 2 ≤ 8 ^ 2) ∧
    hypotOneEight * hypotOneEight < 65 ∧
    1 < ((1 - 0) * (1 - 0) + (8 - 0) * (8 - 0)) / (hypotOneEight * hypotOneEight) ∧
    lineHitWith hypotOneEight 1 8 0 0 1 8 = false ∧
    (∃ t : ℚ, 0 ≤ t ∧ t ≤ 1 ∧
      ((1 : ℚ) - (0 + t * (1 - 0))) * (1 - 0) + (8 - (0 + t * (8 - 0))) * (8 - 0) = 0 ∧
      ((1 : ℚ) - (0 + t * (1 - 0))) ^ 2 + (8 - (0 + t * (8 - 0))) ^ 2 ≤ 8 ^ 2) := by
  refine ⟨?_, ?_, by norm_num [hypotOneEight], by norm_num [hypotOneEight], ?_, ?_⟩
  · rw [hitTestElement_singleton]
    simp only [hitsElement, sampleLine, lineHit, hypotIsZero, hypotLt]
    norm_num
  · refine ⟨1 / 2, by norm_num, by norm_num, ?_, ?_⟩ <;> norm_num [sampleLine]
  · simp only [lineHitWith, hypotOneEight, hypotLt]
    norm_num
  · exact ⟨1, by norm_num, by norm_num, by norm_num, by norm_num⟩

/-! ## Gestures -/

/-- Running a concatenation of event lists runs the first, then the second. -/
theorem run_append (l1 l2 : List (Env × Event)) (s : CanvasState) :
    run (l1 ++ l2) s = ((run l2 (run l1 s).1).1, (run l1 s).2 ++ (run l2 (run l1 s).1).2) := by
  induction l1 generalizing s with
  | nil => simp [run]
  | cons e rest ih =>
    obtain ⟨env, ev⟩ := e
    simp [run, ih, List.append_assoc]

/-- A pointer-move outside a drag leaves the document, the `isDrawing` flag, the
anchor and the drag state alone. -/
theorem draw_core (env : Env) (x y : ℚ) (s : CanvasState) :
    (draw env x y s).1.elements = s.elements ∧
    (draw env x y s).1.undoStack = s.undoStack ∧
    (draw env x y s).1.redoStack = s.redoStack ∧
    (draw env x y s).1.isDrawing = s.isDrawing ∧
    (draw env x y s).1.startX = s.startX ∧
    (draw env x y s).1.startY = s.startY ∧
    (draw env x y s).1.dragging = s.dragging := by
  unfold draw
  split
  · split <;> simp
  · split <;> simp

/-- A pointer-move outside a drag sends nothing unless the pen is active. -/
theorem draw_msgs (env : Env) (x y : ℚ) (s : CanvasState) (h : env.tool ≠ .pen) :
    (draw env x y s).2 = [] := by
  unfold draw
  split
  · split <;> rfl
  · split <;> first | rfl | exact absurd (by assumption) h

/-- Pointer-moves outside a drag leave the document, the `isDrawing` flag,
the anchor and the drag state alone. -/
theorem run_moves_core (env : Env) (pts : List Point) (s : CanvasState)
    (hd : s.dragging.isDragging = false) :
    (run (movesOf env pts) s).1.elements = s.elements ∧
    (run (movesOf env pts) s).1.undoStack = s.undoStack ∧
    (run (movesOf env pts) s).1.redoStack = s.redoStack ∧
    (run (movesOf env pts) s).1.isDrawing = s.isDrawing ∧
    (run (movesOf env pts) s).1.startX = s.startX ∧
    (run (movesOf env pts) s).1.startY = s.startY ∧
    (run (movesOf env pts) s).1.dragging = s.dragging := by
  induction pts generalizing s with
  | nil => simp [movesOf, run]
  | cons p rest ih =>
    have hstep : step env (Event.mouseMove p.x p.y) s = draw env p.x p.y s := by
      simp [step, handleCanvasMouseMove, hd]
    have hc := draw_core env p.x p.y s
    have hd2 : (draw env p.x p.y s).1.dragging.isDragging = false := by
      rw [hc.2.2.2.2.2.2]; exact hd
    have := ih (draw env p.x p.y s).1 hd2
    simp only [movesOf, List.map_cons, run, hstep] at this ⊢
    obtain ⟨a1, a2, a3, a4, a5, a6, a7⟩ := this
    obtain ⟨b1, b2, b3, b4, b5, b6, b7⟩ := hc
    exact ⟨a1.trans b1, a2.trans b2, a3.trans b3, a4.trans b4, a5.trans b5, a6.trans b6,
      a7.trans b7⟩

/-- Pointer-moves outside a drag send nothing unless the pen is active. -/
theorem run_moves_msgs (env : Env) (pts : List Point) (s : CanvasState)
    (hd : s.dragging.isDragging = false) (ht : env.tool ≠ .pen) :
    (run (movesOf env pts) s).2 = [] := by
  induction pts generalizing s with
  | nil => simp [movesOf, run]
  | cons p rest ih =>
    have hstep : step env (Event.mouseMove p.x p.y) s = draw env p.x p.y s := by
      simp [step, handleCanvasMouseMove, hd]
    have hc := draw_core env p.x p.y s
    have hd2 : (draw env p.x p.y s).1.dragging.isDragging = false := by
      rw [hc.2.2.2.2.2.2]; exact hd
    have := ih (draw env p.x p.y s).1 hd2
    simp only [movesOf, List.map_cons, run, hstep] at this ⊢
    rw [this, draw_msgs env p.x p.y s ht]
    rfl

/-- A gesture outside a drag, with a tool other than drag, runs
`startDrawing`, the moves, then `stopDrawing`. -/
theorem run_gesture (env : Env) (a : Point) (pts : List Point) (b : Point) (s : CanvasState)
    (ht : env.tool ≠ .drag) (hd : s.dragging.isDragging = false) :
    (run (gesture env a pts b) s).1 =
      (stopDrawing env b.x b.y
        (run (movesOf env pts) (startDrawing env a.x a.y s).1).1).1 ∧
    (startDrawing env a.x a.y s).1.dragging.isDragging = false ∧
    (run (gesture env a pts b) s).2 =
      (startDrawing env a.x a.y s).2 ++
        ((run (movesOf env pts) (startDrawing env a.x a.y s).1).2 ++
          (stopDrawing env b.x b.y
            (run (movesOf env pts) (startDrawing env a.x a.y s).1).1).2) := by
  have hsd : (startDrawing env a.x a.y s).1.dragging = s.dragging := by
    unfold startDrawing
    split <;> try rfl
    split <;> rfl
  have hd1 : (startDrawing env a.x a.y s).1.dragging.isDragging = false := by
    rw [hsd]; exact hd
  have hdown : step env (Event.mouseDown a.x a.y) s = startDrawing env a.x a.y s := by
    simp [step, handleCanvasMouseDown, ht]
  have hcore := run_moves_core env pts (startDrawing env a.x a.y s).1 hd1
  have hd2 : (run (movesOf env pts) (startDrawing env a.x a.y s).1).1.dragging.isDragging
      = false := by
    rw [hcore.2.2.2.2.2.2]; exact hd1
  refine ⟨?_, hd1, ?_⟩
  · simp only [gesture, run, hdown, run_append]
    simp [step, handleCanvasMouseUp, hd2]
  · simp only [gesture, run, hdown, run_append]
    simp [step, handleCanvasMouseUp, hd2]

/-- C5: an eraser drag with anchor `a` and release point `b` (outside an
element drag) appends one erase-rect with `x = min`, `y = min`,
`width = |b.x - a.x|`, `height = |b.y - a.y|`; the drag from `b` to `a` and
the drags along the other diagonal commit the same element.  Anchor (30,40)
with release (10,5) gives x=10, y=5, width=20, height=35. -/
theorem eraser_commit (env : Env) (s : CanvasState) (a b : Point) (pts : List Point)
    (ht : env.tool = .eraser) (hd : s.dragging.isDragging = false) :
    (∃ el : Element,
      (run (gesture env a pts b) s).1.elements = s.elements ++ [el] ∧
      el.type = .eraseRect ∧
      el.x = min a.x b.x ∧ el.y = min a.y b.y ∧
      el.width = |b.x - a.x| ∧ el.height = |b.y - a.y| ∧
      (run (gesture env b pts a) s).1.elements = s.elements ++ [el] ∧
      (run (gesture env ⟨a.x, b.y⟩ pts ⟨b.x, a.y⟩) s).1.elements = s.elements ++ [el] ∧
      (run (gesture env ⟨b.x, a.y⟩ pts ⟨a.x, b.y⟩) s).1.elements = s.elements ++ [el]) ∧
    (run (gesture (sampleEnvWith .eraser) ⟨30, 40⟩ [] ⟨10, 5⟩) { elements := [] }).1.elements
      = [{ id := .num (1000 + 1 / 2), type := .eraseRect,
           x := 10, y := 5, width := 20, height := 35 }] := by
  have hnd : env.tool ≠ .drag := by rw [ht]; decide
  have key : ∀ p q : Point, (run (gesture env p pts q) s).1.elements =
      s.elements ++ [eraseElement env q.x q.y { s with startX := p.x, startY := p.y }] := by
    intro p q
    have hg := (run_gesture env p pts q s hnd hd).1
    have hcore := run_moves_core env pts (startDrawing env p.x p.y s).1
      (run_gesture env p pts q s hnd hd).2.1
    obtain ⟨c1, c2, c3, c4, c5, c6, c7⟩ := hcore
    rw [hg]
    simp only [stopDrawing, ht, c4, c1, commit, eraseElement, c5, c6]
    simp [startDrawing, ht]
  refine ⟨⟨_, key a b, rfl, rfl, rfl, ?_, ?_, ?_, ?_, ?_⟩, ?_⟩
  · exact max_sub_min_eq_abs a.x b.x
  · exact max_sub_min_eq_abs a.y b.y
  · rw [key b a]
    simp only [eraseElement, min_comm b.x a.x, min_comm b.y a.y, max_comm b.x a.x,
      max_comm b.y a.y]
  · rw [key]
    simp only [eraseElement, min_comm b.y a.y, max_comm b.y a.y]
  · rw [key]
    simp only [eraseElement, min_comm b.x a.x, max_comm b.x a.x]
  · simp [gesture, run, movesOf, step, handleCanvasMouseDown, handleCanvasMouseUp,
      startDrawing, stopDrawing, commit, eraseElement, sampleEnvWith, sampleEnv, Env.freshId]
    norm_num

/-- The function `stopDrawing` either leaves the stacks alone or pushes the current sequence
on the undo stack and empties the redo stack. -/
theorem stopDrawing_stacks (env : Env) (x y : ℚ) (s : CanvasState) :
    ((stopDrawing env x y s).1.undoStack = s.undoStack ∧
      (stopDrawing env x y s).1.redoStack = s.redoStack) ∨
    ((stopDrawing env x y s).1.undoStack = s.undoStack ++ [s.elements] ∧
      (stopDrawing env x y s).1.redoStack = []) := by
  unfold stopDrawing
  split
  · exact Or.inl ⟨rfl, rfl⟩
  · split <;> first | exact Or.inl ⟨rfl, rfl⟩ | exact Or.inr ⟨rfl, rfl⟩

/-- The function `startDrawing` either leaves the stacks alone or commits (paint). -/
theorem startDrawing_stacks (env : Env) (x y : ℚ) (s : CanvasState) :
    ((startDrawing env x y s).1.undoStack = s.undoStack ∧
      (startDrawing env x y s).1.redoStack = s.redoStack) ∨
    ((startDrawing env x y s).1.undoStack = s.undoStack ++ [s.elements] ∧
      (startDrawing env x y s).1.redoStack = []) := by
  unfold startDrawing
  split <;> try exact Or.inl ⟨rfl, rfl⟩
  split <;> first | exact Or.inl ⟨rfl, rfl⟩ | exact Or.inr ⟨rfl, rfl⟩

/-- Every handler either leaves the stacks alone or commits. -/
theorem step_stacks (env : Env) (e : Event) (s : CanvasState) :
    ((step env e s).1.undoStack = s.undoStack ∧
      (step env e s).1.redoStack = s.redoStack) ∨
    ((step env e s).1.undoStack = s.undoStack ++ [s.elements] ∧
      (step env e s).1.redoStack = []) := by
  cases e with
  | mouseDown x y =>
    simp only [step, handleCanvasMouseDown]
    split
    · split
      · exact Or.inr ⟨rfl, rfl⟩
      · exact Or.inl ⟨rfl, rfl⟩
    · exact startDrawing_stacks env x y s
  | mouseMove x y =>
    simp only [step, handleCanvasMouseMove]
    split
    · exact Or.inr ⟨rfl, rfl⟩
    · split
      · have := draw_core env x y s
        exact Or.inl ⟨this.2.1, this.2.2.1⟩
      · exact Or.inl ⟨rfl, rfl⟩
  | mouseUp x y =>
    simp only [step, handleCanvasMouseUp]
    split
    · exact Or.inl ⟨rfl, rfl⟩
    · exact stopDrawing_stacks env x y s
  | mouseLeave x y =>
    simp only [step, handleCanvasMouseLeave]
    split
    · exact stopDrawing_stacks env x y _
    · exact stopDrawing_stacks env x y _
  | textChange value =>
    simp only [step, onTextChange]
    split
    · exact Or.inr ⟨rfl, rfl⟩
    · exact Or.inl ⟨rfl, rfl⟩
  | textDone =>
    simp only [step, onTextDone]
    split
    · split
      · exact Or.inr ⟨rfl, rfl⟩
      · exact Or.inl ⟨rfl, rfl⟩
    · exact Or.inl ⟨rfl, rfl⟩
  | textClose => exact Or.inl ⟨rfl, rfl⟩
  | format updates =>
    simp only [step, handleTextFormatting]
    split
    · exact Or.inr ⟨rfl, rfl⟩
    · exact Or.inl ⟨rfl, rfl⟩

/-- Redo on an empty redo stack does nothing. -/
theorem handleRedo_of_empty (env : Env) (s : CanvasState) (h : s.redoStack = []) :
    handleRedo env s = (s, []) := by
  simp [handleRedo, h]

/-- A drawing gesture with the pen, a shape tool, a line tool or the eraser,
outside a drag, pushes the sequence it starts from on the undo stack and
empties the redo stack. -/
theorem drawing_gesture_commits (env : Env) (a b : Point) (pts : List Point)
    (s : CanvasState)
    (ht : env.tool = .pen ∨ env.tool = .rectangle ∨ env.tool = .circle ∨
      env.tool = .line ∨ env.tool = .arrow ∨ env.tool = .eraser)
    (hd : s.dragging.isDragging = false) :
    (run (gesture env a pts b) s).1.undoStack = s.undoStack ++ [s.elements] ∧
    (run (gesture env a pts b) s).1.redoStack = [] := by
  have hnd : env.tool ≠ .drag := by
    rcases ht with h | h | h | h | h | h <;> rw [h] <;> decide
  obtain ⟨hg, hd1, _⟩ := run_gesture env a pts b s hnd hd
  obtain ⟨c1, c2, c3, c4, c5, c6, c7⟩ :=
    run_moves_core env pts (startDrawing env a.x a.y s).1 hd1
  have hs : (startDrawing env a.x a.y s).1.isDrawing = true ∧
      (startDrawing env a.x a.y s).1.elements = s.elements ∧
      (startDrawing env a.x a.y s).1.undoStack = s.undoStack := by
    rcases ht with h | h | h | h | h | h <;> simp [startDrawing, h]
  rw [hg]
  rcases ht with h | h | h | h | h | h <;>
    simp [stopDrawing, h, c4, hs.1, commit, c1, c2, hs.2.1, hs.2.2]

/-- C4: on a state with a non-empty undo stack, the undo leaves a non-empty
redo stack; then every event whose handler commits (pushes the current
sequence on the undo stack) leaves the redo stack empty, and so does every
drawing gesture (a pen stroke, a shape, a line, an erase); a redo after it
changes nothing and sends nothing. -/
theorem commit_after_undo_clears_redo (env0 : Env) (s : CanvasState)
    (h : s.undoStack ≠ []) :
    (handleUndo env0 s).1.redoStack ≠ [] ∧
    (∀ (env : Env) (e : Event),
      (step env e (handleUndo env0 s).1).1.undoStack
          = (handleUndo env0 s).1.undoStack ++ [(handleUndo env0 s).1.elements] →
        (step env e (handleUndo env0 s).1).1.redoStack = [] ∧
        ∀ env2 : Env, handleRedo env2 (step env e (handleUndo env0 s).1).1
          = ((step env e (handleUndo env0 s).1).1, [])) ∧
    (∀ (env : Env) (a b : Point) (pts : List Point),
      (env.tool = .pen ∨ env.tool = .rectangle ∨ env.tool = .circle ∨
        env.tool = .line ∨ env.tool = .arrow ∨ env.tool = .eraser) →
      s.dragging.isDragging = false →
        (run (gesture env a pts b) (handleUndo env0 s).1).1.undoStack
          = (handleUndo env0 s).1.undoStack ++ [(handleUndo env0 s).1.elements] ∧
        (run (gesture env a pts b) (handleUndo env0 s).1).1.redoStack = [] ∧
        ∀ env2 : Env, handleRedo env2 (run (gesture env a pts b) (handleUndo env0 s).1).1
          = ((run (gesture env a pts b) (handleUndo env0 s).1).1, [])) := by
  refine ⟨?_, ?_, ?_⟩
  · obtain ⟨prevState, hlast⟩ : ∃ p, s.undoStack.getLast? = some p := by
      cases hl : s.undoStack.getLast? with
      | none => exact absurd (List.getLast?_eq_none_iff.mp hl) h
      | some p => exact ⟨p, rfl⟩
    simp [handleUndo, h, hlast]
  · intro env e hpush
    have hredo : (step env e (handleUndo env0 s).1).1.redoStack = [] := by
      rcases step_stacks env e (handleUndo env0 s).1 with hk | hc
      · rw [hk.1] at hpush
        have := congrArg List.length hpush
        simp at this
      · exact hc.2
    exact ⟨hredo, fun env2 => handleRedo_of_empty env2 _ hredo⟩
  · intro env a b pts ht hd
    have hd1 : (handleUndo env0 s).1.dragging.isDragging = false := by
      unfold handleUndo
      split
      · exact hd
      · split <;> exact hd
    obtain ⟨h1, h2⟩ := drawing_gesture_commits env a b pts (handleUndo env0 s).1 ht hd1
    exact ⟨h1, h2, fun env2 => handleRedo_of_empty env2 _ h2⟩

/-- Witness for C5: the eraser drag from (30,40) to (10,5) on an empty
board. -/
theorem eraser_commit_witness :
    (sampleEnvWith .eraser).tool = .eraser ∧
    (run (gesture (sampleEnvWith .eraser) ⟨30, 40⟩ [] ⟨10, 5⟩) { elements := [] }).1.elements
      = [{ id := .num (1000 + 1 / 2), type := .eraseRect,
           x := 10, y := 5, width := 20, height := 35 }] :=
  ⟨rfl, (eraser_commit (sampleEnvWith .eraser) { elements := [] } ⟨30, 40⟩ ⟨10, 5⟩ []
    rfl rfl).2⟩

/-- Witness for C4: undo on the sample state, then a pen stroke, then
redo; and undo in the middle of a stroke, then the pointer-up that commits
it, then redo. -/
theorem commit_after_undo_clears_redo_witness :
    sampleState.undoStack ≠ [] ∧
    (handleUndo sampleEnv sampleState).1.redoStack ≠ [] ∧
    (run (gesture sampleEnv ⟨0, 0⟩ [⟨5, 5⟩] ⟨9, 9⟩)
      (handleUndo sampleEnv sampleState).1).1.redoStack = [] ∧
    handleRedo sampleEnv
        (run (gesture sampleEnv ⟨0, 0⟩ [⟨5, 5⟩] ⟨9, 9⟩)
          (handleUndo sampleEnv sampleState).1).1
      = ((run (gesture sampleEnv ⟨0, 0⟩ [⟨5, 5⟩] ⟨9, 9⟩)
          (handleUndo sampleEnv sampleState).1).1, []) ∧
    samplePenState.undoStack ≠ [] ∧
    (step sampleEnv (.mouseUp 9 9) (handleUndo sampleEnv samplePenState).1).1.undoStack
      = (handleUndo sampleEnv samplePenState).1.undoStack
          ++ [(handleUndo sampleEnv samplePenState).1.elements] ∧
    (step sampleEnv (.mouseUp 9 9) (handleUndo sampleEnv samplePenState).1).1.redoStack = [] :=
  ⟨by simp [sampleState],
    (commit_after_undo_clears_redo sampleEnv sampleState (by simp [sampleState])).1,
    ((commit_after_undo_clears_redo sampleEnv sampleState (by simp [sampleState])).2.2
      sampleEnv ⟨0, 0⟩ ⟨9, 9⟩ [⟨5, 5⟩] (Or.inl rfl) rfl).2.1,
    ((commit_after_undo_clears_redo sampleEnv sampleState (by simp [sampleState])).2.2
      sampleEnv ⟨0, 0⟩ ⟨9, 9⟩ [⟨5, 5⟩] (Or.inl rfl) rfl).2.2 sampleEnv,
    by simp [samplePenState],
    by simp [samplePenState, sampleEnv, handleUndo, step, handleCanvasMouseUp, stopDrawing,
      commit],
    ((commit_after_undo_clears_redo sampleEnv samplePenState (by simp [samplePenState])).2.1
      sampleEnv (.mouseUp 9 9)
      (by simp [samplePenState, sampleEnv, handleUndo, step, handleCanvasMouseUp,
        stopDrawing, commit])).1⟩

/-! ## Dragging the topmost element -/

/-- The hit test on a sequence whose last element accepts the point returns
that element. -/
theorem hitTestElement_append_hit (l : List Element) (el : Element) (x y : ℚ)
    (h : hitsElement x y el = true) :
    hitTestElement (l ++ [el]) x y = some el := by
  simp [hitTestElement, hitTestLoop, h]

/-- Moving to the top an element that is already last, its id being the id of no
earlier element, leaves the sequence as it is. -/
theorem bringToTop_last (l : List Element) (el : Element)
    (hfresh : ∀ e ∈ l, e.id ≠ el.id) :
    bringToTop el.id (l ++ [el]) = l ++ [el] := by
  have hidx : (l ++ [el]).findIdx? (fun e => decide (e.id = el.id)) = some l.length := by
    induction l with
    | nil => simp [List.findIdx?_cons]
    | cons a rest ih =>
      have ha : a.id ≠ el.id := hfresh a (by simp)
      have hr : ∀ e ∈ rest, e.id ≠ el.id := fun e he => hfresh e (by simp [he])
      simp [List.findIdx?_cons, ha, ih hr]
  simp [bringToTop, hidx, List.eraseIdx_append_of_length_le (Nat.le_refl l.length)]

/-- Looking up an id that only the last element carries finds the last element. -/
theorem find_last (l : List Element) (el : Element) (i : JsId) (hi : el.id = i)
    (hfresh : ∀ e ∈ l, e.id ≠ i) :
    (l ++ [el]).find? (fun e => decide (some e.id = some i)) = some el := by
  induction l with
  | nil => simp [hi]
  | cons a rest ih =>
    have ha : a.id ≠ i := hfresh a (by simp)
    have hr : ∀ e ∈ rest, e.id ≠ i := fun e he => hfresh e (by simp [he])
    have := ih hr
    simp only [Option.some.injEq] at this ⊢
    simp [List.find?_cons, ha, this]

/-- The drag callback leaves alone every element whose id is not the dragged
one. -/
theorem map_dragElement_absent (d : Dragging) (dx dy : ℚ) (l : List Element) (i : JsId)
    (hd : d.elementId = some i) (hfresh : ∀ e ∈ l, e.id ≠ i) :
    l.map (dragElement d dx dy) = l := by
  induction l with
  | nil => rfl
  | cons a rest ih =>
    have ha : a.id ≠ i := hfresh a (by simp)
    have hr : ∀ e ∈ rest, e.id ≠ i := fun e he => hfresh e (by simp [he])
    simp [List.map_cons, dragElement, hd, ha, ih hr]

/-- The update handler leaves alone a sequence in which no element carries the
incoming id. -/
theorem map_update_absent (element : Element) (l : List Element)
    (hfresh : ∀ e ∈ l, e.id ≠ element.id) :
    l.map (fun el => if el.id = element.id then element else el) = l := by
  induction l with
  | nil => rfl
  | cons a rest ih =>
    have ha : a.id ≠ element.id := hfresh a (by simp)
    have hr : ∀ e ∈ rest, e.id ≠ element.id := fun e he => hfresh e (by simp [he])
    simp [List.map_cons, ha, ih hr]

/-- A rectangle gesture outside a drag appends the new rectangle, keeps the
drag state and sends one add-element message carrying it. -/
theorem rectangle_gesture (env : Env) (a b : Point) (pts : List Point) (s : CanvasState)
    (ht : env.tool = .rectangle) (hs : env.socket = true)
    (hd : s.dragging.isDragging = false) :
    (run (gesture env a pts b) s).1.elements
      = s.elements ++ [newRectangle env b.x b.y { s with startX := a.x, startY := a.y }] ∧
    (run (gesture env a pts b) s).2
      = [.addElement (newRectangle env b.x b.y { s with startX := a.x, startY := a.y })] := by
  have hnd : env.tool ≠ .drag := by rw [ht]; decide
  have hnp : env.tool ≠ .pen := by rw [ht]; decide
  obtain ⟨hg, hd1, hm⟩ := run_gesture env a pts b s hnd hd
  obtain ⟨c1, c2, c3, c4, c5, c6, c7⟩ :=
    run_moves_core env pts (startDrawing env a.x a.y s).1 hd1
  have hmm := run_moves_msgs env pts (startDrawing env a.x a.y s).1 hd1 hnp
  constructor
  · rw [hg]
    simp only [stopDrawing, ht, c4, c1, commit, newRectangle, c5, c6]
    simp [startDrawing, ht]
  · rw [hm, hmm]
    simp only [stopDrawing, ht, c4, c1, commit, newRectangle, c5, c6]
    simp [startDrawing, ht, socketEmit, hs]

/-- One pointer-move during the drag of the topmost element, a rectangle with
a truthy id that no earlier element carries: the rectangle is placed at its
original position plus the pointer delta, the rest is unchanged, nothing is
sent. -/
theorem drag_move (env : Env) (E : List Element) (r : Element) (s : CanvasState)
    (q : Point) (X Y : ℚ)
    (hr : r.type = .rectangle) (htr : r.id.truthy = true)
    (hfresh : ∀ e ∈ E, e.id ≠ r.id)
    (hel : s.elements = E ++ [{ r with x := X, y := Y }])
    (hdg : s.dragging.isDragging = true) (hid : s.dragging.elementId = some r.id) :
    (step env (.mouseMove q.x q.y) s).1.elements
      = E ++ [{ r with
          x := s.dragging.originalElementX + (q.x - s.dragging.initialMouseX)
          y := s.dragging.originalElementY + (q.y - s.dragging.initialMouseY) }] ∧
    (step env (.mouseMove q.x q.y) s).1.dragging = s.dragging ∧
    (step env (.mouseMove q.x q.y) s).2 = [] := by
  have hE := map_dragElement_absent s.dragging (q.x - s.dragging.initialMouseX)
    (q.y - s.dragging.initialMouseY) E r.id hid hfresh
  simp only [step, handleCanvasMouseMove, hdg, hid, idTruthy, htr, Bool.and_self, if_true,
    commit, hel, List.map_append, hE, List.map_cons, List.map_nil]
  simp [dragElement, hid, hr]

/-- Pointer-moves during such a drag keep the shape of the sequence and the
drag state, and send nothing. -/
theorem drag_moves (env : Env) (E : List Element) (r : Element) (pts : List Point)
    (hr : r.type = .rectangle) (htr : r.id.truthy = true)
    (hfresh : ∀ e ∈ E, e.id ≠ r.id) :
    ∀ (s : CanvasState) (X Y : ℚ),
      s.elements = E ++ [{ r with x := X, y := Y }] →
      s.dragging.isDragging = true → s.dragging.elementId = some r.id →
      (∃ X2 Y2 : ℚ, (run (movesOf env pts) s).1.elements = E ++ [{ r with x := X2, y := Y2 }]) ∧
      (run (movesOf env pts) s).1.dragging = s.dragging ∧
      (run (movesOf env pts) s).2 = [] := by
  induction pts with
  | nil =>
    intro s X Y hel _ _
    exact ⟨⟨X, Y, hel⟩, rfl, rfl⟩
  | cons p rest ih =>
    intro s X Y hel hdg hid
    obtain ⟨m1, m2, m3⟩ := drag_move env E r s p X Y hr htr hfresh hel hdg hid
    obtain ⟨n1, n2, n3⟩ := ih (step env (.mouseMove p.x p.y) s).1 _ _ m1
      (by rw [m2]; exact hdg) (by rw [m2]; exact hid)
    simp only [movesOf, List.map_cons, run] at n1 n2 n3 ⊢
    refine ⟨n1, n2.trans m2, ?_⟩
    rw [m3, n3]
    rfl

/-- The drag pointer-down on the topmost element, a rectangle under the
pointer whose id no earlier element carries: the sequence keeps its order
and the drag state records the pointer and the rectangle's origin. -/
theorem drag_down (env : Env) (E : List Element) (r : Element) (s : CanvasState) (p : Point)
    (ht : env.tool = .drag) (hr : r.type = .rectangle)
    (hfresh : ∀ e ∈ E, e.id ≠ r.id)
    (hel : s.elements = E ++ [r])
    (hhit : hitsElement p.x p.y r = true) :
    (step env (.mouseDown p.x p.y) s).1.elements = E ++ [r] ∧
    (step env (.mouseDown p.x p.y) s).1.dragging.isDragging = true ∧
    (step env (.mouseDown p.x p.y) s).1.dragging.elementId = some r.id ∧
    (step env (.mouseDown p.x p.y) s).1.dragging.initialMouseX = p.x ∧
    (step env (.mouseDown p.x p.y) s).1.dragging.initialMouseY = p.y ∧
    (step env (.mouseDown p.x p.y) s).1.dragging.originalElementX = r.x ∧
    (step env (.mouseDown p.x p.y) s).1.dragging.originalElementY = r.y ∧
    (step env (.mouseDown p.x p.y) s).2 = [] := by
  have hh : hitTestElement (E ++ [r]) p.x p.y = some r :=
    hitTestElement_append_hit E r p.x p.y hhit
  simp [step, handleCanvasMouseDown, ht, hh, commit, hel, bringToTop_last E r hfresh, hr]

/-- The drag pointer-up sends one update-element message carrying the element
found under the dragged id, and leaves the sequence as it is. -/
theorem drag_up (env : Env) (E : List Element) (r : Element) (s : CanvasState) (u : Point)
    (hs : env.socket = true) (hfresh : ∀ e ∈ E, e.id ≠ r.id)
    (X Y : ℚ) (hel : s.elements = E ++ [{ r with x := X, y := Y }])
    (hdg : s.dragging.isDragging = true) (hid : s.dragging.elementId = some r.id) :
    (step env (.mouseUp u.x u.y) s).1.elements = E ++ [{ r with x := X, y := Y }] ∧
    (step env (.mouseUp u.x u.y) s).2 = [.updateElement { r with x := X, y := Y }] := by
  have hf := find_last E { r with x := X, y := Y } r.id rfl hfresh
  simp only [step, handleCanvasMouseUp, hdg, if_true, endDrag, hel, hid, hf, socketEmit, hs]
  simp

/-- A drag gesture on the topmost element, a rectangle under the pointer with
a truthy id that no earlier element carries: after the last pointer-move at
`q` the rectangle has moved by `q - p`, and the pointer-up sends the moved
rectangle in one update-element message. -/
theorem drag_gesture (env : Env) (E : List Element) (r : Element) (s : CanvasState)
    (p q u : Point) (pts : List Point)
    (ht : env.tool = .drag) (hs : env.socket = true)
    (hr : r.type = .rectangle) (htr : r.id.truthy = true)
    (hfresh : ∀ e ∈ E, e.id ≠ r.id)
    (hel : s.elements = E ++ [r])
    (hhit : hitsElement p.x p.y r = true) :
    (run (gesture env p (pts ++ [q]) u) s).1.elements
      = E ++ [{ r with x := r.x + (q.x - p.x), y := r.y + (q.y - p.y) }] ∧
    (run (gesture env p (pts ++ [q]) u) s).2
      = [.updateElement { r with x := r.x + (q.x - p.x), y := r.y + (q.y - p.y) }] := by
  obtain ⟨d1, d2, d3, d4, d5, d6, d7, d8⟩ := drag_down env E r s p ht hr hfresh hel hhit
  have hself : r = { r with x := r.x, y := r.y } := rfl
  obtain ⟨⟨X2, Y2, m1⟩, m2, m3⟩ := drag_moves env E r pts hr htr hfresh
    (step env (.mouseDown p.x p.y) s).1 r.x r.y (by rw [d1]) d2 d3
  obtain ⟨n1, n2, n3⟩ := drag_move env E r
    (run (movesOf env pts) (step env (.mouseDown p.x p.y) s).1).1 q X2 Y2 hr htr hfresh m1
    (by rw [m2]; exact d2) (by rw [m2]; exact d3)
  rw [m2, d4, d5, d6, d7] at n1
  obtain ⟨u1, u2⟩ := drag_up env E r
    (step env (.mouseMove q.x q.y)
      (run (movesOf env pts) (step env (.mouseDown p.x p.y) s).1).1).1 u hs hfresh _ _ n1
    (by rw [n2, m2]; exact d2) (by rw [n2, m2]; exact d3)
  have hmoves : movesOf env (pts ++ [q]) = movesOf env pts ++ [(env, Event.mouseMove q.x q.y)] := by
    simp [movesOf]
  simp only [gesture, hmoves, run, run_append, List.append_assoc]
  simp only [List.singleton_append, run, List.append_nil]
  refine ⟨u1, ?_⟩
  rw [d8, m3, n3, u2]
  rfl

/-- A peer holding `E`, none of whose ids is the incoming one, holds
`E ++ [element]` after the add-element message. -/
theorem deliver_add_fresh (element : Element) (s : CanvasState)
    (hfresh : ∀ e ∈ s.elements, e.id ≠ element.id) :
    (deliver [.addElement element] s).elements = s.elements ++ [element] := by
  have hany : s.elements.any (fun el => decide (el.id = element.id)) = false := by
    rw [List.any_eq_false]
    intro e he
    simpa using hfresh e he
  simp [deliver, receive, onAddElement, applyRemoteElementAdd, hany]
  exact fun _ => hfresh

/-- A peer holding `E ++ [r]`, no element of `E` carrying the id of `r`, holds
`E ++ [r2]` after an update-element message carrying `r2` with the id of
`r`. -/
theorem deliver_update_last (E : List Element) (r r2 : Element) (s : CanvasState)
    (hid : r2.id = r.id) (hfresh : ∀ e ∈ E, e.id ≠ r.id)
    (hel : s.elements = E ++ [r]) :
    (deliver [.updateElement r2] s).elements = E ++ [r2] := by
  have hE := map_update_absent r2 E (by rw [hid]; exact hfresh)
  rw [hid] at hE
  simp [deliver, receive, onUpdateElement, applyRemoteElementUpdate, hel, hE, hid]

/-- Convergence for a rectangle that can be picked, the part of C9 the code
satisfies: clients A and B hold the same sequence `E` (pairwise distinct ids).
A, outside a drag, draws a rectangle `r1` from `a` to `b` with an id that
is fresh in `E` and truthy, and B receives the add-element message A sends:
both hold `E ++ [r1]`.  A then drags `r1` with the drag tool, pointer-down
at a point `p` inside `r1`, pointer-moves ending at `p + (dx, dy)`,
pointer-up, and B receives the update-element message A sends at
pointer-up: both hold `E ++ [r1 moved by (dx, dy)]`. -/
theorem convergence (E : List Element) (sA sB : CanvasState) (envR envD : Env)
    (a b p : Point) (dx dy : ℚ) (pts1 pts2 : List Point)
    (hA : sA.elements = E) (hB : sB.elements = E)
    (hidle : sA.dragging.isDragging = false)
    (_hdistinct : (E.map (fun el => el.id)).Nodup)
    (hfresh : ∀ el ∈ E, el.id ≠ envR.freshId)
    (htruthy : envR.freshId.truthy = true)
    (hR : envR.tool = .rectangle) (hRs : envR.socket = true)
    (hD : envD.tool = .drag) (hDs : envD.socket = true)
    (hin : a.x ≤ p.x ∧ p.x ≤ b.x ∧ a.y ≤ p.y ∧ p.y ≤ b.y) :
    ∃ r1 : Element,
      r1.id = envR.freshId ∧ r1.type = .rectangle ∧
      r1.x = a.x ∧ r1.y = a.y ∧ r1.width = b.x - a.x ∧ r1.height = b.y - a.y ∧
      (run (gesture envR a pts1 b) sA).1.elements = E ++ [r1] ∧
      (run (gesture envR a pts1 b) sA).2 = [.addElement r1] ∧
      (deliver (run (gesture envR a pts1 b) sA).2 sB).elements = E ++ [r1] ∧
      (run (gesture envD p (pts2 ++ [⟨p.x + dx, p.y + dy⟩]) ⟨p.x + dx, p.y + dy⟩)
          (run (gesture envR a pts1 b) sA).1).1.elements
        = E ++ [{ r1 with x := r1.x + dx, y := r1.y + dy }] ∧
      (run (gesture envD p (pts2 ++ [⟨p.x + dx, p.y + dy⟩]) ⟨p.x + dx, p.y + dy⟩)
          (run (gesture envR a pts1 b) sA).1).2
        = [.updateElement { r1 with x := r1.x + dx, y := r1.y + dy }] ∧
      (deliver
          (run (gesture envD p (pts2 ++ [⟨p.x + dx, p.y + dy⟩]) ⟨p.x + dx, p.y + dy⟩)
            (run (gesture envR a pts1 b) sA).1).2
          (deliver (run (gesture envR a pts1 b) sA).2 sB)).elements
        = E ++ [{ r1 with x := r1.x + dx, y := r1.y + dy }] := by
  obtain ⟨g1, g2⟩ := rectangle_gesture envR a b pts1 sA hR hRs hidle
  generalize hr1 : newRectangle envR b.x b.y { sA with startX := a.x, startY := a.y } = r1
    at g1 g2
  rw [hA] at g1
  have hid : r1.id = envR.freshId := by rw [← hr1]; rfl
  have hty : r1.type = .rectangle := by rw [← hr1]; rfl
  have hx : r1.x = a.x := by rw [← hr1]; rfl
  have hy : r1.y = a.y := by rw [← hr1]; rfl
  have hw : r1.width = b.x - a.x := by rw [← hr1]; rfl
  have hh : r1.height = b.y - a.y := by rw [← hr1]; rfl
  have hfr : ∀ e ∈ E, e.id ≠ r1.id := by rw [hid]; exact hfresh
  have hB1 : (deliver [.addElement r1] sB).elements = E ++ [r1] := by
    rw [deliver_add_fresh r1 sB (by rw [hB]; exact hfr), hB]
  have hhit : hitsElement p.x p.y r1 = true := by
    simp only [hitsElement, hty, hx, hy, hw, hh, Bool.and_eq_true, decide_eq_true_eq, ge_iff_le]
    obtain ⟨i1, i2, i3, i4⟩ := hin
    exact ⟨⟨⟨i1, by linarith⟩, i3⟩, by linarith⟩
  obtain ⟨k1, k2⟩ := drag_gesture envD E r1 (run (gesture envR a pts1 b) sA).1 p
    ⟨p.x + dx, p.y + dy⟩ ⟨p.x + dx, p.y + dy⟩ pts2 hD hDs hty (by rw [hid]; exact htruthy)
    hfr g1 hhit
  have e1 : p.x + dx - p.x = dx := by ring
  have e2 : p.y + dy - p.y = dy := by ring
  simp only [e1, e2] at k1 k2
  refine ⟨r1, hid, hty, hx, hy, hw, hh, g1, g2, ?_, k1, k2, ?_⟩
  · rw [g2]
    exact hB1
  · rw [k2, g2]
    exact deliver_update_last E r1 _ _ rfl hfr hB1

/-- An instance of `convergence`: on an empty board A draws the rectangle from (10,10) to
(110,60), then drags it from (50,30) by (+20,+5). -/
theorem convergence_witness :
    (10 : ℚ) ≤ 50 ∧ (50 : ℚ) ≤ 110 ∧ (10 : ℚ) ≤ 30 ∧ (30 : ℚ) ≤ 60 ∧
    (sampleEnvWith .rectangle).freshId.truthy = true ∧
    ∃ r1 : Element,
      r1.id = (sampleEnvWith .rectangle).freshId ∧ r1.type = .rectangle ∧
      r1.x = 10 ∧ r1.y = 10 ∧ r1.width = 110 - 10 ∧ r1.height = 60 - 10 ∧
      (run (gesture (sampleEnvWith .rectangle) ⟨10, 10⟩ [] ⟨110, 60⟩)
        { elements := [] }).1.elements = [] ++ [r1] ∧
      (run (gesture (sampleEnvWith .rectangle) ⟨10, 10⟩ [] ⟨110, 60⟩)
        { elements := [] }).2 = [.addElement r1] ∧
      (deliver (run (gesture (sampleEnvWith .rectangle) ⟨10, 10⟩ [] ⟨110, 60⟩)
        { elements := [] }).2 { elements := [] }).elements = [] ++ [r1] ∧
      (run (gesture (sampleEnvWith .drag) ⟨50, 30⟩ ([] ++ [⟨50 + 20, 30 + 5⟩])
          ⟨50 + 20, 30 + 5⟩)
          (run (gesture (sampleEnvWith .rectangle) ⟨10, 10⟩ [] ⟨110, 60⟩)
            { elements := [] }).1).1.elements
        = [] ++ [{ r1 with x := r1.x + 20, y := r1.y + 5 }] ∧
      (run (gesture (sampleEnvWith .drag) ⟨50, 30⟩ ([] ++ [⟨50 + 20, 30 + 5⟩])
          ⟨50 + 20, 30 + 5⟩)
          (run (gesture (sampleEnvWith .rectangle) ⟨10, 10⟩ [] ⟨110, 60⟩)
            { elements := [] }).1).2
        = [.updateElement { r1 with x := r1.x + 20, y := r1.y + 5 }] ∧
      (deliver
          (run (gesture (sampleEnvWith .drag) ⟨50, 30⟩ ([] ++ [⟨50 + 20, 30 + 5⟩])
            ⟨50 + 20, 30 + 5⟩)
            (run (gesture (sampleEnvWith .rectangle) ⟨10, 10⟩ [] ⟨110, 60⟩)
              { elements := [] }).1).2
          (deliver (run (gesture (sampleEnvWith .rectangle) ⟨10, 10⟩ [] ⟨110, 60⟩)
            { elements := [] }).2 { elements := [] })).elements
        = [] ++ [{ r1 with x := r1.x + 20, y := r1.y + 5 }] :=
  ⟨by norm_num, by norm_num, by norm_num, by norm_num,
    by norm_num [sampleEnvWith, sampleEnv, Env.freshId, JsId.truthy],
    convergence [] { elements := [] } { elements := [] }
      (sampleEnvWith .rectangle) (sampleEnvWith .drag) ⟨10, 10⟩ ⟨110, 60⟩ ⟨50, 30⟩ 20 5 [] []
      rfl rfl rfl (by simp) (by simp)
      (by norm_num [sampleEnvWith, sampleEnv, Env.freshId, JsId.truthy])
      rfl rfl rfl rfl (by norm_num)⟩

/-- C9 at the failing input: client A draws a rectangle on the empty board
from the anchor (110,60) up and to the left to (10,10), and client B, on the
empty board too, applies the add-element message: both hold the one
rectangle `r1`, with x = 110, y = 60, width -100 and height -50.  A then
takes the drag tool, presses at (60,35), the middle of the drawn box, moves
to (80,40) and releases: no drag starts, the state of A is as before, no
update-element message is sent, and both clients still hold `r1` at (110,60),
not at (130,65). -/
theorem leftward_rectangle_drag_ignored :
    ∃ r1 : Element,
      sampleLeftward.1.elements = [r1] ∧
      sampleLeftward.2 = [.addElement r1] ∧
      (deliver sampleLeftward.2 emptyBoard).elements = [r1] ∧
      r1.type = .rectangle ∧ r1.x = 110 ∧ r1.y = 60 ∧ r1.width = -100 ∧ r1.height = -50 ∧
      hitTestElement sampleLeftward.1.elements 60 35 = none ∧
      run (gesture (sampleEnvWith .drag) ⟨60, 35⟩ [⟨80, 40⟩] ⟨80, 40⟩) sampleLeftward.1
        = (sampleLeftward.1, []) ∧
      (deliver
        (run (gesture (sampleEnvWith .drag) ⟨60, 35⟩ [⟨80, 40⟩] ⟨80, 40⟩) sampleLeftward.1).2
        (deliver sampleLeftward.2 emptyBoard)).elements = [r1] ∧
      r1.x ≠ 110 + 20 := by
  have hs : sampleLeftward
      = ({ emptyBoard with
            elements := [newRectangle (sampleEnvWith .rectangle) 10 10
              { emptyBoard with startX := 110, startY := 60 }]
            undoStack := [[]]
            startX := 110
            startY := 60 },
          [.addElement (newRectangle (sampleEnvWith .rectangle) 10 10
              { emptyBoard with startX := 110, startY := 60 })]) := by
    have hg : sampleLeftward
        = ((step (sampleEnvWith .rectangle) (.mouseUp 10 10)
              (step (sampleEnvWith .rectangle) (.mouseDown 110 60) emptyBoard).1).1,
            (step (sampleEnvWith .rectangle) (.mouseDown 110 60) emptyBoard).2 ++
              ((step (sampleEnvWith .rectangle) (.mouseUp 10 10)
                (step (sampleEnvWith .rectangle) (.mouseDown 110 60) emptyBoard).1).2 ++ [])) :=
      rfl
    rw [hg]
    simp [step, handleCanvasMouseDown, handleCanvasMouseUp, startDrawing, stopDrawing, commit,
      sampleEnvWith, sampleEnv, emptyBoard, newRectangle, socketEmit]
  have hmiss : ∀ x y : ℚ, hitTestElement sampleLeftward.1.elements x y = none := by
    intro x y
    rw [hs, hitTestElement_singleton]
    have key : hitsElement x y (newRectangle (sampleEnvWith .rectangle) 10 10
        { emptyBoard with startX := 110, startY := 60 }) = false := by
      simp only [hitsElement, newRectangle]
      rw [Bool.eq_false_iff]
      intro h
      simp only [Bool.and_eq_true, decide_eq_true_eq, ge_iff_le] at h
      obtain ⟨⟨⟨h1, h2⟩, _⟩, _⟩ := h
      linarith
    rw [key]
    rfl
  have hdrag : run (gesture (sampleEnvWith .drag) ⟨60, 35⟩ [⟨80, 40⟩] ⟨80, 40⟩) sampleLeftward.1
      = (sampleLeftward.1, []) := by
    have hd0 : sampleLeftward.1.dragging.isDragging = false := by rw [hs]; rfl
    have hdr : sampleLeftward.1.isDrawing = false := by rw [hs]; rfl
    have hdown : step (sampleEnvWith .drag) (.mouseDown 60 35) sampleLeftward.1
        = (sampleLeftward.1, []) := by
      simp [step, handleCanvasMouseDown, sampleEnvWith, hmiss 60 35]
    have hmove : step (sampleEnvWith .drag) (.mouseMove 80 40) sampleLeftward.1
        = (sampleLeftward.1, []) := by
      simp [step, handleCanvasMouseMove, hd0, draw, hdr, sampleEnvWith, sampleEnv]
    have hup : step (sampleEnvWith .drag) (.mouseUp 80 40) sampleLeftward.1
        = (sampleLeftward.1, []) := by
      simp [step, handleCanvasMouseUp, hd0, stopDrawing, hdr]
    simp only [gesture, movesOf, List.map_cons, List.map_nil, List.cons_append,
      List.nil_append, run, hdown, hmove, hup]
  refine ⟨newRectangle (sampleEnvWith .rectangle) 10 10
      { emptyBoard with startX := 110, startY := 60 }, ?_, ?_, ?_, rfl, rfl, rfl, ?_, ?_,
      hmiss 60 35, hdrag, ?_, ?_⟩
  · rw [hs]
  · rw [hs]
  · rw [hs]
    simp [deliver, receive, onAddElement, applyRemoteElementAdd, emptyBoard]
  · simp only [newRectangle]; norm_num
  · simp only [newRectangle]; norm_num
  · rw [hdrag, hs]
    simp [deliver, receive, onAddElement, applyRemoteElementAdd, emptyBoard]
  · simp only [newRectangle]; norm_num

/-! ## Tool commits -/

/-- The element a drawing tool builds at pointer-up: what the branch of
`stopDrawing` for the tool appends. -/
theorem stopDrawing_creates (env : Env) (x y : ℚ) (s : CanvasState)
    (hdraw : s.isDrawing = true)
    (ht : env.tool = .pen ∨ env.tool = .rectangle ∨ env.tool = .circle ∨
      env.tool = .line ∨ env.tool = .arrow ∨ env.tool = .eraser) :
    ∃ el : Element,
      (stopDrawing env x y s).1.elements = s.elements ++ [el] ∧
      (stopDrawing env x y s).1.undoStack = s.undoStack ++ [s.elements] ∧
      (stopDrawing env x y s).1.redoStack = [] ∧
      (stopDrawing env x y s).2 = (if env.tool = .pen then contextEmit env .drawEnd else []) ++
        socketEmit env (.addElement el) ∧
      el.id = env.freshId ∧
      (env.tool = .pen → el = newPath env s) ∧
      (env.tool = .rectangle → el = newRectangle env x y s) ∧
      (env.tool = .circle → el = newCircle env x y s) ∧
      (env.tool = .line → el = newLine env .line x y s) ∧
      (env.tool = .arrow → el = newLine env .arrow x y s) ∧
      (env.tool = .eraser → el = eraseElement env x y s) := by
  rcases ht with h | h | h | h | h | h
  · exact ⟨newPath env s, by simp [stopDrawing, hdraw, h, commit],
      by simp [stopDrawing, hdraw, h, commit], by simp [stopDrawing, hdraw, h, commit],
      by simp [stopDrawing, hdraw, h], rfl, by simp [h]⟩
  · exact ⟨newRectangle env x y s, by simp [stopDrawing, hdraw, h, commit],
      by simp [stopDrawing, hdraw, h, commit], by simp [stopDrawing, hdraw, h, commit],
      by simp [stopDrawing, hdraw, h], rfl, by simp [h]⟩
  · exact ⟨newCircle env x y s, by simp [stopDrawing, hdraw, h, commit],
      by simp [stopDrawing, hdraw, h, commit], by simp [stopDrawing, hdraw, h, commit],
      by simp [stopDrawing, hdraw, h], rfl, by simp [h]⟩
  · exact ⟨newLine env .line x y s, by simp [stopDrawing, hdraw, h, commit],
      by simp [stopDrawing, hdraw, h, commit], by simp [stopDrawing, hdraw, h, commit],
      by simp [stopDrawing, hdraw, h], rfl, by simp [h]⟩
  · exact ⟨newLine env .arrow x y s, by simp [stopDrawing, hdraw, h, commit],
      by simp [stopDrawing, hdraw, h, commit], by simp [stopDrawing, hdraw, h, commit],
      by simp [stopDrawing, hdraw, h], rfl, by simp [h]⟩
  · exact ⟨eraseElement env x y s, by simp [stopDrawing, hdraw, h, commit],
      by simp [stopDrawing, hdraw, h, commit], by simp [stopDrawing, hdraw, h, commit],
      by simp [stopDrawing, hdraw, h], rfl, by simp [h]⟩

/-- A drawing gesture with the pen, a shape tool, a line tool or the eraser,
outside a drag, appends one element with the generated id, pushes the
sequence it starts from on the undo stack and empties the redo stack. -/
theorem drawing_gesture_creates (env : Env) (a b : Point) (pts : List Point)
    (s : CanvasState)
    (ht : env.tool = .pen ∨ env.tool = .rectangle ∨ env.tool = .circle ∨
      env.tool = .line ∨ env.tool = .arrow ∨ env.tool = .eraser)
    (hd : s.dragging.isDragging = false) :
    ∃ el : Element,
      (run (gesture env a pts b) s).1.elements = s.elements ++ [el] ∧
      (run (gesture env a pts b) s).1.undoStack = s.undoStack ++ [s.elements] ∧
      (run (gesture env a pts b) s).1.redoStack = [] ∧
      el.id = env.freshId := by
  have hnd : env.tool ≠ .drag := by
    rcases ht with h | h | h | h | h | h <;> rw [h] <;> decide
  obtain ⟨hg, hd1, _⟩ := run_gesture env a pts b s hnd hd
  obtain ⟨c1, c2, c3, c4, c5, c6, c7⟩ :=
    run_moves_core env pts (startDrawing env a.x a.y s).1 hd1
  have hs : (startDrawing env a.x a.y s).1.isDrawing = true ∧
      (startDrawing env a.x a.y s).1.elements = s.elements ∧
      (startDrawing env a.x a.y s).1.undoStack = s.undoStack := by
    rcases ht with h | h | h | h | h | h <;> simp [startDrawing, h]
  obtain ⟨el, e1, e2, e3, _, e5, _⟩ := stopDrawing_creates env b.x b.y
    (run (movesOf env pts) (startDrawing env a.x a.y s).1).1 (by rw [c4]; exact hs.1) ht
  refine ⟨el, ?_, ?_, ?_, e5⟩
  · rw [hg, e1, c1, hs.2.1]
  · rw [hg, e2, c2, c1, hs.2.2, hs.2.1]
  · rw [hg, e3]

/-- What `findLast` returns in the paint branch: an element of the sequence,
a rectangle or a circle, that contains the point. -/
theorem paint_find_some (x y : ℚ) (E : List Element) (c : Element)
    (h : E.reverse.find? (paintHits x y) = some c) :
    c ∈ E ∧ paintHits x y c = true ∧ (c.type = .rectangle ∨ c.type = .circle) := by
  have hm := List.mem_of_find?_eq_some h
  have hp := List.find?_some h
  refine ⟨by simpa using hm, hp, ?_⟩
  unfold paintHits at hp
  split at hp
  · rename_i ht; exact Or.inl ht
  · rename_i ht; exact Or.inr ht
  · cases hp

/-- C11: every tool commit that creates an element takes `(E, U, R)` to
`(E ++ [new], U ++ [E], [])`.  The pointer-up of a drawing interaction with
the pen, rectangle, circle, line, arrow or eraser tool appends one element
of the tool's type; a paint pointer-down that finds a rectangle or circle
under the pointer appends its filled copy; and a whole drawing gesture from
a state outside a drag does the same. -/
theorem tool_commit_appends (env : Env) (x y : ℚ) (s : CanvasState) :
    ((env.tool = .pen ∨ env.tool = .rectangle ∨ env.tool = .circle ∨
        env.tool = .line ∨ env.tool = .arrow ∨ env.tool = .eraser) →
      s.isDrawing = true → s.dragging.isDragging = false →
      ∃ el : Element,
        (step env (.mouseUp x y) s).1.elements = s.elements ++ [el] ∧
        (step env (.mouseUp x y) s).1.undoStack = s.undoStack ++ [s.elements] ∧
        (step env (.mouseUp x y) s).1.redoStack = [] ∧
        (env.tool = .pen → el.type = .path) ∧
        (env.tool = .rectangle → el.type = .rectangle) ∧
        (env.tool = .circle → el.type = .circle) ∧
        (env.tool = .line → el.type = .line) ∧
        (env.tool = .arrow → el.type = .arrow) ∧
        (env.tool = .eraser → el.type = .eraseRect)) ∧
    (env.tool = .paint →
      ∀ c : Element, s.elements.reverse.find? (paintHits x y) = some c →
        (step env (.mouseDown x y) s).1.elements
          = s.elements ++ [{ c with id := env.freshId, fill := some env.color }] ∧
        (step env (.mouseDown x y) s).1.undoStack = s.undoStack ++ [s.elements] ∧
        (step env (.mouseDown x y) s).1.redoStack = []) ∧
    ((env.tool = .pen ∨ env.tool = .rectangle ∨ env.tool = .circle ∨
        env.tool = .line ∨ env.tool = .arrow ∨ env.tool = .eraser) →
      s.dragging.isDragging = false →
      ∀ (a b : Point) (pts : List Point), ∃ el : Element,
        (run (gesture env a pts b) s).1.elements = s.elements ++ [el] ∧
        (run (gesture env a pts b) s).1.undoStack = s.undoStack ++ [s.elements] ∧
        (run (gesture env a pts b) s).1.redoStack = []) := by
  refine ⟨?_, ?_, ?_⟩
  · intro ht hdraw hd
    obtain ⟨el, e1, e2, e3, _, _, p1, p2, p3, p4, p5, p6⟩ :=
      stopDrawing_creates env x y s hdraw ht
    have hstep : step env (.mouseUp x y) s = stopDrawing env x y s := by
      simp [step, handleCanvasMouseUp, hd]
    rw [hstep]
    exact ⟨el, e1, e2, e3, fun h => by rw [p1 h]; rfl, fun h => by rw [p2 h]; rfl,
      fun h => by rw [p3 h]; rfl, fun h => by rw [p4 h]; rfl,
      fun h => by rw [p5 h]; rfl, fun h => by rw [p6 h]; rfl⟩
  · intro ht c hc
    have hnd : env.tool ≠ .drag := by rw [ht]; decide
    simp [step, handleCanvasMouseDown, hnd, startDrawing, ht, hc, commit]
  · intro ht hd a b pts
    obtain ⟨el, e1, e2, e3, _⟩ := drawing_gesture_creates env a b pts s ht hd
    exact ⟨el, e1, e2, e3⟩

/-- Witness for C11: the pointer-up that ends a pen stroke, and a paint
click on the sample rectangle. -/
theorem tool_commit_appends_witness :
    (∃ el : Element,
      (step sampleEnv (.mouseUp 9 9) samplePenState).1.elements
        = samplePenState.elements ++ [el] ∧
      (step sampleEnv (.mouseUp 9 9) samplePenState).1.undoStack
        = samplePenState.undoStack ++ [samplePenState.elements] ∧
      (step sampleEnv (.mouseUp 9 9) samplePenState).1.redoStack = [] ∧
      (sampleEnv.tool = .pen → el.type = .path) ∧
      (sampleEnv.tool = .rectangle → el.type = .rectangle) ∧
      (sampleEnv.tool = .circle → el.type = .circle) ∧
      (sampleEnv.tool = .line → el.type = .line) ∧
      (sampleEnv.tool = .arrow → el.type = .arrow) ∧
      (sampleEnv.tool = .eraser → el.type = .eraseRect)) ∧
    (step (sampleEnvWith .paint) (.mouseDown 50 30) sampleState).1.elements
      = sampleState.elements ++
        [{ sampleRect (.num 1) with
            id := (sampleEnvWith .paint).freshId
            fill := some (sampleEnvWith .paint).color }] ∧
    (step (sampleEnvWith .paint) (.mouseDown 50 30) sampleState).1.undoStack
      = sampleState.undoStack ++ [sampleState.elements] ∧
    (step (sampleEnvWith .paint) (.mouseDown 50 30) sampleState).1.redoStack = [] :=
  ⟨(tool_commit_appends sampleEnv 9 9 samplePenState).1 (Or.inl rfl) rfl rfl,
    (tool_commit_appends (sampleEnvWith .paint) 50 30 sampleState).2.1 rfl
      (sampleRect (.num 1))
      (by simp only [sampleState, sampleRect, List.reverse_cons, List.reverse_nil,
            List.nil_append, List.find?_cons, paintHits]
          norm_num)⟩

/-! ## Multi-step undo and redo -/

/-- The snapshots `E ++ es.take i` for `i < m`, oldest first. -/
theorem snapshots_succ (E : List Element) (es : List Element) (m : Nat) :
    (List.range (m + 1)).map (fun i => E ++ es.take i)
      = (List.range m).map (fun i => E ++ es.take i) ++ [E ++ es.take m] := by
  simp [List.range_succ]

/-- After the commits `es` from `s`, the sequence is `s.elements ++ es` and the
undo stack holds, above the entries of `s`, the sequences before each
commit. -/
theorem commits_shape (s t : CanvasState) (es : List Element) (h : Commits s es t) :
    t.elements = s.elements ++ es ∧
    t.undoStack = s.undoStack ++
      (List.range es.length).map (fun i => s.elements ++ es.take i) := by
  induction h with
  | none => simp
  | next t t2 es e _ h1 h2 _ ih =>
    obtain ⟨ih1, ih2⟩ := ih
    constructor
    · rw [h1, ih1, List.append_assoc]
    · rw [h2, ih2, ih1, List.length_append, List.length_singleton, snapshots_succ,
        List.append_assoc]
      congr 1
      congr 1
      · apply List.map_congr_left
        intro i hi
        have hi2 : i ≤ es.length := le_of_lt (List.mem_range.mp hi)
        rw [List.take_append_of_le_length hi2]
      · simp

/-- One undo on a state that holds the first `m + 1` elements of `es` and the
snapshots before them gives the state that holds the first `m`. -/
theorem undoStep_shape (env : Env) (E : List Element) (U : List (List Element))
    (es : List Element) (m : Nat) (s : CanvasState)
    (h2 : s.undoStack = U ++ (List.range (m + 1)).map (fun i => E ++ es.take i)) :
    (undoStep env s).elements = E ++ es.take m ∧
    (undoStep env s).undoStack = U ++ (List.range m).map (fun i => E ++ es.take i) := by
  rw [snapshots_succ, ← List.append_assoc] at h2
  have hne : s.undoStack.length ≠ 0 := by rw [h2]; simp
  have hlast : s.undoStack.getLast? = some (E ++ es.take m) := by rw [h2]; simp
  have hdrop : s.undoStack.dropLast = U ++ (List.range m).map (fun i => E ++ es.take i) := by
    rw [h2]; simp
  simp [undoStep, handleUndo, hne, hlast, hdrop]

/-- After `k ≤ m` undos the state holds the first `m - k` elements of `es`
and the snapshots before them. -/
theorem undos_shape (env : Env) (E : List Element) (U : List (List Element))
    (es : List Element) (m : Nat) (s : CanvasState)
    (h1 : s.elements = E ++ es.take m)
    (h2 : s.undoStack = U ++ (List.range m).map (fun i => E ++ es.take i)) :
    ∀ k, k ≤ m →
      (Nat.iterate (undoStep env) k s).elements = E ++ es.take (m - k) ∧
      (Nat.iterate (undoStep env) k s).undoStack
        = U ++ (List.range (m - k)).map (fun i => E ++ es.take i) := by
  intro k
  induction k with
  | zero => intro _; exact ⟨h1, h2⟩
  | succ k ih =>
    intro hk
    obtain ⟨a1, a2⟩ := ih (by omega)
    have hm : m - k = (m - (k + 1)) + 1 := by omega
    rw [hm] at a1 a2
    rw [Function.iterate_succ_apply']
    exact undoStep_shape env E U es (m - (k + 1)) _ a2

/-- Redo after undo gives the state back when the undo stack is not empty. -/
theorem redoStep_undoStep (env env2 : Env) (s : CanvasState) (h : s.undoStack ≠ []) :
    redoStep env2 (undoStep env s) = s := by
  obtain ⟨elements, undoStack, redoStack⟩ := s
  simp only at h
  obtain ⟨prevState, hlast⟩ : ∃ a, undoStack.getLast? = some a := by
    cases hl : undoStack.getLast? with
    | none => exact absurd (List.getLast?_eq_none_iff.mp hl) h
    | some a => exact ⟨a, rfl⟩
  have hrestore : undoStack.dropLast ++ [prevState] = undoStack :=
    List.dropLast_append_getLast? prevState (by simp [hlast])
  simp [undoStep, redoStep, handleUndo, handleRedo, h, hlast, hrestore]

/-- C12: from a state with sequence `E0`, after the element-creating commits
`e1..en` and then `k ≤ n` undos the sequence is `E0 ++ [e1..e(n-k)]`; `k`
redos after that give `E0 ++ [e1..en]` back, with the whole state.  One undo
on an undo stack `U ++ [P]` installs `P`, leaves `U` and puts the current
sequence on the front of the redo stack; one redo on a redo stack `N :: R`
installs `N`, leaves `R` and pushes the current sequence on the undo
stack. -/
theorem multi_undo_redo (env : Env) (s0 sn : CanvasState) (es : List Element) (k : Nat)
    (hc : Commits s0 es sn) (hk : k ≤ es.length) :
    (Nat.iterate (undoStep env) k sn).elements
      = s0.elements ++ es.take (es.length - k) ∧
    (Nat.iterate (redoStep env) k (Nat.iterate (undoStep env) k sn)).elements
      = s0.elements ++ es ∧
    Nat.iterate (redoStep env) k (Nat.iterate (undoStep env) k sn) = sn ∧
    (∀ (s : CanvasState) (U : List (List Element)) (P : List Element),
      s.undoStack = U ++ [P] →
        (undoStep env s).elements = P ∧ (undoStep env s).undoStack = U ∧
        (undoStep env s).redoStack = s.elements :: s.redoStack) ∧
    (∀ (s : CanvasState) (N : List Element) (R : List (List Element)),
      s.redoStack = N :: R →
        (redoStep env s).elements = N ∧
        (redoStep env s).undoStack = s.undoStack ++ [s.elements] ∧
        (redoStep env s).redoStack = R) := by
  obtain ⟨c1, c2⟩ := commits_shape s0 sn es hc
  have c1' : sn.elements = s0.elements ++ es.take es.length := by rw [List.take_length]; exact c1
  have hshape := undos_shape env s0.elements s0.undoStack es es.length sn c1' c2
  have hback : ∀ j, j ≤ es.length →
      Nat.iterate (redoStep env) j (Nat.iterate (undoStep env) j sn) = sn := by
    intro j
    induction j with
    | zero => intro _; rfl
    | succ j ih =>
      intro hj
      have hne : (Nat.iterate (undoStep env) j sn).undoStack ≠ [] := by
        rw [(hshape j (by omega)).2]
        have hm : es.length - j = (es.length - (j + 1)) + 1 := by omega
        rw [hm, snapshots_succ]
        simp
      rw [Function.iterate_succ_apply' (undoStep env), Function.iterate_succ_apply (redoStep env),
        redoStep_undoStep env env _ hne]
      exact ih (by omega)
  refine ⟨(hshape k hk).1, ?_, hback k hk, ?_, ?_⟩
  · rw [hback k hk, c1]
  · intro s U P hU
    have hne : s.undoStack.length ≠ 0 := by rw [hU]; simp
    have hlast : s.undoStack.getLast? = some P := by rw [hU]; simp
    have hdrop : s.undoStack.dropLast = U := by rw [hU]; simp
    simp [undoStep, handleUndo, hne, hlast, hdrop]
  · intro s N R hR
    simp [redoStep, handleRedo, hR]

/-- The function `stopDrawing` leaves the drag state alone. -/
theorem stopDrawing_dragging (env : Env) (x y : ℚ) (s : CanvasState) :
    (stopDrawing env x y s).1.dragging = s.dragging := by
  unfold stopDrawing
  split
  · rfl
  · split <;> rfl

/-- A drawing gesture outside a drag extends a chain of element-creating
commits by one, and ends outside a drag. -/
theorem commits_gesture (s t : CanvasState) (es : List Element) (env : Env)
    (a b : Point) (pts : List Point) (h : Commits s es t)
    (ht : env.tool = .pen ∨ env.tool = .rectangle ∨ env.tool = .circle ∨
      env.tool = .line ∨ env.tool = .arrow ∨ env.tool = .eraser)
    (hd : t.dragging.isDragging = false) :
    ∃ e : Element, Commits s (es ++ [e]) (run (gesture env a pts b) t).1 ∧
      (run (gesture env a pts b) t).1.dragging.isDragging = false := by
  obtain ⟨e, e1, e2, e3, _⟩ := drawing_gesture_creates env a b pts t ht hd
  refine ⟨e, Commits.next s t _ es e h e1 e2 e3, ?_⟩
  have hnd : env.tool ≠ .drag := by
    rcases ht with h | h | h | h | h | h <;> rw [h] <;> decide
  obtain ⟨hg, hd1, _⟩ := run_gesture env a pts b t hnd hd
  rw [hg, stopDrawing_dragging, (run_moves_core env pts _ hd1).2.2.2.2.2.2]
  exact hd1

/-- Witness for C12: a rectangle then a circle committed on the empty board,
one undo, one redo. -/
theorem multi_undo_redo_witness :
    Commits emptyBoard [sampleRect (.num 1), { id := .num 2, type := .circle, radius := .lit 10 }]
      sampleTwoCommits ∧
    (Nat.iterate (undoStep sampleEnv) 1 sampleTwoCommits).elements
      = emptyBoard.elements ++
        [sampleRect (.num 1), { id := .num 2, type := .circle, radius := .lit 10 }].take (2 - 1) ∧
    Nat.iterate (redoStep sampleEnv) 1 (Nat.iterate (undoStep sampleEnv) 1 sampleTwoCommits)
      = sampleTwoCommits :=
  ⟨Commits.next _ _ _ [sampleRect (.num 1)] _
      (Commits.next _ _ _ [] _ (Commits.none emptyBoard) rfl rfl rfl) rfl rfl rfl,
    (multi_undo_redo sampleEnv emptyBoard sampleTwoCommits
      [sampleRect (.num 1), { id := .num 2, type := .circle, radius := .lit 10 }] 1
      (Commits.next _ _ _ [sampleRect (.num 1)] _
        (Commits.next _ _ _ [] _ (Commits.none emptyBoard) rfl rfl rfl) rfl rfl rfl)
      (by decide)).1,
    (multi_undo_redo sampleEnv emptyBoard sampleTwoCommits
      [sampleRect (.num 1), { id := .num 2, type := .circle, radius := .lit 10 }] 1
      (Commits.next _ _ _ [sampleRect (.num 1)] _
        (Commits.next _ _ _ [] _ (Commits.none emptyBoard) rfl rfl rfl) rfl rfl rfl)
      (by decide)).2.2.1⟩

/-! ## Remote update and full sync -/

/-- C13: on a sequence with pairwise distinct ids, when the element at
position `i` carries the id of the incoming element, the update-element
handler gives a sequence of the same length that holds the incoming element
at position `i` and the old element at every other position (it is the
sequence with position `i` set to the incoming element). -/
theorem applyRemoteElementUpdate_replaces (element : Element) (prev : List Element)
    (i : Nat) (hi : i < prev.length)
    (hnd : (prev.map (fun el => el.id)).Nodup)
    (hm : (prev.get ⟨i, hi⟩).id = element.id) :
    (applyRemoteElementUpdate element prev).length = prev.length ∧
    (applyRemoteElementUpdate element prev)[i]? = some element ∧
    (∀ j : Nat, j ≠ i → (applyRemoteElementUpdate element prev)[j]? = prev[j]?) ∧
    applyRemoteElementUpdate element prev = prev.set i element := by
  have hget : ∀ j : Nat, (applyRemoteElementUpdate element prev)[j]?
      = (prev[j]?).map (fun el => if el.id = element.id then element else el) := by
    intro j
    simp [applyRemoteElementUpdate]
  have hi_eq : prev[i]? = some (prev.get ⟨i, hi⟩) := by
    simp [List.getElem?_eq_getElem hi]
  have hother : ∀ j : Nat, j ≠ i →
      (applyRemoteElementUpdate element prev)[j]? = prev[j]? := by
    intro j hj
    rw [hget]
    by_cases hjl : j < prev.length
    · rw [List.getElem?_eq_getElem hjl]
      simp only [Option.map_some', Option.some.injEq]
      rw [if_neg]
      intro hid
      apply hj
      have hjm : j < (prev.map (fun el => el.id)).length := by simpa using hjl
      have him : i < (prev.map (fun el => el.id)).length := by simpa using hi
      have h1 : (prev.map (fun el => el.id)).get ⟨j, hjm⟩
          = (prev.map (fun el => el.id)).get ⟨i, him⟩ := by
        simp only [List.get_eq_getElem, List.getElem_map]
        rw [hid, ← hm]
        rfl
      have h2 := (List.Nodup.get_inj_iff hnd).mp h1
      exact congrArg Fin.val h2
    · rw [List.getElem?_eq_none (by omega)]
      rfl
  have hat : (applyRemoteElementUpdate element prev)[i]? = some element := by
    have hm2 : prev[i].id = element.id := hm
    rw [hget, hi_eq]
    simp [hm2]
  refine ⟨by simp [applyRemoteElementUpdate], hat, hother, ?_⟩
  apply List.ext_getElem?
  intro j
  by_cases hj : j = i
  · subst hj
    rw [hat]
    simp [List.getElem?_set, hi]
  · rw [hother j hj]
    simp [List.getElem?_set, Ne.symm hj]

/-- Witness for C13: an update for id 1 on a board holding ids 1 and 2. -/
theorem applyRemoteElementUpdate_replaces_witness :
    ([sampleRect (.num 1), sampleCircle].map (fun el => el.id)).Nodup ∧
    applyRemoteElementUpdate { sampleRect (.num 1) with x := 99 }
        [sampleRect (.num 1), sampleCircle]
      = [sampleRect (.num 1), sampleCircle].set 0 { sampleRect (.num 1) with x := 99 } :=
  ⟨by simp [sampleRect, sampleCircle],
    (applyRemoteElementUpdate_replaces { sampleRect (.num 1) with x := 99 }
      [sampleRect (.num 1), sampleCircle] 0 (by simp)
      (by simp [sampleRect, sampleCircle]) rfl).2.2.2⟩

/-- C14: for every state and every sync-elements message whose `elements` is
an array, the listener installs that array as the current sequence and
empties the undo stack and the redo stack; nothing else of the state
changes. -/
theorem syncElements_installs (elements : List Element) (s : CanvasState) :
    (syncElementsListener (.array elements) s).elements = elements ∧
    (syncElementsListener (.array elements) s).undoStack = [] ∧
    (syncElementsListener (.array elements) s).redoStack = [] ∧
    syncElementsListener (.array elements) s
      = { s with elements := elements, undoStack := [], redoStack := [] } ∧
    receive (.syncElements elements) s = syncElementsListener (.array elements) s :=
  ⟨rfl, rfl, rfl, rfl, rfl⟩

/-! ## Scan order of the hit test -/

/-- The loop entered at index `n - 1` returns the last element among the
first `n` that the loop body accepts. -/
theorem hitTestLoop_eq_find (E : List Element) (x y : ℚ) (n : Nat) :
    hitTestLoop E x y n = (E.take n).reverse.find? (hitsElement x y) := by
  induction n with
  | zero => simp [hitTestLoop]
  | succ i ih =>
    rw [hitTestLoop, List.take_succ]
    cases hget : E[i]? with
    | none => simp [ih]
    | some el =>
      simp only [Option.toList_some, List.reverse_append, List.reverse_cons, List.reverse_nil,
        List.nil_append, List.singleton_append, List.find?_cons]
      cases hhit : hitsElement x y el with
      | true => simp
      | false => simp [ih]

/-- The hit test returns the last element of the sequence that the loop body
accepts. -/
theorem hitTestElement_eq_find (E : List Element) (x y : ℚ) :
    hitTestElement E x y = E.reverse.find? (hitsElement x y) := by
  rw [hitTestElement, hitTestLoop_eq_find, List.take_length]

/-- The hit test on `l1 ++ el :: l2`, when `el` is accepted and nothing in
`l2` is, returns `el`. -/
theorem hitTestElement_split (l1 l2 : List Element) (el : Element) (x y : ℚ)
    (hel : hitsElement x y el = true)
    (hl2 : ∀ e ∈ l2, hitsElement x y e = false) :
    hitTestElement (l1 ++ el :: l2) x y = some el := by
  rw [hitTestElement_eq_find, List.find?_eq_some]
  refine ⟨hel, l2.reverse, l1.reverse, by simp, ?_⟩
  intro a ha
  simp [hl2 a (List.mem_reverse.mp ha)]

/-- An element the hit test returns is in the sequence and is accepted by the
loop body, and nothing above it is. -/
theorem hitTestElement_some (E : List Element) (el : Element) (x y : ℚ)
    (h : hitTestElement E x y = some el) :
    hitsElement x y el = true ∧
    ∃ l1 l2 : List Element, E = l1 ++ el :: l2 ∧ ∀ e ∈ l2, hitsElement x y e = false := by
  rw [hitTestElement_eq_find, List.find?_eq_some] at h
  obtain ⟨hp, as, bs, hE, has⟩ := h
  refine ⟨hp, bs.reverse, as.reverse, ?_, ?_⟩
  · have := congrArg List.reverse hE
    simpa using this
  · intro e he
    have := has e (List.mem_reverse.mp he)
    simpa using this

/-- C15: the hit test scans topmost-first.  An element accepted by its
per-type rule, with no accepted element at a greater index, is the result;
so when some element is accepted the result is the accepted element of
greatest index, and when none is accepted the result is `null`. -/
theorem hitTest_topmost_first (E : List Element) (x y : ℚ) :
    (∀ (i : Nat) (hi : i < E.length),
      hitsElement x y (E.get ⟨i, hi⟩) = true →
      (∀ (j : Nat) (hj : j < E.length), i < j → hitsElement x y (E.get ⟨j, hj⟩) = false) →
      hitTestElement E x y = some (E.get ⟨i, hi⟩)) ∧
    ((∃ el ∈ E, hitsElement x y el = true) →
      ∃ (i : Nat) (hi : i < E.length),
        hitsElement x y (E.get ⟨i, hi⟩) = true ∧
        (∀ (j : Nat) (hj : j < E.length), i < j →
          hitsElement x y (E.get ⟨j, hj⟩) = false) ∧
        hitTestElement E x y = some (E.get ⟨i, hi⟩)) ∧
    ((∀ el ∈ E, hitsElement x y el = false) → hitTestElement E x y = none) ∧
    hitTestElement [sampleRect (.num 1), sampleRect (.num 2)] 50 30
      = some (sampleRect (.num 2)) := by
  have hsplit : ∀ (i : Nat) (hi : i < E.length),
      E = E.take i ++ E.get ⟨i, hi⟩ :: E.drop (i + 1) := by
    intro i hi
    have h1 : E = E.take i ++ E.drop i := (List.take_append_drop i E).symm
    have h2 : E.drop i = E.get ⟨i, hi⟩ :: E.drop (i + 1) :=
      List.drop_eq_getElem_cons hi
    rw [← h2]
    exact h1
  refine ⟨?_, ?_, ?_, ?_⟩
  · intro i hi hhit habove
    have hE := hsplit i hi
    have := hitTestElement_split (E.take i) (E.drop (i + 1)) (E.get ⟨i, hi⟩) x y hhit (by
      intro e he
      obtain ⟨k, hk, rfl⟩ := List.getElem_of_mem he
      rw [List.getElem_drop]
      have hk2 : k < E.length - (i + 1) := by simpa using hk
      exact habove (i + 1 + k) (by omega) (by omega))
    rw [← hE] at this
    exact this
  · rintro ⟨el, hmem, hhit⟩
    cases hres : hitTestElement E x y with
    | none =>
      rw [hitTestElement_eq_find, List.find?_eq_none] at hres
      exact absurd hhit (hres el (List.mem_reverse.mpr hmem))
    | some c =>
      obtain ⟨hc, l1, l2, hE, hl2⟩ := hitTestElement_some E c x y hres
      subst hE
      have hi : l1.length < (l1 ++ c :: l2).length := by simp
      have hci : (l1 ++ c :: l2).get ⟨l1.length, hi⟩ = c := by
        simp only [List.get_eq_getElem]
        rw [List.getElem_append_right (Nat.le_refl _)]
        simp
      refine ⟨l1.length, hi, by rw [hci]; exact hc, ?_, by rw [hci]⟩
      intro j hj hlt
      have hj2 : (l1 ++ c :: l2).get ⟨j, hj⟩ ∈ l2 := by
        have hle : l1.length ≤ j := by omega
        simp only [List.get_eq_getElem]
        rw [List.getElem_append_right hle]
        have hlen : j - l1.length - 1 < l2.length := by
          simp only [List.length_append, List.length_cons] at hj
          omega
        have hget : (c :: l2)[j - l1.length]? = l2[j - l1.length - 1]? := by
          have hpos : j - l1.length = (j - l1.length - 1) + 1 := by omega
          rw [hpos]
          simp
        have hsome : (c :: l2)[j - l1.length]? = some (l2.get ⟨j - l1.length - 1, hlen⟩) := by
          rw [hget, List.getElem?_eq_getElem hlen]
          rfl
        have hidx : j - l1.length < (c :: l2).length := by
          simp only [List.length_cons]
          omega
        rw [List.getElem?_eq_getElem hidx] at hsome
        rw [Option.some.inj hsome]
        exact List.get_mem _ _ _
      exact hl2 _ hj2
  · intro hall
    rw [hitTestElement_eq_find, List.find?_eq_none]
    intro e he
    simp [hall e (List.mem_reverse.mp he)]
  · apply hitTestElement_split [sampleRect (.num 1)] [] (sampleRect (.num 2)) 50 30
    · simp only [hitsElement, sampleRect]
      norm_num
    · intro e he
      cases he

/-- The hit test never returns an erase-rect: the loop has no branch for
it. -/
theorem hitTestElement_not_eraseRect (E : List Element) (c : Element) (x y : ℚ)
    (h : hitTestElement E x y = some c) : c.type ≠ .eraseRect := by
  intro ht
  have hc := (hitTestElement_some E c x y h).1
  simp [hitsElement, ht] at hc

/-- C17, as the code has it: on a sequence whose topmost element is an
erase-rect, at every point (inside its box or not), the hit test does not
return the erase-rect; it returns what it returns on the elements beneath.
No result of the hit test is an erase-rect. -/
theorem hitTest_skips_eraseRect (l : List Element) (el : Element) (x y : ℚ)
    (ht : el.type = .eraseRect) :
    hitTestElement (l ++ [el]) x y = hitTestElement l x y ∧
    hitTestElement (l ++ [el]) x y ≠ some el ∧
    (∀ c : Element, hitTestElement (l ++ [el]) x y = some c → c.type ≠ .eraseRect) := by
  have hno : hitsElement x y el = false := by simp [hitsElement, ht]
  have heq : hitTestElement (l ++ [el]) x y = hitTestElement l x y := by
    rw [hitTestElement_eq_find, hitTestElement_eq_find]
    simp [List.find?_cons, hno]
  refine ⟨heq, ?_, fun c hc => hitTestElement_not_eraseRect _ c x y hc⟩
  intro h
  exact hitTestElement_not_eraseRect _ el x y h ht

/-- Witness for C17 as amended: the sample erase-rect above the sample
rectangle, at (50,30): the rectangle beneath is returned. -/
theorem hitTest_skips_eraseRect_witness :
    sampleErase.type = .eraseRect ∧
    hitTestElement ([sampleRect (.num 1)] ++ [sampleErase]) 50 30
      = hitTestElement [sampleRect (.num 1)] 50 30 ∧
    hitTestElement ([sampleRect (.num 1)] ++ [sampleErase]) 50 30 ≠ some sampleErase :=
  ⟨rfl, (hitTest_skips_eraseRect [sampleRect (.num 1)] sampleErase 50 30 rfl).1,
    (hitTest_skips_eraseRect [sampleRect (.num 1)] sampleErase 50 30 rfl).2.1⟩

/-- C17 as stated fails: (50,30) lies inside the box of the sample erase-rect,
the only and topmost element, and the hit test returns `null`. -/
theorem hitTest_eraseRect_inside :
    sampleErase.type = .eraseRect ∧
    sampleErase.x ≤ 50 ∧ 50 ≤ sampleErase.x + sampleErase.width ∧
    sampleErase.y ≤ 30 ∧ 30 ≤ sampleErase.y + sampleErase.height ∧
    hitTestElement [sampleErase] 50 30 = none := by
  refine ⟨rfl, ?_, ?_, ?_, ?_, ?_⟩
  · norm_num [sampleErase]
  · norm_num [sampleErase]
  · norm_num [sampleErase]
  · norm_num [sampleErase]
  · rw [hitTestElement_singleton]
    simp [hitsElement, sampleErase]

/-! ## Hit test of a path -/

/-- The squared distance from `(px, py)` to the point of parameter `t` on the
line through `(x1, y1)` and `(x2, y2)` is least at the parameter `dot` of the
orthogonal projection. -/
theorem seg_min_inner (px py x1 y1 x2 y2 dot t : ℝ)
    (hdot : dot * ((x2 - x1) * (x2 - x1) + (y2 - y1) * (y2 - y1))
      = (px - x1) * (x2 - x1) + (py - y1) * (y2 - y1)) :
    (px - (x1 + dot * (x2 - x1))) ^ 2 + (py - (y1 + dot * (y2 - y1))) ^ 2
      ≤ (px - (x1 + t * (x2 - x1))) ^ 2 + (py - (y1 + t * (y2 - y1))) ^ 2 := by
  have hL : 0 ≤ (x2 - x1) * (x2 - x1) + (y2 - y1) * (y2 - y1) := by
    nlinarith [mul_self_nonneg (x2 - x1), mul_self_nonneg (y2 - y1)]
  have key : (px - (x1 + t * (x2 - x1))) ^ 2 + (py - (y1 + t * (y2 - y1))) ^ 2
      - ((px - (x1 + dot * (x2 - x1))) ^ 2 + (py - (y1 + dot * (y2 - y1))) ^ 2)
      = ((x2 - x1) * (x2 - x1) + (y2 - y1) * (y2 - y1)) * (t - dot) ^ 2 := by
    linear_combination (2 * (t - dot)) * hdot
  have : 0 ≤ ((x2 - x1) * (x2 - x1) + (y2 - y1) * (y2 - y1)) * (t - dot) ^ 2 :=
    mul_nonneg hL (sq_nonneg _)
  linarith

/-- When the projection falls before the first endpoint, the first endpoint is
the closest point of the segment. -/
theorem seg_min_left (px py x1 y1 x2 y2 dot t : ℝ)
    (hdot : dot * ((x2 - x1) * (x2 - x1) + (y2 - y1) * (y2 - y1))
      = (px - x1) * (x2 - x1) + (py - y1) * (y2 - y1))
    (hneg : dot < 0) (ht : 0 ≤ t) :
    (px - x1) ^ 2 + (py - y1) ^ 2
      ≤ (px - (x1 + t * (x2 - x1))) ^ 2 + (py - (y1 + t * (y2 - y1))) ^ 2 := by
  have hL : 0 ≤ (x2 - x1) * (x2 - x1) + (y2 - y1) * (y2 - y1) := by
    nlinarith [mul_self_nonneg (x2 - x1), mul_self_nonneg (y2 - y1)]
  have key : (px - (x1 + t * (x2 - x1))) ^ 2 + (py - (y1 + t * (y2 - y1))) ^ 2
      - ((px - x1) ^ 2 + (py - y1) ^ 2)
      = ((x2 - x1) * (x2 - x1) + (y2 - y1) * (y2 - y1)) * (t * (t - 2 * dot)) := by
    linear_combination (2 * t) * hdot
  have : 0 ≤ ((x2 - x1) * (x2 - x1) + (y2 - y1) * (y2 - y1)) * (t * (t - 2 * dot)) :=
    mul_nonneg hL (mul_nonneg ht (by linarith))
  linarith

/-- When the projection falls after the second endpoint, the second endpoint
is the closest point of the segment. -/
theorem seg_min_right (px py x1 y1 x2 y2 dot t : ℝ)
    (hdot : dot * ((x2 - x1) * (x2 - x1) + (y2 - y1) * (y2 - y1))
      = (px - x1) * (x2 - x1) + (py - y1) * (y2 - y1))
    (hbig : 1 < dot) (ht : t ≤ 1) :
    (px - x2) ^ 2 + (py - y2) ^ 2
      ≤ (px - (x1 + t * (x2 - x1))) ^ 2 + (py - (y1 + t * (y2 - y1))) ^ 2 := by
  have hL : 0 ≤ (x2 - x1) * (x2 - x1) + (y2 - y1) * (y2 - y1) := by
    nlinarith [mul_self_nonneg (x2 - x1), mul_self_nonneg (y2 - y1)]
  have key : (px - (x1 + t * (x2 - x1))) ^ 2 + (py - (y1 + t * (y2 - y1))) ^ 2
      - ((px - x2) ^ 2 + (py - y2) ^ 2)
      = ((x2 - x1) * (x2 - x1) + (y2 - y1) * (y2 - y1)) * ((1 - t) * (2 * dot - 1 - t)) := by
    linear_combination (2 * (t - 1)) * hdot
  have : 0 ≤ ((x2 - x1) * (x2 - x1) + (y2 - y1) * (y2 - y1)) * ((1 - t) * (2 * dot - 1 - t)) :=
    mul_nonneg hL (mul_nonneg (by linarith) (by linarith))
  linarith

/-- The value of `distToSegment` is the offset from the point to a point of the
segment, and no point of the segment is closer: it is the true
point-to-segment distance (a zero-length segment counting as its single
point). -/
theorem distToSegment_closest (px py x1 y1 x2 y2 : ℚ) :
    (∃ t0 : ℚ, 0 ≤ t0 ∧ t0 ≤ 1 ∧
      (distToSegment px py x1 y1 x2 y2).1 = px - (x1 + t0 * (x2 - x1)) ∧
      (distToSegment px py x1 y1 x2 y2).2 = py - (y1 + t0 * (y2 - y1))) ∧
    (∀ t : ℝ, 0 ≤ t → t ≤ 1 →
      ((distToSegment px py x1 y1 x2 y2).1 : ℝ) ^ 2
          + ((distToSegment px py x1 y1 x2 y2).2 : ℝ) ^ 2
        ≤ ((px : ℝ) - (x1 + t * (x2 - x1))) ^ 2 + ((py : ℝ) - (y1 + t * (y2 - y1))) ^ 2) := by
  unfold distToSegment
  by_cases hL : (x2 - x1) * (x2 - x1) + (y2 - y1) * (y2 - y1) = 0
  · have hx : x2 - x1 = 0 := by
      have := mul_self_nonneg (y2 - y1)
      have h2 : (x2 - x1) * (x2 - x1) ≤ 0 := by linarith
      exact mul_self_eq_zero.mp (le_antisymm h2 (mul_self_nonneg _))
    have hy : y2 - y1 = 0 := by
      have := mul_self_nonneg (x2 - x1)
      have h2 : (y2 - y1) * (y2 - y1) ≤ 0 := by linarith
      exact mul_self_eq_zero.mp (le_antisymm h2 (mul_self_nonneg _))
    simp only [hL, if_true]
    refine ⟨⟨0, le_refl _, by norm_num, by ring, by ring⟩, ?_⟩
    intro t _ _
    have hxr : ((x2 : ℝ) - x1) = 0 := by exact_mod_cast hx
    have hyr : ((y2 : ℝ) - y1) = 0 := by exact_mod_cast hy
    rw [hxr, hyr]
    push_cast
    simp
  · simp only [hL, if_false]
    obtain ⟨dot, hdot⟩ : ∃ dot, dot = ((px - x1) * (x2 - x1) + (py - y1) * (y2 - y1)) /
        ((x2 - x1) * (x2 - x1) + (y2 - y1) * (y2 - y1)) := ⟨_, rfl⟩
    have hdotL : dot * ((x2 - x1) * (x2 - x1) + (y2 - y1) * (y2 - y1))
        = (px - x1) * (x2 - x1) + (py - y1) * (y2 - y1) := by
      rw [hdot]
      field_simp
    have hdotR : (dot : ℝ) * (((x2 : ℝ) - x1) * (x2 - x1) + (y2 - y1) * (y2 - y1))
        = ((px : ℝ) - x1) * (x2 - x1) + (py - y1) * (y2 - y1) := by
      exact_mod_cast hdotL
    rw [← hdot]
    by_cases hneg : dot < 0
    · simp only [hneg, if_true]
      refine ⟨⟨0, le_refl _, by norm_num, by ring, by ring⟩, ?_⟩
      intro t ht0 _
      have hnegR : (dot : ℝ) < 0 := by exact_mod_cast hneg
      have := seg_min_left px py x1 y1 x2 y2 dot t hdotR hnegR ht0
      push_cast
      exact this
    · simp only [hneg, if_false]
      by_cases hbig : dot > 1
      · simp only [hbig, if_true]
        refine ⟨⟨1, by norm_num, le_refl _, by ring, by ring⟩, ?_⟩
        intro t _ ht1
        have hbigR : (1 : ℝ) < dot := by exact_mod_cast hbig
        have := seg_min_right px py x1 y1 x2 y2 dot t hdotR hbigR ht1
        push_cast
        exact this
      · simp only [hbig, if_false]
        refine ⟨⟨dot, not_lt.mp hneg, not_lt.mp hbig, rfl, rfl⟩, ?_⟩
        intro t _ _
        have := seg_min_inner px py x1 y1 x2 y2 dot t hdotR
        push_cast
        exact this

/-- The test `distToSegment(...) < 8` of the path branch holds exactly when
some point of the segment is at a distance below 8 from the point. -/
theorem segment_near_iff (px py x1 y1 x2 y2 : ℚ) :
    hypotLt (distToSegment px py x1 y1 x2 y2).1 (distToSegment px py x1 y1 x2 y2).2 8 = true ↔
      ∃ t : ℝ, 0 ≤ t ∧ t ≤ 1 ∧
        ((px : ℝ) - (x1 + t * (x2 - x1))) ^ 2 + ((py : ℝ) - (y1 + t * (y2 - y1))) ^ 2 < 64 := by
  obtain ⟨⟨t0, h0, h1, e1, e2⟩, hmin⟩ := distToSegment_closest px py x1 y1 x2 y2
  simp only [hypotLt, decide_eq_true_eq]
  constructor
  · rintro ⟨_, hlt⟩
    refine ⟨(t0 : ℝ), by exact_mod_cast h0, by exact_mod_cast h1, ?_⟩
    rw [e1, e2] at hlt
    have hlt2 : (px - (x1 + t0 * (x2 - x1))) ^ 2 + (py - (y1 + t0 * (y2 - y1))) ^ 2 < 64 := by
      nlinarith
    exact_mod_cast hlt2
  · rintro ⟨t, ht0, ht1, hlt⟩
    have hle := hmin t ht0 ht1
    refine ⟨by norm_num, ?_⟩
    have hR : ((distToSegment px py x1 y1 x2 y2).1 : ℝ) ^ 2
        + ((distToSegment px py x1 y1 x2 y2).2 : ℝ) ^ 2 < 64 := lt_of_le_of_lt hle hlt
    have hQ : (distToSegment px py x1 y1 x2 y2).1 ^ 2
        + (distToSegment px py x1 y1 x2 y2).2 ^ 2 < 64 := by exact_mod_cast hR
    nlinarith

/-- The inner loop of the path branch accepts the point exactly when the test
holds for some pair of consecutive points. -/
theorem pathNear_iff (x y : ℚ) (pts : List Point) :
    pathNear x y pts = true ↔
      ∃ p ∈ pts.zip pts.tail,
        hypotLt (distToSegment x y p.1.x p.1.y p.2.x p.2.y).1
          (distToSegment x y p.1.x p.1.y p.2.x p.2.y).2 8 = true := by
  induction pts with
  | nil => simp [pathNear]
  | cons p1 rest ih =>
    cases rest with
    | nil => simp [pathNear]
    | cons p2 rest2 =>
      rw [pathNear]
      simp only [List.tail_cons, List.zip_cons_cons, List.mem_cons, exists_eq_or_imp] at ih ⊢
      by_cases h : hypotLt (distToSegment x y p1.x p1.y p2.x p2.y).1
          (distToSegment x y p1.x p1.y p2.x p2.y).2 8 = true
      · simp [h]
      · simp only [h, if_false, false_or, Bool.false_eq_true]
        rw [ih]

/-- On a one-element sequence holding a path the hit test is the path
branch. -/
theorem hitTestElement_path (el : Element) (px py : ℚ) (ht : el.type = .path) :
    hitTestElement [el] px py = if pathNear px py el.points then some el else none := by
  rw [hitTestElement_singleton]
  simp only [hitsElement, ht]

/-- C16, as the code has it: on a sequence holding one path with at least
two points, the hit test returns the path exactly when, for some pair of
consecutive points, some point of the segment between them is at a distance
strictly below the tolerance 8 from the pointer (so: when the least
point-to-segment distance over the pairs is `< 8`); otherwise it returns
`null`. -/
theorem hitTest_path (el : Element) (px py : ℚ)
    (ht : el.type = .path) (_hlen : 2 ≤ el.points.length) :
    (hitTestElement [el] px py = some el ↔
      ∃ p ∈ el.points.zip el.points.tail, ∃ t : ℝ, 0 ≤ t ∧ t ≤ 1 ∧
        ((px : ℝ) - (p.1.x + t * (p.2.x - p.1.x))) ^ 2
          + ((py : ℝ) - (p.1.y + t * (p.2.y - p.1.y))) ^ 2 < 8 ^ 2) ∧
    (hitTestElement [el] px py = some el ∨ hitTestElement [el] px py = none) := by
  have h64 : ((8 : ℝ) ^ 2) = 64 := by norm_num
  rw [hitTestElement_path el px py ht, h64]
  constructor
  · constructor
    · intro h
      split at h
      · rename_i hp
        obtain ⟨p, hp1, hp2⟩ := (pathNear_iff px py el.points).mp hp
        exact ⟨p, hp1, (segment_near_iff px py p.1.x p.1.y p.2.x p.2.y).mp hp2⟩
      · cases h
    · rintro ⟨p, hp1, hp2⟩
      have : pathNear px py el.points = true :=
        (pathNear_iff px py el.points).mpr
          ⟨p, hp1, (segment_near_iff px py p.1.x p.1.y p.2.x p.2.y).mpr hp2⟩
      rw [if_pos this]
  · split
    · exact Or.inl rfl
    · exact Or.inr rfl

/-- Witness for C16 as amended: the sample path is hit at (50,3), where the
point (50,0) of its segment is at distance 3. -/
theorem hitTest_path_witness :
    samplePath.type = .path ∧ 2 ≤ samplePath.points.length ∧
    hitTestElement [samplePath] 50 3 = some samplePath :=
  ⟨rfl, by simp [samplePath],
    (hitTest_path samplePath 50 3 rfl (by simp [samplePath])).1.mpr
      ⟨(⟨0, 0⟩, ⟨100, 0⟩), by simp [samplePath], 1 / 2, by norm_num, by norm_num,
        by norm_num⟩⟩

/-- C16 as stated fails: the point (50,0) of the segment (0,0)-(100,0) is at
distance exactly 8 from (50,8), so the least distance is `<= 8`; the hit
test returns `null`. -/
theorem hitTest_path_at_tolerance :
    hitTestElement [samplePath] 50 8 = none ∧
    ∃ p ∈ samplePath.points.zip samplePath.points.tail, ∃ t : ℝ, 0 ≤ t ∧ t ≤ 1 ∧
      ((50 : ℝ) - (p.1.x + t * (p.2.x - p.1.x))) ^ 2
        + ((8 : ℝ) - (p.1.y + t * (p.2.y - p.1.y))) ^ 2 ≤ 8 ^ 2 := by
  constructor
  · rw [hitTestElement_singleton]
    simp only [hitsElement, samplePath, pathNear, distToSegment, hypotLt]
    norm_num
  · exact ⟨(⟨0, 0⟩, ⟨100, 0⟩), by simp [samplePath], 1 / 2, by norm_num, by norm_num,
      by norm_num⟩

/-! ## Paint -/

/-- The predicate of the paint branch: a rectangle whose box contains the
point, or a circle within whose radius the point lies. -/
theorem paintHits_iff (x y : ℚ) (el : Element) :
    paintHits x y el = true ↔
      (el.type = .rectangle ∧ el.x ≤ x ∧ x ≤ el.x + el.width ∧
        el.y ≤ y ∧ y ≤ el.y + el.height) ∨
      (el.type = .circle ∧
        sqrtLe ((x - el.x) * (x - el.x) + (y - el.y) * (y - el.y)) el.radius = true) := by
  unfold paintHits
  split
  · rename_i ht
    simp only [ht, Bool.and_eq_true, decide_eq_true_eq, ge_iff_le, true_and]
    constructor
    · rintro ⟨⟨⟨a, b⟩, c⟩, d⟩
      exact Or.inl ⟨a, b, c, d⟩
    · rintro (⟨a, b, c, d⟩ | ⟨h, _⟩)
      · exact ⟨⟨⟨a, b⟩, c⟩, d⟩
      · cases h
  · rename_i ht
    simp only [ht, true_and]
    constructor
    · intro h
      exact Or.inr h
    · rintro (⟨h, _⟩ | h)
      · cases h
      · exact h
  · rename_i h1 h2
    constructor
    · intro h
      cases h
    · rintro (⟨h, _⟩ | ⟨h, _⟩)
      · exact absurd h h1
      · exact absurd h h2

/-- The generated id differs from every id that is not a number and from
every number below `Date.now()`: `Math.random()` adds nothing negative. -/
theorem freshId_ne_of_lt (env : Env) (i : JsId) (hr : 0 ≤ env.random)
    (h : ∀ v : ℚ, i = .num v → v < env.now) : env.freshId ≠ i := by
  intro hc
  have := h (env.now + env.random) (by rw [← hc]; rfl)
  linarith

/-- The paint pointer-down, the part of C18 the code satisfies: a paint
pointer-down that finds a rectangle or circle under the
pointer (the topmost one, by `findLast`) appends exactly one element, the
copy of the found element with the generated id `Date.now() + Math.random()`
(different from the found element's id when that id is not a number or is a
number below `Date.now()`) and with `fill` set to the active colour; the sequence before it is unchanged,
the prior sequence goes on the undo stack and the redo stack is emptied.
When no rectangle or circle is under the pointer the state is unchanged and
nothing is sent. -/
theorem paint_appends_filled_copy (env : Env) (x y : ℚ) (s : CanvasState)
    (ht : env.tool = .paint) :
    (∀ c : Element, s.elements.reverse.find? (paintHits x y) = some c →
      (c ∈ s.elements ∧ (c.type = .rectangle ∨ c.type = .circle) ∧
        paintHits x y c = true) ∧
      (step env (.mouseDown x y) s).1.elements
        = s.elements ++ [{ c with id := env.freshId, fill := some env.color }] ∧
      (step env (.mouseDown x y) s).1.undoStack = s.undoStack ++ [s.elements] ∧
      (step env (.mouseDown x y) s).1.redoStack = [] ∧
      (step env (.mouseDown x y) s).2
        = socketEmit env (.addElement { c with id := env.freshId, fill := some env.color }) ∧
      (0 ≤ env.random → (∀ v : ℚ, c.id = .num v → v < env.now) →
        ({ c with id := env.freshId, fill := some env.color } : Element).id ≠ c.id)) ∧
    ((∃ el ∈ s.elements, paintHits x y el = true) →
      ∃ c : Element, s.elements.reverse.find? (paintHits x y) = some c) ∧
    ((∀ el ∈ s.elements, paintHits x y el = false) →
      step env (.mouseDown x y) s = (s, [])) := by
  have hnd : env.tool ≠ .drag := by rw [ht]; decide
  refine ⟨?_, ?_, ?_⟩
  · intro c hc
    obtain ⟨m1, m2, m3⟩ := paint_find_some x y s.elements c hc
    refine ⟨⟨m1, m3, m2⟩, ?_, ?_, ?_, ?_, fun hr h => freshId_ne_of_lt env c.id hr h⟩ <;>
      simp [step, handleCanvasMouseDown, hnd, startDrawing, ht, hc, commit]
  · rintro ⟨el, hmem, hhit⟩
    cases hf : s.elements.reverse.find? (paintHits x y) with
    | none =>
      rw [List.find?_eq_none] at hf
      exact absurd hhit (hf el (List.mem_reverse.mpr hmem))
    | some c => exact ⟨c, rfl⟩
  · intro hall
    have hf : s.elements.reverse.find? (paintHits x y) = none := by
      rw [List.find?_eq_none]
      intro e he
      simp [hall e (List.mem_reverse.mp he)]
    simp [step, handleCanvasMouseDown, hnd, startDrawing, ht, hf]

/-- An instance of `paint_appends_filled_copy`: a paint click at (50,30) on the sample rectangle, and
one at (200,200) where nothing lies. -/
theorem paint_appends_filled_copy_witness :
    (sampleEnvWith .paint).tool = .paint ∧
    (step (sampleEnvWith .paint) (.mouseDown 50 30) sampleState).1.elements
      = sampleState.elements ++
        [{ sampleRect (.num 1) with
            id := (sampleEnvWith .paint).freshId
            fill := some (sampleEnvWith .paint).color }] ∧
    step (sampleEnvWith .paint) (.mouseDown 200 200) sampleState = (sampleState, []) :=
  ⟨rfl,
    ((paint_appends_filled_copy (sampleEnvWith .paint) 50 30 sampleState rfl).1
      (sampleRect (.num 1))
      (by simp only [sampleState, sampleRect, List.reverse_cons, List.reverse_nil,
            List.nil_append, List.find?_cons, paintHits]
          norm_num)).2.1,
    (paint_appends_filled_copy (sampleEnvWith .paint) 200 200 sampleState rfl).2.2
      (by simp only [sampleState, sampleRect, List.mem_singleton, forall_eq, paintHits]
          norm_num)⟩

/-- C18 at the failing input: the board holds the sample rectangle under the
id 1762348800123.5, and a paint pointer-down at (50,30) is handled when
`Date.now()` is 1762348800123 and `Math.random()` is 0.5.  The clone that is
appended carries the id `Date.now() + Math.random()` = 1762348800123.5, the
id of the hit element: the id is not fresh and the sequence now holds two
elements with one id. -/
theorem paint_clone_id_collides :
    sampleClockEnv.tool = .paint ∧
    sampleClockEnv.freshId = .num (1762348800123 + 1 / 2) ∧
    (step sampleClockEnv (.mouseDown 50 30) sampleClockBoard).1.elements
      = [sampleRect (.num (1762348800123 + 1 / 2)),
          { sampleRect (.num (1762348800123 + 1 / 2)) with fill := some "#000000" }] ∧
    (∃ c clone : Element,
      (step sampleClockEnv (.mouseDown 50 30) sampleClockBoard).1.elements = [c, clone] ∧
      sampleClockBoard.elements = [c] ∧ clone.id = c.id) ∧
    ¬ ((step sampleClockEnv (.mouseDown 50 30) sampleClockBoard).1.elements.map
      (fun e => e.id)).Nodup := by
  have hfind : sampleClockBoard.elements.reverse.find? (paintHits 50 30)
      = some (sampleRect (.num (1762348800123 + 1 / 2))) := by
    simp only [sampleClockBoard, sampleRect, List.reverse_cons, List.reverse_nil,
      List.nil_append, List.find?_cons, paintHits]
    norm_num
  have hstep : (step sampleClockEnv (.mouseDown 50 30) sampleClockBoard).1.elements
      = [sampleRect (.num (1762348800123 + 1 / 2)),
          { sampleRect (.num (1762348800123 + 1 / 2)) with fill := some "#000000" }] := by
    have h1 : (step sampleClockEnv (.mouseDown 50 30) sampleClockBoard).1.elements
        = sampleClockBoard.elements ++
          [{ sampleRect (.num (1762348800123 + 1 / 2)) with
              id := sampleClockEnv.freshId
              fill := some sampleClockEnv.color }] := by
      simp [step, handleCanvasMouseDown, startDrawing, sampleClockEnv, sampleEnvWith, hfind,
        commit]
    rw [h1]
    rfl
  refine ⟨rfl, rfl, hstep, ⟨_, _, hstep, rfl, rfl⟩, ?_⟩
  rw [hstep]
  simp [sampleRect]

/-! ## Dragging any element -/

/-- Translation keeps the id. -/
theorem translated_id (dx dy : ℚ) (el : Element) : (translated dx dy el).id = el.id := by
  unfold translated
  split <;> rfl

/-- Translation by zero changes nothing. -/
theorem translated_zero (el : Element) : translated 0 0 el = el := by
  obtain ⟨id, type, x, y, width, height, radius, x1, y1, x2, y2, points, color, lineWidth,
    fill, text, fontSize, fontFamily, bold, italic, underline⟩ := el
  cases type <;> simp [translated]

/-- The drag callback, applied during the drag of `el` to `el` translated by
any amount, gives `el` translated by the pointer delta. -/
theorem dragElement_translated (el : Element) (mx my a b dx dy : ℚ) :
    dragElement (dragOf el mx my) dx dy (translated a b el) = translated dx dy el := by
  obtain ⟨id, type, x, y, width, height, radius, x1, y1, x2, y2, points, color, lineWidth,
    fill, text, fontSize, fontFamily, bold, italic, underline⟩ := el
  cases type with
  | path =>
    cases points with
    | nil => simp [dragElement, dragOf, translated]
    | cons p rest =>
      simp only [dragElement, dragOf, translated, List.map_cons, List.headD_cons,
        ne_eq, not_true_eq_false, if_false, if_true, List.map_map, Element.mk.injEq,
        true_and, and_true, List.cons.injEq, Point.mk.injEq]
      refine ⟨⟨by ring, by ring⟩, ?_⟩
      apply List.map_congr_left
      intro pt _
      simp only [Function.comp, Point.mk.injEq]
      constructor <;> ring
  | rectangle => simp [dragElement, dragOf, translated]
  | circle => simp [dragElement, dragOf, translated]
  | text => simp [dragElement, dragOf, translated]
  | line => simp [dragElement, dragOf, translated]
  | arrow => simp [dragElement, dragOf, translated]
  | eraseRect => simp [dragElement, dragOf, translated]
  | other tag => simp [dragElement, dragOf, translated]

/-- In a sequence with pairwise distinct ids, no other element carries the id
of a given one. -/
theorem nodup_split (l1 l2 : List Element) (el : Element)
    (hnd : ((l1 ++ el :: l2).map (fun e => e.id)).Nodup) :
    (∀ e ∈ l1, e.id ≠ el.id) ∧ (∀ e ∈ l2, e.id ≠ el.id) := by
  simp only [List.map_append, List.map_cons] at hnd
  rw [List.nodup_append] at hnd
  obtain ⟨_, h2, h3⟩ := hnd
  rw [List.nodup_cons] at h2
  constructor
  · intro e he hid
    exact h3 (List.mem_map_of_mem (fun e => e.id) he) (by rw [hid]; simp)
  · intro e he hid
    exact h2.1 (by rw [← hid]; exact List.mem_map_of_mem (fun e => e.id) he)

/-- Moving to the top the first element that carries an id takes it out of its
place and puts it last. -/
theorem bringToTop_mid (l1 l2 : List Element) (el : Element)
    (hfresh : ∀ e ∈ l1, e.id ≠ el.id) :
    bringToTop el.id (l1 ++ el :: l2) = l1 ++ l2 ++ [el] := by
  have hidx : (l1 ++ el :: l2).findIdx? (fun e => decide (e.id = el.id)) = some l1.length := by
    induction l1 with
    | nil => simp [List.findIdx?_cons]
    | cons a rest ih =>
      have ha : a.id ≠ el.id := hfresh a (by simp)
      have hr : ∀ e ∈ rest, e.id ≠ el.id := fun e he => hfresh e (by simp [he])
      simp [List.findIdx?_cons, ha, ih hr]
  have hget : (l1 ++ el :: l2)[l1.length]? = some el := by
    rw [List.getElem?_append_right (Nat.le_refl _)]
    simp
  have herase : (l1 ++ el :: l2).eraseIdx l1.length = l1 ++ l2 := by
    rw [List.eraseIdx_append_of_length_le (Nat.le_refl _)]
    simp
  simp only [bringToTop, hidx, hget, herase]

/-- The drag pointer-down on an element the hit test returns, no earlier
element carrying its id: the element goes last, the others keep their
order, and the drag state is the one recorded for the element. -/
theorem drag_down_mid (env : Env) (l1 l2 : List Element) (el : Element) (s : CanvasState)
    (m : Point) (ht : env.tool = .drag)
    (hfresh : ∀ e ∈ l1, e.id ≠ el.id)
    (hel : s.elements = l1 ++ el :: l2)
    (hhit : hitTestElement s.elements m.x m.y = some el) :
    (step env (.mouseDown m.x m.y) s).1.elements = l1 ++ l2 ++ [el] ∧
    (step env (.mouseDown m.x m.y) s).1.dragging = dragOf el m.x m.y ∧
    (step env (.mouseDown m.x m.y) s).2 = [] := by
  rw [hel] at hhit
  simp only [step, handleCanvasMouseDown, ht, if_true, hhit, commit, hel,
    bringToTop_mid l1 l2 el hfresh]
  exact ⟨trivial, rfl, trivial⟩

/-- One pointer-move during the drag of the last element, whose id is truthy
and carried by no other element: the element is the dragged element
translated by the pointer delta, whatever translation it had before. -/
theorem drag_move_any (env : Env) (E : List Element) (el : Element) (s : CanvasState)
    (q : Point) (mx my a b : ℚ)
    (htr : el.id.truthy = true) (hfresh : ∀ e ∈ E, e.id ≠ el.id)
    (hel : s.elements = E ++ [translated a b el])
    (hdg : s.dragging = dragOf el mx my) :
    (step env (.mouseMove q.x q.y) s).1.elements
      = E ++ [translated (q.x - mx) (q.y - my) el] ∧
    (step env (.mouseMove q.x q.y) s).1.dragging = s.dragging ∧
    (step env (.mouseMove q.x q.y) s).2 = [] := by
  have hE := map_dragElement_absent (dragOf el mx my) (q.x - mx) (q.y - my) E el.id rfl hfresh
  have hd1 : (dragOf el mx my).isDragging = true := rfl
  have hd2 : (dragOf el mx my).elementId = some el.id := rfl
  have hd3 : (dragOf el mx my).initialMouseX = mx := rfl
  have hd4 : (dragOf el mx my).initialMouseY = my := rfl
  simp only [step, handleCanvasMouseMove, hdg, hd1, hd2, hd3, hd4, idTruthy, htr,
    Bool.and_self, if_true, commit, hel, List.map_append, hE, List.map_cons, List.map_nil,
    dragElement_translated]
  exact ⟨trivial, trivial, trivial⟩

/-- Pointer-moves during such a drag keep the others, leave the dragged element
translated by some amount, keep the drag state and send nothing. -/
theorem drag_moves_any (env : Env) (E : List Element) (el : Element) (pts : List Point)
    (mx my : ℚ) (htr : el.id.truthy = true) (hfresh : ∀ e ∈ E, e.id ≠ el.id) :
    ∀ (s : CanvasState) (a b : ℚ),
      s.elements = E ++ [translated a b el] → s.dragging = dragOf el mx my →
      (∃ a2 b2 : ℚ, (run (movesOf env pts) s).1.elements = E ++ [translated a2 b2 el]) ∧
      (run (movesOf env pts) s).1.dragging = dragOf el mx my ∧
      (run (movesOf env pts) s).2 = [] := by
  induction pts with
  | nil =>
    intro s a b hel hdg
    exact ⟨⟨a, b, hel⟩, hdg, rfl⟩
  | cons p rest ih =>
    intro s a b hel hdg
    obtain ⟨m1, m2, m3⟩ := drag_move_any env E el s p mx my a b htr hfresh hel hdg
    obtain ⟨n1, n2, n3⟩ := ih (step env (.mouseMove p.x p.y) s).1 _ _ m1 (by rw [m2]; exact hdg)
    simp only [movesOf, List.map_cons, run] at n1 n2 n3 ⊢
    refine ⟨n1, n2, ?_⟩
    rw [m3, n3]
    rfl

/-- The drag pointer-up leaves the sequence as it is and sends the dragged
element as it stands. -/
theorem drag_up_any (env : Env) (E : List Element) (el : Element) (s : CanvasState)
    (u : Point) (mx my a b : ℚ) (hfresh : ∀ e ∈ E, e.id ≠ el.id)
    (hel : s.elements = E ++ [translated a b el])
    (hdg : s.dragging = dragOf el mx my) :
    (step env (.mouseUp u.x u.y) s).1.elements = E ++ [translated a b el] ∧
    (step env (.mouseUp u.x u.y) s).2 = socketEmit env (.updateElement (translated a b el)) := by
  have hf := find_last E (translated a b el) el.id (translated_id a b el) hfresh
  have hd1 : (dragOf el mx my).isDragging = true := rfl
  have hd2 : (dragOf el mx my).elementId = some el.id := rfl
  simp only [step, handleCanvasMouseUp, hdg, hd1, if_true, endDrag, hel, hd2, hf]
  exact ⟨trivial, trivial⟩

/-- C19, as the code has it: in a sequence with pairwise distinct ids, a drag
that starts with the pointer at `m` on an element `el` whose id is truthy,
followed by any pointer-moves ending at `q` and a pointer-up, leaves `el`
translated by `q - m` from its position at drag start, whatever the
intermediate moves were (`x, y` for rectangle, circle and text, both
endpoints for line and arrow, every point of a path), at the end of the
sequence; all other elements are unchanged and keep their order.  With no
pointer-move the element is not moved. -/
theorem drag_translates (env : Env) (s : CanvasState) (l1 l2 : List Element) (el : Element)
    (m q u : Point) (pts : List Point)
    (ht : env.tool = .drag)
    (hel : s.elements = l1 ++ el :: l2)
    (hnd : ((l1 ++ el :: l2).map (fun e => e.id)).Nodup)
    (hid : el.id.truthy = true)
    (hhit : hitTestElement s.elements m.x m.y = some el) :
    (run (gesture env m (pts ++ [q]) u) s).1.elements
      = l1 ++ l2 ++ [translated (q.x - m.x) (q.y - m.y) el] ∧
    (run (gesture env m (pts ++ [q]) u) s).2
      = socketEmit env (.updateElement (translated (q.x - m.x) (q.y - m.y) el)) ∧
    (run (gesture env m [] u) s).1.elements = l1 ++ l2 ++ [el] := by
  obtain ⟨f1, f2⟩ := nodup_split l1 l2 el hnd
  have hfresh : ∀ e ∈ l1 ++ l2, e.id ≠ el.id := by
    intro e he
    rcases List.mem_append.mp he with h | h
    · exact f1 e h
    · exact f2 e h
  obtain ⟨d1, d2, d3⟩ := drag_down_mid env l1 l2 el s m ht f1 hel hhit
  have d1z : (step env (.mouseDown m.x m.y) s).1.elements
      = l1 ++ l2 ++ [translated 0 0 el] := by rw [d1, translated_zero]
  refine ⟨?_, ?_, ?_⟩
  · obtain ⟨⟨a2, b2, m1⟩, m2, m3⟩ := drag_moves_any env (l1 ++ l2) el pts m.x m.y hid hfresh
      (step env (.mouseDown m.x m.y) s).1 0 0 d1z d2
    obtain ⟨n1, n2, n3⟩ := drag_move_any env (l1 ++ l2) el
      (run (movesOf env pts) (step env (.mouseDown m.x m.y) s).1).1 q m.x m.y a2 b2 hid hfresh
      m1 m2
    obtain ⟨u1, u2⟩ := drag_up_any env (l1 ++ l2) el
      (step env (.mouseMove q.x q.y)
        (run (movesOf env pts) (step env (.mouseDown m.x m.y) s).1).1).1 u m.x m.y _ _ hfresh
      n1 (by rw [n2, m2])
    have hmoves : movesOf env (pts ++ [q])
        = movesOf env pts ++ [(env, Event.mouseMove q.x q.y)] := by
      simp [movesOf]
    simp only [gesture, hmoves, run, run_append, List.append_assoc]
    rw [u1, List.append_assoc]
  · obtain ⟨⟨a2, b2, m1⟩, m2, m3⟩ := drag_moves_any env (l1 ++ l2) el pts m.x m.y hid hfresh
      (step env (.mouseDown m.x m.y) s).1 0 0 d1z d2
    obtain ⟨n1, n2, n3⟩ := drag_move_any env (l1 ++ l2) el
      (run (movesOf env pts) (step env (.mouseDown m.x m.y) s).1).1 q m.x m.y a2 b2 hid hfresh
      m1 m2
    obtain ⟨u1, u2⟩ := drag_up_any env (l1 ++ l2) el
      (step env (.mouseMove q.x q.y)
        (run (movesOf env pts) (step env (.mouseDown m.x m.y) s).1).1).1 u m.x m.y _ _ hfresh
      n1 (by rw [n2, m2])
    have hmoves : movesOf env (pts ++ [q])
        = movesOf env pts ++ [(env, Event.mouseMove q.x q.y)] := by
      simp [movesOf]
    simp only [gesture, hmoves, run, run_append, List.append_assoc]
    simp only [List.singleton_append, run, List.append_nil]
    rw [d3, m3, n3, u2]
    rfl
  · obtain ⟨u1, _⟩ := drag_up_any env (l1 ++ l2) el
      (step env (.mouseDown m.x m.y) s).1 u m.x m.y 0 0 hfresh d1z d2
    have hg : (run (gesture env m [] u) s).1
        = (step env (.mouseUp u.x u.y) (step env (.mouseDown m.x m.y) s).1).1 := rfl
    rw [hg, u1, translated_zero]

/-- During the drag of an element whose id is falsy a pointer-move does
nothing: the drag branch tests `dragging.elementId` for truthiness. -/
theorem drag_move_falsy (env : Env) (el : Element) (s : CanvasState) (x y mx my : ℚ)
    (hid : el.id.truthy = false) (hdg : s.dragging = dragOf el mx my) :
    step env (.mouseMove x y) s = (s, []) := by
  have hd1 : (dragOf el mx my).isDragging = true := rfl
  have hd2 : (dragOf el mx my).elementId = some el.id := rfl
  simp [step, handleCanvasMouseMove, hdg, hd1, hd2, idTruthy, hid]

/-- Witness for C19 as amended: on the sample board the rectangle, beneath
the circle, is dragged from (50,30) to (70,35). -/
theorem drag_translates_witness :
    (sampleEnvWith .drag).tool = .drag ∧
    (sampleBoard.elements.map (fun e => e.id)).Nodup ∧
    (sampleRect (.num 1)).id.truthy = true ∧
    hitTestElement sampleBoard.elements 50 30 = some (sampleRect (.num 1)) ∧
    (run (gesture (sampleEnvWith .drag) ⟨50, 30⟩ ([⟨60, 90⟩] ++ [⟨70, 35⟩]) ⟨70, 35⟩)
        sampleBoard).1.elements
      = [] ++ [{ id := .num 2, type := .circle, x := 0, y := 0, radius := .lit 10 }]
        ++ [translated (70 - 50) (35 - 30) (sampleRect (.num 1))] :=
  have hhit : hitTestElement sampleBoard.elements 50 30 = some (sampleRect (.num 1)) := by
    apply hitTestElement_split [] _ (sampleRect (.num 1)) 50 30
    · simp only [hitsElement, sampleRect]
      norm_num
    · intro e he
      simp only [List.mem_singleton] at he
      subst he
      simp only [hitsElement, sqrtLe]
      norm_num
  ⟨rfl, by simp [sampleBoard, sampleRect], by simp [sampleRect, JsId.truthy], hhit,
    (drag_translates (sampleEnvWith .drag) sampleBoard []
      [{ id := .num 2, type := .circle, x := 0, y := 0, radius := .lit 10 }]
      (sampleRect (.num 1)) ⟨50, 30⟩ ⟨70, 35⟩ ⟨70, 35⟩ [⟨60, 90⟩] rfl rfl
      (by simp [sampleRect]) (by simp [sampleRect, JsId.truthy]) hhit).1⟩

/-- The drag pointer-down on the rectangle of the board with a duplicated id:
`findIndex` finds the circle, which carries the same id, and moves it to the
end. -/
theorem drag_down_duplicate :
    (step (sampleEnvWith .drag) (.mouseDown 50 30) sampleDuplicateBoard).1.elements
      = [sampleRect (.num 1),
          { id := .num 1, type := .circle, x := 0, y := 0, radius := .lit 10 }] ∧
    (step (sampleEnvWith .drag) (.mouseDown 50 30) sampleDuplicateBoard).1.dragging
      = dragOf (sampleRect (.num 1)) 50 30 := by
  have hhit : hitTestElement sampleDuplicateBoard.elements 50 30 = some (sampleRect (.num 1)) := by
    apply hitTestElement_split [_] [] (sampleRect (.num 1)) 50 30
    · simp only [hitsElement, sampleRect]
      norm_num
    · intro e he
      cases he
  have hb : bringToTop (sampleRect (.num 1)).id sampleDuplicateBoard.elements
      = [sampleRect (.num 1),
          { id := .num 1, type := .circle, x := 0, y := 0, radius := .lit 10 }] := by
    simp [bringToTop, sampleDuplicateBoard, sampleRect, List.findIdx?_cons]
  simp only [step, handleCanvasMouseDown, sampleEnvWith, if_true, hhit, commit, hb]
  exact ⟨trivial, rfl⟩

/-- The drag of the rectangle on the board with a duplicated id moves the
circle as well, to the rectangle's origin plus the pointer delta. -/
theorem drag_duplicate_result :
    (run (gesture (sampleEnvWith .drag) ⟨50, 30⟩ [⟨70, 35⟩] ⟨70, 35⟩) sampleDuplicateBoard).1.elements
      = [translated 20 5 (sampleRect (.num 1)),
          { id := .num 1, type := .circle, x := 30, y := 15, radius := .lit 10 }] := by
  obtain ⟨d1, d2⟩ := drag_down_duplicate
  have hg : (run (gesture (sampleEnvWith .drag) ⟨50, 30⟩ [⟨70, 35⟩] ⟨70, 35⟩) sampleDuplicateBoard).1
      = (step (sampleEnvWith .drag) (.mouseUp 70 35)
          (step (sampleEnvWith .drag) (.mouseMove 70 35)
            (step (sampleEnvWith .drag) (.mouseDown 50 30) sampleDuplicateBoard).1).1).1 := rfl
  have hup : ∀ t : CanvasState,
      (step (sampleEnvWith .drag) (.mouseUp 70 35) t).1.elements = t.elements := by
    intro t
    simp only [step, handleCanvasMouseUp]
    split
    · rfl
    · simp [stopDrawing, sampleEnvWith]
  rw [hg, hup]
  generalize (step (sampleEnvWith .drag) (.mouseDown 50 30) sampleDuplicateBoard).1 = t at d1 d2
  have hd1 : (dragOf (sampleRect (.num 1)) 50 30).isDragging = true := rfl
  have hd2 : (dragOf (sampleRect (.num 1)) 50 30).elementId = some (.num 1) := rfl
  simp only [step, handleCanvasMouseMove, d2, hd1, hd2, idTruthy, JsId.truthy, commit, d1]
  simp [dragElement, dragOf, sampleRect, translated]
  norm_num

/-- C19 as stated fails twice.  A rectangle that carries no id is hit at
(50,30), the pointer moves to (70,35) and is released, and the rectangle has
not moved, while its translation by (20,5) is another element.  And on a
board where a circle carries the id of the rectangle above it, the same drag
of the rectangle moves the circle from (0,0) to (30,15). -/
theorem drag_without_id_does_not_move :
    hitTestElement sampleNoIdBoard.elements 50 30 = some (sampleRect .undef) ∧
    (run (gesture (sampleEnvWith .drag) ⟨50, 30⟩ [⟨70, 35⟩] ⟨70, 35⟩)
        sampleNoIdBoard).1.elements = [sampleRect .undef] ∧
    translated (70 - 50) (35 - 30) (sampleRect .undef) ≠ sampleRect .undef ∧
    hitTestElement sampleDuplicateBoard.elements 50 30 = some (sampleRect (.num 1)) ∧
    (run (gesture (sampleEnvWith .drag) ⟨50, 30⟩ [⟨70, 35⟩] ⟨70, 35⟩)
        sampleDuplicateBoard).1.elements
      = [translated 20 5 (sampleRect (.num 1)),
          { id := .num 1, type := .circle, x := 30, y := 15, radius := .lit 10 }] := by
  have hhit : hitTestElement sampleNoIdBoard.elements 50 30 = some (sampleRect .undef) := by
    apply hitTestElement_split [] [] (sampleRect .undef) 50 30
    · simp only [hitsElement, sampleRect]
      norm_num
    · intro e he
      cases he
  obtain ⟨d1, d2, d3⟩ := drag_down_mid (sampleEnvWith .drag) [] [] (sampleRect .undef)
    sampleNoIdBoard ⟨50, 30⟩ rfl (by simp) rfl hhit
  have hmove := drag_move_falsy (sampleEnvWith .drag) (sampleRect .undef)
    (step (sampleEnvWith .drag) (.mouseDown 50 30) sampleNoIdBoard).1 70 35 50 30
    (by simp [sampleRect, JsId.truthy]) d2
  refine ⟨hhit, ?_, ?_, ?_, drag_duplicate_result⟩
  · have hg : (run (gesture (sampleEnvWith .drag) ⟨50, 30⟩ [⟨70, 35⟩] ⟨70, 35⟩)
        sampleNoIdBoard).1
        = (step (sampleEnvWith .drag) (.mouseUp 70 35)
            (step (sampleEnvWith .drag) (.mouseMove 70 35)
              (step (sampleEnvWith .drag) (.mouseDown 50 30) sampleNoIdBoard).1).1).1 := rfl
    rw [hg, hmove]
    have hup : ∀ t : CanvasState,
        (step (sampleEnvWith .drag) (.mouseUp 70 35) t).1.elements = t.elements := by
      intro t
      simp only [step, handleCanvasMouseUp]
      split
      · rfl
      · simp [stopDrawing, sampleEnvWith]
    rw [hup, d1]
    rfl
  · simp only [translated, sampleRect, ne_eq, Element.mk.injEq, not_and]
    norm_num
  · apply hitTestElement_split [_] [] (sampleRect (.num 1)) 50 30
    · simp only [hitsElement, sampleRect]
      norm_num
    · intro e he
      cases he

/-! ## Text tool gesture -/

/-- With the text tool, outside an element drag, a whole pointer gesture
commits nothing: `startDrawing` sets `isDrawing` to `false`, so `draw` and
`stopDrawing` return at their `!isDrawing` test.  The sequence and both
stacks are as before, the editor is opened on the id `"pending"`, and
nothing is sent. -/
theorem text_gesture_no_commit (env : Env) (a b : Point) (pts : List Point) (s : CanvasState)
    (ht : env.tool = .text) (hd : s.dragging.isDragging = false) :
    (run (gesture env a pts b) s).1.elements = s.elements ∧
    (run (gesture env a pts b) s).1.undoStack = s.undoStack ∧
    (run (gesture env a pts b) s).1.redoStack = s.redoStack ∧
    (run (gesture env a pts b) s).1.isDrawing = false ∧
    (run (gesture env a pts b) s).1.editingTextId = some (.str "pending") ∧
    (run (gesture env a pts b) s).2 = [] := by
  have hnd : env.tool ≠ .drag := by rw [ht]; decide
  have hnp : env.tool ≠ .pen := by rw [ht]; decide
  have hne : env.tool ≠ .eraser := by rw [ht]; decide
  obtain ⟨hg, hd1, hm⟩ := run_gesture env a pts b s hnd hd
  have hstart : (startDrawing env a.x a.y s).1.isDrawing = false := by
    simp [startDrawing, ht]
  -- the moves change nothing at all
  have hmoves : ∀ (pts : List Point) (t : CanvasState), t.isDrawing = false →
      t.dragging.isDragging = false → run (movesOf env pts) t = (t, []) := by
    intro pts
    induction pts with
    | nil => intro t _ _; rfl
    | cons p rest ih =>
      intro t h1 h2
      have hstep : step env (Event.mouseMove p.x p.y) t = (t, []) := by
        simp [step, handleCanvasMouseMove, h2, draw, h1, hne]
      simp only [movesOf, List.map_cons, run, hstep]
      have := ih t h1 h2
      simp only [movesOf] at this
      rw [this]
      rfl
  have hmv := hmoves pts (startDrawing env a.x a.y s).1 hstart hd1
  have hstop : stopDrawing env b.x b.y (startDrawing env a.x a.y s).1
      = ((startDrawing env a.x a.y s).1, []) := by
    simp [stopDrawing, hstart]
  rw [hmv, hstop] at hg hm
  rw [hg, hm]
  simp [startDrawing, ht]

/-- The text branch of `stopDrawing`, when it is reached with `isDrawing`
true: it appends a text element with empty text on the normalized box of the
anchor and the pointer, pushes the prior sequence on the undo stack and sets
the editing id to the new element's id. -/
theorem stopDrawing_text_branch (env : Env) (x y : ℚ) (s : CanvasState)
    (ht : env.tool = .text) (hdraw : s.isDrawing = true) :
    (stopDrawing env x y s).1.elements = s.elements ++ [newTextElement env x y s] ∧
    (stopDrawing env x y s).1.undoStack = s.undoStack ++ [s.elements] ∧
    (stopDrawing env x y s).1.editingTextId = some (newTextElement env x y s).id ∧
    (newTextElement env x y s).type = .text ∧
    (newTextElement env x y s).text = "" ∧
    (newTextElement env x y s).x = min s.startX x ∧
    (newTextElement env x y s).y = min s.startY y ∧
    (newTextElement env x y s).width = |x - s.startX| ∧
    (newTextElement env x y s).height = |y - s.startY| := by
  simp [stopDrawing, ht, hdraw, commit, newTextElement]

/-- C20 as stated fails: with the text tool on the empty board, pointer-down at
(10,10), a pointer-move to (60,40) and pointer-up at (110,60) commit nothing:
the sequence and the undo stack stay empty and the editing id is
`"pending"`, not the id of a new element.  The text branch of `stopDrawing`
is not reached; entered with `isDrawing` true and the same anchor it would
have appended the text element on the box (10,10,100,50). -/
theorem text_gesture_commits_nothing :
    (run (gesture (sampleEnvWith .text) ⟨10, 10⟩ [⟨60, 40⟩] ⟨110, 60⟩) emptyBoard).1.elements
      = [] ∧
    (run (gesture (sampleEnvWith .text) ⟨10, 10⟩ [⟨60, 40⟩] ⟨110, 60⟩) emptyBoard).1.undoStack
      = [] ∧
    (run (gesture (sampleEnvWith .text) ⟨10, 10⟩ [⟨60, 40⟩] ⟨110, 60⟩)
      emptyBoard).1.editingTextId = some (.str "pending") ∧
    (run (gesture (sampleEnvWith .text) ⟨10, 10⟩ [⟨60, 40⟩] ⟨110, 60⟩) emptyBoard).2 = [] ∧
    (stopDrawing (sampleEnvWith .text) 110 60
      { emptyBoard with isDrawing := true, startX := 10, startY := 10 }).1.elements
      = [{ id := .num 1000, type := .text, x := 10, y := 10, width := 100, height := 50,
           text := "", color := "#000000", fontSize := 14,
           fontFamily := "Arial, sans-serif" }] := by
  obtain ⟨h1, h2, _, _, h5, h6⟩ := text_gesture_no_commit (sampleEnvWith .text)
    ⟨10, 10⟩ ⟨110, 60⟩ [⟨60, 40⟩] emptyBoard rfl rfl
  refine ⟨h1, h2, h5, h6, ?_⟩
  simp only [stopDrawing, sampleEnvWith, sampleEnv, emptyBoard, commit, newTextElement]
  norm_num

/-- With the text tool, outside an element drag, the state after a whole
pointer gesture is the state after its pointer-down, and nothing is sent. -/
theorem text_gesture_state (env : Env) (a b : Point) (pts : List Point) (s : CanvasState)
    (ht : env.tool = .text) (hd : s.dragging.isDragging = false) :
    run (gesture env a pts b) s
      = ({ s with
            isDrawing := false
            startX := a.x
            startY := a.y
            editingTextId := some (.str "pending")
            previewShape := none }, []) := by
  have hnd : env.tool ≠ .drag := by rw [ht]; decide
  have hne : env.tool ≠ .eraser := by rw [ht]; decide
  obtain ⟨hg, hd1, hm⟩ := run_gesture env a pts b s hnd hd
  have hstart : (startDrawing env a.x a.y s).1.isDrawing = false := by
    simp [startDrawing, ht]
  have hmoves : ∀ (pts : List Point) (t : CanvasState), t.isDrawing = false →
      t.dragging.isDragging = false → run (movesOf env pts) t = (t, []) := by
    intro pts
    induction pts with
    | nil => intro t _ _; rfl
    | cons p rest ih =>
      intro t h1 h2
      have hstep : step env (Event.mouseMove p.x p.y) t = (t, []) := by
        simp [step, handleCanvasMouseMove, h2, draw, h1, hne]
      simp only [movesOf, List.map_cons, run, hstep]
      have := ih t h1 h2
      simp only [movesOf] at this
      rw [this]
      rfl
  have hmv := hmoves pts (startDrawing env a.x a.y s).1 hstart hd1
  have hstop : stopDrawing env b.x b.y (startDrawing env a.x a.y s).1
      = ((startDrawing env a.x a.y s).1, []) := by
    simp [stopDrawing, hstart]
  rw [hmv, hstop] at hg hm
  have h1 : (startDrawing env a.x a.y s).1
      = { s with
            isDrawing := false
            startX := a.x
            startY := a.y
            editingTextId := some (.str "pending")
            previewShape := none } := by
    simp [startDrawing, ht]
  have h2 : (startDrawing env a.x a.y s).2 = [] := by
    simp [startDrawing, ht]
  rw [h1] at hg
  rw [h2] at hm
  exact Prod.ext hg (by rw [hm]; rfl)

/-- C20, as the code has it: with the text tool, outside an element drag, a
pointer-down at an anchor followed by pointer-moves and a pointer-up commits
no element.  The pointer-down records the anchor in `startX, startY`, leaves
`isDrawing` false and opens the text editor under the editing id
`"pending"`; the moves and the pointer-up change nothing; the sequence and
both stacks are as before and nothing is sent.  The text element is committed
by the editor: on a sequence in which no element carries the id `"pending"`,
after one change event of the text area with the text `value` and a press on
`Done`, a text that is not blank is appended as a text element at the anchor
with the default box 100 by 50, under the id `Date.now()`, the editor is
closed and the redo stack is empty (the change event and `Done` each push
the prior sequence on the undo stack); a blank text only closes the
editor. -/
theorem text_gesture_opens_editor (env : Env) (a b : Point) (pts : List Point)
    (s : CanvasState) (ht : env.tool = .text) (hd : s.dragging.isDragging = false) :
    run (gesture env a pts b) s
      = ({ s with
            isDrawing := false
            startX := a.x
            startY := a.y
            editingTextId := some (.str "pending")
            previewShape := none }, []) ∧
    (run (gesture env a pts b) s).1.elements = s.elements ∧
    (run (gesture env a pts b) s).1.undoStack = s.undoStack ∧
    (run (gesture env a pts b) s).1.redoStack = s.redoStack ∧
    (∀ value : String, (∀ e ∈ s.elements, e.id ≠ .str "pending") →
      (jsTrim value ≠ "" →
        ∃ el : Element,
          (run (gesture env a pts b ++ [(env, .textChange value), (env, .textDone)])
            s).1.elements = s.elements ++ [el] ∧
          el.type = .text ∧ el.text = value ∧ el.id = .num env.now ∧
          el.x = a.x ∧ el.y = a.y ∧ el.width = 100 ∧ el.height = 50 ∧
          (run (gesture env a pts b ++ [(env, .textChange value), (env, .textDone)])
            s).1.undoStack = s.undoStack ++ [s.elements] ++ [s.elements] ∧
          (run (gesture env a pts b ++ [(env, .textChange value), (env, .textDone)])
            s).1.redoStack = [] ∧
          (run (gesture env a pts b ++ [(env, .textChange value), (env, .textDone)])
            s).1.editingTextId = none ∧
          (run (gesture env a pts b ++ [(env, .textChange value), (env, .textDone)])
            s).2 = socketEmit env (.addElement el)) ∧
      (jsTrim value = "" →
        (run (gesture env a pts b ++ [(env, .textChange value), (env, .textDone)])
          s).1.elements = s.elements ∧
        (run (gesture env a pts b ++ [(env, .textChange value), (env, .textDone)])
          s).1.editingTextId = none ∧
        (run (gesture env a pts b ++ [(env, .textChange value), (env, .textDone)])
          s).2 = [])) := by
  have hg := text_gesture_state env a b pts s ht hd
  refine ⟨hg, by rw [hg], by rw [hg], by rw [hg], ?_⟩
  intro value hp
  have hmap : s.elements.map (fun el =>
      if el.id = JsId.str "pending" then { el with text := value } else el)
      = s.elements := by
    have : ∀ el ∈ s.elements,
        (if el.id = JsId.str "pending" then { el with text := value } else el) = el := by
      intro el hel
      rw [if_neg (hp el hel)]
    rw [List.map_congr_left this, List.map_id']
  have hrun : run (gesture env a pts b ++ [(env, .textChange value), (env, .textDone)]) s
      = ((onTextDone env (onTextChange value (run (gesture env a pts b) s).1)).1,
          (run (gesture env a pts b) s).2 ++
            (onTextDone env (onTextChange value (run (gesture env a pts b) s).1)).2) := by
    rw [run_append]
    simp [run, step]
  have hchange : onTextChange value (run (gesture env a pts b) s).1
      = { s with
            isDrawing := false
            startX := a.x
            startY := a.y
            editingTextId := some (.str "pending")
            previewShape := none
            undoStack := s.undoStack ++ [s.elements]
            redoStack := []
            pendingText := value } := by
    rw [hg]
    simp [onTextChange, idTruthy, JsId.truthy, commit, hmap]
  rw [hrun, hchange, hg]
  constructor
  · intro hv
    refine ⟨doneTextElement env
      { s with
          isDrawing := false
          startX := a.x
          startY := a.y
          editingTextId := some (.str "pending")
          previewShape := none
          undoStack := s.undoStack ++ [s.elements]
          redoStack := []
          pendingText := value }, ?_, rfl, rfl, rfl, rfl, rfl, rfl, rfl, ?_, ?_, ?_, ?_⟩ <;>
      simp [onTextDone, idTruthy, JsId.truthy, hv, commit]
  · intro hv
    simp [onTextDone, idTruthy, JsId.truthy, hv]

/-- Witness for C20 as amended: with the text tool on the empty board, a
gesture from (10,10) through (60,40) to (110,60), then the text "note" and
`Done`. -/
theorem text_gesture_opens_editor_witness :
    (sampleEnvWith .text).tool = .text ∧
    emptyBoard.dragging.isDragging = false ∧
    jsTrim "note" ≠ "" ∧
    (run (gesture (sampleEnvWith .text) ⟨10, 10⟩ [⟨60, 40⟩] ⟨110, 60⟩) emptyBoard).1.elements
      = emptyBoard.elements ∧
    (∃ el : Element,
      (run (gesture (sampleEnvWith .text) ⟨10, 10⟩ [⟨60, 40⟩] ⟨110, 60⟩ ++
          [(sampleEnvWith .text, .textChange "note"), (sampleEnvWith .text, .textDone)])
        emptyBoard).1.elements = emptyBoard.elements ++ [el] ∧
      el.type = .text ∧ el.text = "note" ∧
      el.x = 10 ∧ el.y = 10 ∧ el.width = 100 ∧ el.height = 50) := by
  have hv : jsTrim "note" ≠ "" := by decide
  have h := text_gesture_opens_editor (sampleEnvWith .text) ⟨10, 10⟩ ⟨110, 60⟩ [⟨60, 40⟩]
    emptyBoard rfl rfl
  refine ⟨rfl, rfl, hv, h.2.1, ?_⟩
  obtain ⟨el, h1, h2, h3, _, h5, h6, h7, h8, _⟩ :=
    (h.2.2.2.2 "note" (by simp [emptyBoard])).1 hv
  exact ⟨el, h1, h2, h3, h5, h6, h7, h8⟩

/-! ## Pen click -/

/-- C21, as the code has it: with the pen tool, outside an element drag, a
pointer-down at `a` immediately followed by a pointer-up commits a path
holding the single point `a`: it is appended to the sequence, the prior
sequence is pushed on the undo stack and the redo stack is emptied.  The
one-point path is accepted by the hit test at no point. -/
theorem pen_click_commits_point (env : Env) (a b : Point) (s : CanvasState)
    (ht : env.tool = .pen) (hd : s.dragging.isDragging = false) :
    (run (gesture env a [] b) s).1.elements
      = s.elements ++ [newPath env { s with currentPath := [a] }] ∧
    (newPath env { s with currentPath := [a] }).type = .path ∧
    (newPath env { s with currentPath := [a] }).points = [a] ∧
    (run (gesture env a [] b) s).1.undoStack = s.undoStack ++ [s.elements] ∧
    (run (gesture env a [] b) s).1.redoStack = [] ∧
    (∀ x y : ℚ, hitsElement x y (newPath env { s with currentPath := [a] }) = false) := by
  have hnd : env.tool ≠ .drag := by rw [ht]; decide
  have hg : (run (gesture env a [] b) s).1
      = (step env (.mouseUp b.x b.y) (step env (.mouseDown a.x a.y) s).1).1 := rfl
  have hdown : step env (.mouseDown a.x a.y) s = startDrawing env a.x a.y s := by
    simp [step, handleCanvasMouseDown, hnd]
  have hup : step env (.mouseUp b.x b.y) (startDrawing env a.x a.y s).1
      = stopDrawing env b.x b.y (startDrawing env a.x a.y s).1 := by
    simp [step, handleCanvasMouseUp, startDrawing, ht, hd]
  rw [hg, hdown, hup]
  refine ⟨?_, rfl, rfl, ?_, ?_, ?_⟩
  · simp [stopDrawing, startDrawing, ht, commit, newPath]
  · simp [stopDrawing, startDrawing, ht, commit]
  · simp [stopDrawing, startDrawing, ht, commit]
  · intro x y
    simp [hitsElement, pathNear, newPath]

/-- Witness for C21 as amended: a pen click at (5,5) on the empty board. -/
theorem pen_click_commits_point_witness :
    sampleEnv.tool = .pen ∧ emptyBoard.dragging.isDragging = false ∧
    (run (gesture sampleEnv ⟨5, 5⟩ [] ⟨5, 5⟩) emptyBoard).1.elements
      = emptyBoard.elements ++ [newPath sampleEnv { emptyBoard with currentPath := [⟨5, 5⟩] }] :=
  ⟨rfl, rfl, (pen_click_commits_point sampleEnv ⟨5, 5⟩ ⟨5, 5⟩ emptyBoard rfl rfl).1⟩

/-- C21 as stated fails: after a pen pointer-down at (5,5) and an immediate
pointer-up on the empty board, the sequence holds one element and the undo
stack one snapshot. -/
theorem pen_click_not_discarded :
    (run (gesture sampleEnv ⟨5, 5⟩ [] ⟨5, 5⟩) emptyBoard).1.elements ≠ emptyBoard.elements ∧
    (run (gesture sampleEnv ⟨5, 5⟩ [] ⟨5, 5⟩) emptyBoard).1.elements.length = 1 ∧
    (run (gesture sampleEnv ⟨5, 5⟩ [] ⟨5, 5⟩) emptyBoard).1.undoStack ≠ emptyBoard.undoStack ∧
    (run (gesture sampleEnv ⟨5, 5⟩ [] ⟨5, 5⟩) emptyBoard).1.undoStack = [[]] := by
  have hg : (run (gesture sampleEnv ⟨5, 5⟩ [] ⟨5, 5⟩) emptyBoard).1
      = (step sampleEnv (.mouseUp 5 5) (step sampleEnv (.mouseDown 5 5) emptyBoard).1).1 := rfl
  rw [hg]
  simp [step, handleCanvasMouseDown, handleCanvasMouseUp, startDrawing, stopDrawing, commit,
    sampleEnv, emptyBoard]

/-! ## Circle, line and arrow geometry -/

/-- A gesture with a shape tool, a line tool or the eraser, outside a drag,
reaches `stopDrawing` in a state that is drawing, holds the anchor in
`startX, startY` and has the document it started from. -/
theorem gesture_anchor (env : Env) (a b : Point) (pts : List Point) (s : CanvasState)
    (ht : env.tool = .rectangle ∨ env.tool = .circle ∨ env.tool = .line ∨
      env.tool = .arrow ∨ env.tool = .eraser)
    (hd : s.dragging.isDragging = false) :
    ∃ t : CanvasState,
      (run (gesture env a pts b) s).1 = (stopDrawing env b.x b.y t).1 ∧
      t.isDrawing = true ∧ t.startX = a.x ∧ t.startY = a.y ∧
      t.elements = s.elements ∧ t.undoStack = s.undoStack := by
  have hnd : env.tool ≠ .drag := by
    rcases ht with h | h | h | h | h <;> rw [h] <;> decide
  obtain ⟨hg, hd1, _⟩ := run_gesture env a pts b s hnd hd
  obtain ⟨c1, c2, c3, c4, c5, c6, c7⟩ :=
    run_moves_core env pts (startDrawing env a.x a.y s).1 hd1
  refine ⟨(run (movesOf env pts) (startDrawing env a.x a.y s).1).1, hg, ?_, ?_, ?_, ?_, ?_⟩
  · rw [c4]; rcases ht with h | h | h | h | h <;> simp [startDrawing, h]
  · rw [c5]; rcases ht with h | h | h | h | h <;> simp [startDrawing, h]
  · rw [c6]; rcases ht with h | h | h | h | h <;> simp [startDrawing, h]
  · rw [c1]; rcases ht with h | h | h | h | h <;> simp [startDrawing, h]
  · rw [c2]; rcases ht with h | h | h | h | h <;> simp [startDrawing, h]

/-- C22: a circle-tool drag from anchor `a` to release `b`, outside an
element drag and through any pointer-moves, commits a circle whose centre is
((ax+bx)/2, (ay+by)/2) and whose radius is `Math.sqrt(w*w + h*h) / 2` for
`w = bx - ax`, `h = by - ay`: that number `r` is non-negative and satisfies
(2r)² = (bx-ax)² + (by-ay)².  A line-tool or arrow-tool drag commits an
element of that type with (x1,y1) the anchor and (x2,y2) the release. -/
theorem circle_and_line_geometry (env : Env) (a b : Point) (pts : List Point)
    (s : CanvasState) (hd : s.dragging.isDragging = false) :
    (env.tool = .circle →
      ∃ el : Element,
        (run (gesture env a pts b) s).1.elements = s.elements ++ [el] ∧
        el.type = .circle ∧
        el.x = (a.x + b.x) / 2 ∧ el.y = (a.y + b.y) / 2 ∧
        el.radius = .halfDiag (b.x - a.x) (b.y - a.y) ∧
        2 ^ 2 * el.radius.sq = (b.x - a.x) ^ 2 + (b.y - a.y) ^ 2 ∧
        el.radius.nonneg = true ∧
        (∀ r : ℝ,
          r = Real.sqrt (((b.x - a.x : ℚ) : ℝ) * ((b.x - a.x : ℚ) : ℝ)
              + ((b.y - a.y : ℚ) : ℝ) * ((b.y - a.y : ℚ) : ℝ)) / 2 →
          0 ≤ r ∧ r ^ 2 = ((el.radius.sq : ℚ) : ℝ) ∧
          (2 * r) ^ 2 = (((b.x - a.x : ℚ) : ℝ)) ^ 2 + (((b.y - a.y : ℚ) : ℝ)) ^ 2)) ∧
    (env.tool = .line ∨ env.tool = .arrow →
      ∃ el : Element,
        (run (gesture env a pts b) s).1.elements = s.elements ++ [el] ∧
        (env.tool = .line → el.type = .line) ∧
        (env.tool = .arrow → el.type = .arrow) ∧
        el.x1 = a.x ∧ el.y1 = a.y ∧ el.x2 = b.x ∧ el.y2 = b.y) := by
  refine ⟨?_, ?_⟩
  · intro ht
    obtain ⟨t, hg, t1, t2, t3, t4, _⟩ :=
      gesture_anchor env a b pts s (Or.inr (Or.inl ht)) hd
    refine ⟨newCircle env b.x b.y t, ?_, rfl, ?_, ?_, ?_, ?_, rfl, ?_⟩
    · rw [hg]
      simp [stopDrawing, t1, ht, commit, t4]
    · simp only [newCircle, t2]
      ring
    · simp only [newCircle, t3]
      ring
    · simp only [newCircle, t2, t3]
    · simp only [newCircle, t2, t3, Radius.sq]
      ring
    · intro r hr
      have hD : (0 : ℝ) ≤ ((b.x - a.x : ℚ) : ℝ) * ((b.x - a.x : ℚ) : ℝ)
          + ((b.y - a.y : ℚ) : ℝ) * ((b.y - a.y : ℚ) : ℝ) := by
        nlinarith [mul_self_nonneg (((b.x - a.x : ℚ) : ℝ)),
          mul_self_nonneg (((b.y - a.y : ℚ) : ℝ))]
      have hsq := Real.sq_sqrt hD
      have h2 : (2 * r) ^ 2 = (((b.x - a.x : ℚ) : ℝ)) ^ 2 + (((b.y - a.y : ℚ) : ℝ)) ^ 2 := by
        have e : 2 * r = Real.sqrt (((b.x - a.x : ℚ) : ℝ) * ((b.x - a.x : ℚ) : ℝ)
            + ((b.y - a.y : ℚ) : ℝ) * ((b.y - a.y : ℚ) : ℝ)) := by
          rw [hr]; ring
        rw [e, hsq]
        ring
      refine ⟨?_, ?_, h2⟩
      · rw [hr]
        exact div_nonneg (Real.sqrt_nonneg _) (by norm_num)
      · simp only [newCircle, t2, t3, Radius.sq]
        push_cast at h2 ⊢
        have e4 : (2 * r) ^ 2 = 4 * r ^ 2 := by ring
        rw [e4] at h2
        linarith
  · intro ht
    rcases ht with h | h
    · obtain ⟨t, hg, t1, t2, t3, t4, _⟩ :=
        gesture_anchor env a b pts s (Or.inr (Or.inr (Or.inl h))) hd
      refine ⟨newLine env .line b.x b.y t, ?_, fun _ => rfl, ?_, t2, t3, rfl, rfl⟩
      · rw [hg]
        simp [stopDrawing, t1, h, commit, t4]
      · intro h2
        rw [h] at h2
        cases h2
    · obtain ⟨t, hg, t1, t2, t3, t4, _⟩ :=
        gesture_anchor env a b pts s (Or.inr (Or.inr (Or.inr (Or.inl h)))) hd
      refine ⟨newLine env .arrow b.x b.y t, ?_, ?_, fun _ => rfl, t2, t3, rfl, rfl⟩
      · rw [hg]
        simp [stopDrawing, t1, h, commit, t4]
      · intro h2
        rw [h] at h2
        cases h2

/-- Witness for C22: a circle drag and a line drag from (0,0) to (6,8) on the
empty board. -/
theorem circle_and_line_geometry_witness :
    emptyBoard.dragging.isDragging = false ∧
    (sampleEnvWith .circle).tool = .circle ∧
    (∃ el : Element,
      (run (gesture (sampleEnvWith .circle) ⟨0, 0⟩ [] ⟨6, 8⟩) emptyBoard).1.elements
        = emptyBoard.elements ++ [el] ∧
      el.type = .circle ∧ el.x = 3 ∧ el.y = 4 ∧ 2 ^ 2 * el.radius.sq = 100) ∧
    ((sampleEnvWith .line).tool = .line ∨ (sampleEnvWith .line).tool = .arrow) ∧
    (∃ el : Element,
      (run (gesture (sampleEnvWith .line) ⟨0, 0⟩ [] ⟨6, 8⟩) emptyBoard).1.elements
        = emptyBoard.elements ++ [el] ∧
      el.x1 = 0 ∧ el.y1 = 0 ∧ el.x2 = 6 ∧ el.y2 = 8) := by
  refine ⟨rfl, rfl, ?_, Or.inl rfl, ?_⟩
  · obtain ⟨el, h1, h2, h3, h4, _, h6, _⟩ :=
      (circle_and_line_geometry (sampleEnvWith .circle) ⟨0, 0⟩ ⟨6, 8⟩ [] emptyBoard rfl).1 rfl
    refine ⟨el, h1, h2, ?_, ?_, ?_⟩
    · rw [h3]; norm_num
    · rw [h4]; norm_num
    · rw [h6]; norm_num
  · obtain ⟨el, h1, _, _, h4, h5, h6, h7⟩ :=
      (circle_and_line_geometry (sampleEnvWith .line) ⟨0, 0⟩ ⟨6, 8⟩ [] emptyBoard rfl).2
        (Or.inl rfl)
    exact ⟨el, h1, h4, h5, h6, h7⟩

/-! ## Rectangle size, sync emission, malformed payloads, frame -/

/-- C23 at the failing input: a rectangle-tool drag on the empty board from
the anchor (110,60) up and to the left to (10,10) commits a rectangle with
width -100 and height -50, both negative.  The eraser branch, given the same
anchor and release, normalises with `Math.min` and `Math.max` and commits an
erase-rect of width 100 and height 50. -/
theorem rectangle_commit_negative_size :
    (∃ el : Element,
      (run (gesture (sampleEnvWith .rectangle) ⟨110, 60⟩ [] ⟨10, 10⟩) emptyBoard).1.elements
        = [el] ∧
      el.type = .rectangle ∧ el.x = 110 ∧ el.y = 60 ∧
      el.width = -100 ∧ el.height = -50 ∧ ¬ (0 ≤ el.width) ∧ ¬ (0 ≤ el.height)) ∧
    (∃ el : Element,
      (run (gesture (sampleEnvWith .eraser) ⟨110, 60⟩ [] ⟨10, 10⟩) emptyBoard).1.elements
        = [el] ∧
      el.type = .eraseRect ∧ el.x = 10 ∧ el.y = 10 ∧ el.width = 100 ∧ el.height = 50) := by
  constructor
  · have hg : (run (gesture (sampleEnvWith .rectangle) ⟨110, 60⟩ [] ⟨10, 10⟩) emptyBoard).1
        = (step (sampleEnvWith .rectangle) (.mouseUp 10 10)
            (step (sampleEnvWith .rectangle) (.mouseDown 110 60) emptyBoard).1).1 := rfl
    rw [hg]
    refine ⟨newRectangle (sampleEnvWith .rectangle) 10 10
      { emptyBoard with startX := 110, startY := 60 }, ?_, rfl, rfl, rfl, ?_, ?_, ?_, ?_⟩
    · simp [step, handleCanvasMouseDown, handleCanvasMouseUp, startDrawing, stopDrawing, commit,
        sampleEnvWith, sampleEnv, emptyBoard, newRectangle]
    all_goals simp only [newRectangle]; norm_num
  · have hg : (run (gesture (sampleEnvWith .eraser) ⟨110, 60⟩ [] ⟨10, 10⟩) emptyBoard).1
        = (step (sampleEnvWith .eraser) (.mouseUp 10 10)
            (step (sampleEnvWith .eraser) (.mouseDown 110 60) emptyBoard).1).1 := rfl
    rw [hg]
    refine ⟨eraseElement (sampleEnvWith .eraser) 10 10
      { emptyBoard with startX := 110, startY := 60 }, ?_, rfl, ?_, ?_, ?_, ?_⟩
    · simp [step, handleCanvasMouseDown, handleCanvasMouseUp, startDrawing, stopDrawing, commit,
        sampleEnvWith, sampleEnv, emptyBoard, eraseElement]
    all_goals simp only [eraseElement]; norm_num

/-- C28 at the failing input: after a rectangle-tool drag on the empty board
from the anchor (110,60) up and to the left to (10,10), the hit test returns
`null` at the midpoint (60,35) of anchor and release, and at every other
point: `x >= 110 && x <= 110 + (-100)` holds for no `x`, so the new rectangle
cannot be picked anywhere. -/
theorem leftward_rectangle_not_picked :
    hitTestElement
      (run (gesture (sampleEnvWith .rectangle) ⟨110, 60⟩ [] ⟨10, 10⟩) emptyBoard).1.elements
      60 35 = none ∧
    (∀ x y : ℚ,
      hitTestElement
        (run (gesture (sampleEnvWith .rectangle) ⟨110, 60⟩ [] ⟨10, 10⟩) emptyBoard).1.elements
        x y = none) := by
  have hg : (run (gesture (sampleEnvWith .rectangle) ⟨110, 60⟩ [] ⟨10, 10⟩) emptyBoard).1.elements
      = [newRectangle (sampleEnvWith .rectangle) 10 10
          { emptyBoard with startX := 110, startY := 60 }] := by
    have hg : (run (gesture (sampleEnvWith .rectangle) ⟨110, 60⟩ [] ⟨10, 10⟩) emptyBoard).1
        = (step (sampleEnvWith .rectangle) (.mouseUp 10 10)
            (step (sampleEnvWith .rectangle) (.mouseDown 110 60) emptyBoard).1).1 := rfl
    rw [hg]
    simp [step, handleCanvasMouseDown, handleCanvasMouseUp, startDrawing, stopDrawing, commit,
      sampleEnvWith, sampleEnv, emptyBoard, newRectangle]
  rw [hg]
  have key : ∀ x y : ℚ,
      hitsElement x y (newRectangle (sampleEnvWith .rectangle) 10 10
        { emptyBoard with startX := 110, startY := 60 }) = false := by
    intro x y
    simp only [hitsElement, newRectangle]
    rw [Bool.eq_false_iff]
    intro h
    simp only [Bool.and_eq_true, decide_eq_true_eq, ge_iff_le] at h
    obtain ⟨⟨⟨h1, h2⟩, _⟩, _⟩ := h
    linarith
  constructor
  · rw [hitTestElement_singleton, key 60 35]
    rfl
  · intro x y
    rw [hitTestElement_singleton, key x y]
    rfl

/-- C24 at the failing input and in general: `handleUndo` and `handleRedo`
emit no message at all, whatever the room and the stacks, because the name
`emitSyncElements` they guard the call with is `undefined`.  In particular an
undo in room "room" on a state with one snapshot on the undo stack installs
that snapshot and emits nothing. -/
theorem undo_redo_emit_nothing :
    (∀ (env : Env) (s : CanvasState),
      (handleUndo env s).2 = [] ∧ (handleRedo env s).2 = []) ∧
    sampleEnv.roomId = "room" ∧ sampleState.undoStack = [[]] ∧
    (handleUndo sampleEnv sampleState).1.elements = [] ∧
    (handleUndo sampleEnv sampleState).1.redoStack = [sampleState.elements] ∧
    (handleUndo sampleEnv sampleState).2 = [] ∧
    (handleRedo sampleEnv (handleUndo sampleEnv sampleState).1).1.elements
      = sampleState.elements ∧
    (handleRedo sampleEnv (handleUndo sampleEnv sampleState).1).2 = [] := by
  have hall : ∀ (env : Env) (s : CanvasState),
      (handleUndo env s).2 = [] ∧ (handleRedo env s).2 = [] := by
    intro env s
    constructor
    · unfold handleUndo
      split
      · rfl
      · split <;> rfl
    · unfold handleRedo
      split
      · rfl
      · split <;> rfl
  refine ⟨hall, rfl, rfl, ?_, ?_, (hall _ _).1, ?_, (hall _ _).2⟩
  · simp [handleUndo, sampleState]
  · simp [handleUndo, sampleState]
  · simp [handleUndo, handleRedo, sampleState]

/-- C25 at the failing input: an add-element message with no element field
raises a `TypeError` on every state, and an update-element message with no
element field raises one on every state whose sequence is non-empty (on the
sample state, for one); the sync-elements listener, which has the guard the
other two lack, ignores a payload whose elements field is not an array. -/
theorem missing_element_raises :
    (∀ s : CanvasState, ∃ e : String, addElementListener none s = .error e) ∧
    (∀ s : CanvasState, s.elements ≠ [] →
      ∃ e : String, updateElementListener none s = .error e) ∧
    (∃ e : String, updateElementListener none sampleState = .error e) ∧
    (∀ s : CanvasState, s.elements = [] → updateElementListener none s = .ok s) ∧
    (∀ s : CanvasState, syncElementsListener .notArray s = s) := by
  refine ⟨fun s => ⟨_, rfl⟩, ?_, ⟨_, rfl⟩, ?_, fun s => rfl⟩
  · intro s hs
    refine ⟨"TypeError: cannot read properties of undefined (reading 'id')", ?_⟩
    simp [updateElementListener, hs]
  · intro s hs
    simp [updateElementListener, hs]

/-- C30: the add-element and update-element handlers change only the element
sequence.  For every state and every incoming element the undo stack and the
redo stack after the handler equal those before it, and so does the rest of
the state: the result is the state with its `elements` replaced. -/
theorem remote_handlers_frame (element : Element) (s : CanvasState) :
    (onAddElement element s).undoStack = s.undoStack ∧
    (onAddElement element s).redoStack = s.redoStack ∧
    (onUpdateElement element s).undoStack = s.undoStack ∧
    (onUpdateElement element s).redoStack = s.redoStack ∧
    onAddElement element s = { s with elements := (onAddElement element s).elements } ∧
    onUpdateElement element s = { s with elements := (onUpdateElement element s).elements } ∧
    (receive (.addElement element) s).undoStack = s.undoStack ∧
    (receive (.addElement element) s).redoStack = s.redoStack ∧
    (receive (.updateElement element) s).undoStack = s.undoStack ∧
    (receive (.updateElement element) s).redoStack = s.redoStack ∧
    addElementListener (some element) s = .ok (onAddElement element s) ∧
    updateElementListener (some element) s = .ok (onUpdateElement element s) :=
  ⟨rfl, rfl, rfl, rfl, rfl, rfl, rfl, rfl, rfl, rfl, rfl, rfl⟩

/-! ## Distinct ids under remote delivery -/

/-- The update-element handler leaves the list of ids as it is: the element
put in place of another carries that other's id. -/
theorem applyRemoteElementUpdate_ids (element : Element) (prev : List Element) :
    (applyRemoteElementUpdate element prev).map (fun e => e.id) = prev.map (fun e => e.id) := by
  unfold applyRemoteElementUpdate
  induction prev with
  | nil => rfl
  | cons a rest ih =>
    simp only [List.map_cons, List.cons.injEq]
    refine ⟨?_, ih⟩
    by_cases h : a.id = element.id
    · simp [h]
    · simp [h]

/-- C26, as the code has it: on a sequence with pairwise distinct ids, the
update-element handler keeps the list of ids, hence pairwise distinct, for
every incoming element; the add-element handler keeps the ids pairwise
distinct for every incoming element whose id is truthy, and for every
incoming element whose id no element of the sequence carries. -/
theorem remote_handlers_keep_ids_distinct (element : Element) (prev : List Element)
    (hnd : (prev.map (fun e => e.id)).Nodup) :
    (applyRemoteElementUpdate element prev).map (fun e => e.id) = prev.map (fun e => e.id) ∧
    ((applyRemoteElementUpdate element prev).map (fun e => e.id)).Nodup ∧
    (element.id.truthy = true ∨ (∀ e ∈ prev, e.id ≠ element.id) →
      ((applyRemoteElementAdd element prev).map (fun e => e.id)).Nodup) := by
  refine ⟨applyRemoteElementUpdate_ids element prev, ?_, ?_⟩
  · rw [applyRemoteElementUpdate_ids]
    exact hnd
  · intro h
    unfold applyRemoteElementAdd
    by_cases hmem : ∃ e ∈ prev, e.id = element.id
    · rcases h with h | h
      · have hany : prev.any (fun el => decide (el.id = element.id)) = true := by
          rw [List.any_eq_true]
          obtain ⟨e, he, hid⟩ := hmem
          exact ⟨e, he, by simp [hid]⟩
        simp only [h, hany, Bool.and_self, if_true]
        exact hnd
      · obtain ⟨e, he, hid⟩ := hmem
        exact absurd hid (h e he)
    · have hany : prev.any (fun el => decide (el.id = element.id)) = false := by
        rw [Bool.eq_false_iff]
        intro hc
        rw [List.any_eq_true] at hc
        obtain ⟨e, he, hid⟩ := hc
        exact hmem ⟨e, he, by simpa using hid⟩
      simp only [hany, Bool.and_false, Bool.false_eq_true, if_false, List.map_append,
        List.map_cons, List.map_nil]
      rw [List.nodup_append]
      refine ⟨hnd, List.nodup_singleton _, ?_⟩
      intro a ha hb
      rw [List.mem_singleton] at hb
      rw [List.mem_map] at ha
      obtain ⟨e, he, hid⟩ := ha
      exact hmem ⟨e, he, by rw [hid, hb]⟩

/-- Witness for C26 as amended: the sample rectangle with id 1 delivered to
the board that holds it. -/
theorem remote_handlers_keep_ids_distinct_witness :
    (sampleState.elements.map (fun e => e.id)).Nodup ∧
    (sampleRect (.num 1)).id.truthy = true ∧
    ((applyRemoteElementAdd (sampleRect (.num 1)) sampleState.elements).map
      (fun e => e.id)).Nodup ∧
    ((applyRemoteElementUpdate (sampleRect (.num 1)) sampleState.elements).map
      (fun e => e.id)).Nodup :=
  have hnd : (sampleState.elements.map (fun e => e.id)).Nodup := by
    simp [sampleState]
  ⟨hnd, by simp [sampleRect, JsId.truthy],
    (remote_handlers_keep_ids_distinct (sampleRect (.num 1)) sampleState.elements hnd).2.2
      (Or.inl (by simp [sampleRect, JsId.truthy])),
    (remote_handlers_keep_ids_distinct (sampleRect (.num 1)) sampleState.elements hnd).2.1⟩

/-- C26 as stated fails: the board holding one rectangle without id has
pairwise distinct ids, and the add-element handler, given a second rectangle
without id, produces a sequence in which two elements carry the same id. -/
theorem applyRemoteElementAdd_duplicates_without_id :
    (sampleNoIdBoard.elements.map (fun e => e.id)).Nodup ∧
    applyRemoteElementAdd (sampleRect .undef) sampleNoIdBoard.elements
      = [sampleRect .undef, sampleRect .undef] ∧
    ¬ ((applyRemoteElementAdd (sampleRect .undef) sampleNoIdBoard.elements).map
      (fun e => e.id)).Nodup := by
  refine ⟨by simp [sampleNoIdBoard], ?_, ?_⟩
  · simp [applyRemoteElementAdd, sampleNoIdBoard, sampleRect, JsId.truthy]
  · simp [applyRemoteElementAdd, sampleNoIdBoard, sampleRect, JsId.truthy]

/-! ## Paint target -/

/-- The predicate of the paint branch is the loop body of the hit test
restricted to rectangles and circles. -/
theorem paintHits_eq (x y : ℚ) (el : Element) :
    paintHits x y el
      = (hitsElement x y el &&
          (decide (el.type = .rectangle) || decide (el.type = .circle))) := by
  unfold paintHits hitsElement
  cases h : el.type <;> simp

/-- When the hit test returns a rectangle or a circle, the `findLast` of the
paint branch returns the same element. -/
theorem paint_find_of_hitTest (E : List Element) (c : Element) (x y : ℚ)
    (h : hitTestElement E x y = some c) (hc : c.type = .rectangle ∨ c.type = .circle) :
    E.reverse.find? (paintHits x y) = some c := by
  rw [hitTestElement_eq_find, List.find?_eq_some] at h
  obtain ⟨hp, as, bs, hE, has⟩ := h
  rw [List.find?_eq_some]
  refine ⟨?_, as, bs, hE, ?_⟩
  · rw [paintHits_eq, hp]
    rcases hc with hc | hc <;> simp [hc]
  · intro a ha
    have := has a ha
    rw [paintHits_eq]
    simp only [Bool.not_eq_true'] at this ⊢
    simp [Bool.not_eq_true, this]

/-- When the hit test returns `null`, the `findLast` of the paint branch finds
nothing. -/
theorem paint_find_of_hitTest_none (E : List Element) (x y : ℚ)
    (h : hitTestElement E x y = none) :
    E.reverse.find? (paintHits x y) = none := by
  rw [hitTestElement_eq_find, List.find?_eq_none] at h
  rw [List.find?_eq_none]
  intro a ha
  have := h a ha
  rw [paintHits_eq]
  simp only [Bool.not_eq_true] at this ⊢
  simp [this]

/-- C27, as the code has it: the paint tool chooses its target with a
`findLast` of its own, whose predicate is the rectangle and circle rules of
the hit test.  A paint pointer-down commits a filled clone exactly when some
rectangle or circle of the sequence contains the point, and it clones the
topmost such element, whatever elements of other types lie above it.  When
`hitTestElement` returns a rectangle or a circle, paint clones that element;
when `hitTestElement` returns `null`, paint commits nothing. -/
theorem paint_target (env : Env) (x y : ℚ) (s : CanvasState) (ht : env.tool = .paint) :
    (∀ el : Element, paintHits x y el
      = (hitsElement x y el &&
          (decide (el.type = .rectangle) || decide (el.type = .circle)))) ∧
    (∀ c : Element, hitTestElement s.elements x y = some c →
      (c.type = .rectangle ∨ c.type = .circle) →
      (step env (.mouseDown x y) s).1.elements
        = s.elements ++ [{ c with id := env.freshId, fill := some env.color }]) ∧
    (hitTestElement s.elements x y = none → step env (.mouseDown x y) s = (s, [])) ∧
    (∀ (l1 l2 : List Element) (c : Element), s.elements = l1 ++ c :: l2 →
      paintHits x y c = true → (∀ e ∈ l2, paintHits x y e = false) →
      (step env (.mouseDown x y) s).1.elements
        = s.elements ++ [{ c with id := env.freshId, fill := some env.color }]) ∧
    ((∃ el ∈ s.elements, paintHits x y el = true) ↔
      (step env (.mouseDown x y) s).1.elements ≠ s.elements) := by
  have hnd : env.tool ≠ .drag := by rw [ht]; decide
  have hsome : ∀ c : Element, s.elements.reverse.find? (paintHits x y) = some c →
      (step env (.mouseDown x y) s).1.elements
        = s.elements ++ [{ c with id := env.freshId, fill := some env.color }] := by
    intro c hc
    simp [step, handleCanvasMouseDown, hnd, startDrawing, ht, hc, commit]
  have hnone : s.elements.reverse.find? (paintHits x y) = none →
      step env (.mouseDown x y) s = (s, []) := by
    intro hf
    simp [step, handleCanvasMouseDown, hnd, startDrawing, ht, hf]
  refine ⟨paintHits_eq x y, ?_, ?_, ?_, ?_⟩
  · intro c hc htype
    exact hsome c (paint_find_of_hitTest s.elements c x y hc htype)
  · intro h
    exact hnone (paint_find_of_hitTest_none s.elements x y h)
  · intro l1 l2 c hel hc hl2
    apply hsome
    rw [List.find?_eq_some]
    refine ⟨hc, l2.reverse, l1.reverse, by simp [hel], ?_⟩
    intro a ha
    simp [hl2 a (List.mem_reverse.mp ha)]
  · constructor
    · rintro ⟨el, hmem, hhit⟩
      cases hf : s.elements.reverse.find? (paintHits x y) with
      | none =>
        rw [List.find?_eq_none] at hf
        exact absurd hhit (hf el (List.mem_reverse.mpr hmem))
      | some c =>
        rw [hsome c hf]
        intro hc
        have := congrArg List.length hc
        simp at this
    · intro hne
      by_contra hex
      apply hne
      have hf : s.elements.reverse.find? (paintHits x y) = none := by
        rw [List.find?_eq_none]
        intro e he hp
        exact hex ⟨e, List.mem_reverse.mp he, hp⟩
      rw [hnone hf]

/-- Witness for C27 as amended: a paint click at (50,30) on the sample state,
where the hit test returns the sample rectangle. -/
theorem paint_target_witness :
    (sampleEnvWith .paint).tool = .paint ∧
    hitTestElement sampleState.elements 50 30 = some (sampleRect (.num 1)) ∧
    ((sampleRect (.num 1)).type = .rectangle ∨ (sampleRect (.num 1)).type = .circle) ∧
    (step (sampleEnvWith .paint) (.mouseDown 50 30) sampleState).1.elements
      = sampleState.elements ++
        [{ sampleRect (.num 1) with
            id := (sampleEnvWith .paint).freshId
            fill := some (sampleEnvWith .paint).color }] :=
  have hhit : hitTestElement sampleState.elements 50 30 = some (sampleRect (.num 1)) := by
    simp only [sampleState, hitTestElement_singleton, hitsElement, sampleRect]
    norm_num
  ⟨rfl, hhit, Or.inl rfl,
    (paint_target (sampleEnvWith .paint) 50 30 sampleState rfl).2.1
      (sampleRect (.num 1)) hhit (Or.inl rfl)⟩

/-- C27 as stated fails: on the board holding the sample rectangle beneath
the sample text box, the hit test at (50,30) returns the text box, an element
of another type, and a paint pointer-down there commits a filled clone of the
rectangle all the same. -/
theorem paint_clones_beneath_text :
    hitTestElement sampleTextBoard.elements 50 30 = some sampleText ∧
    sampleText.type = .text ∧
    (step (sampleEnvWith .paint) (.mouseDown 50 30) sampleTextBoard).1.elements
      = sampleTextBoard.elements ++
        [{ sampleRect (.num 1) with
            id := (sampleEnvWith .paint).freshId
            fill := some (sampleEnvWith .paint).color }] ∧
    (step (sampleEnvWith .paint) (.mouseDown 50 30) sampleTextBoard).1.elements
      ≠ sampleTextBoard.elements := by
  have hfind : sampleTextBoard.elements.reverse.find? (paintHits 50 30)
      = some (sampleRect (.num 1)) := by
    simp only [sampleTextBoard, sampleRect, sampleText, List.reverse_cons, List.reverse_nil,
      List.nil_append, List.cons_append, List.find?_cons, paintHits]
    norm_num
  have hstep : (step (sampleEnvWith .paint) (.mouseDown 50 30) sampleTextBoard).1.elements
      = sampleTextBoard.elements ++
        [{ sampleRect (.num 1) with
            id := (sampleEnvWith .paint).freshId
            fill := some (sampleEnvWith .paint).color }] := by
    simp [step, handleCanvasMouseDown, startDrawing, sampleEnvWith, hfind, commit]
  refine ⟨?_, rfl, hstep, ?_⟩
  · rw [hitTestElement_eq_find]
    simp only [sampleTextBoard, sampleRect, sampleText, List.reverse_cons, List.reverse_nil,
      List.nil_append, List.cons_append, List.find?_cons, hitsElement, orDefault]
    norm_num
  · rw [hstep]
    intro hc
    have := congrArg List.length hc
    simp at this

/-! ## Drag pointer-down -/

/-- C29, as the code has it: a drag pointer-down that hits an element pushes
the pre-drag sequence on the undo stack and empties the redo stack; when no
element earlier in the sequence carries the hit element's id (so whenever the
ids are pairwise distinct) the hit element moves to the end of the sequence
and the others keep their relative order, the result being a permutation of
the input of the same length.  A drag pointer-down that hits nothing leaves
the state unchanged and sends nothing. -/
theorem drag_down_brings_to_top (env : Env) (s : CanvasState) (m : Point)
    (ht : env.tool = .drag) :
    (∀ el : Element, hitTestElement s.elements m.x m.y = some el →
      (step env (.mouseDown m.x m.y) s).1.undoStack = s.undoStack ++ [s.elements] ∧
      (step env (.mouseDown m.x m.y) s).1.redoStack = [] ∧
      (∀ l1 l2 : List Element, s.elements = l1 ++ el :: l2 →
        (∀ e ∈ l1, e.id ≠ el.id) →
        (step env (.mouseDown m.x m.y) s).1.elements = l1 ++ l2 ++ [el] ∧
        ((step env (.mouseDown m.x m.y) s).1.elements).Perm s.elements ∧
        (step env (.mouseDown m.x m.y) s).1.elements.length = s.elements.length) ∧
      ((s.elements.map (fun e => e.id)).Nodup →
        ∃ l1 l2 : List Element, s.elements = l1 ++ el :: l2 ∧
          (step env (.mouseDown m.x m.y) s).1.elements = l1 ++ l2 ++ [el])) ∧
    (hitTestElement s.elements m.x m.y = none →
      step env (.mouseDown m.x m.y) s = (s, [])) := by
  constructor
  · intro el hhit
    have hmid : ∀ l1 l2 : List Element, s.elements = l1 ++ el :: l2 →
        (∀ e ∈ l1, e.id ≠ el.id) →
        (step env (.mouseDown m.x m.y) s).1.elements = l1 ++ l2 ++ [el] := by
      intro l1 l2 hel hfresh
      exact (drag_down_mid env l1 l2 el s m ht hfresh hel hhit).1
    refine ⟨?_, ?_, ?_, ?_⟩
    · simp [step, handleCanvasMouseDown, ht, hhit, commit]
    · simp [step, handleCanvasMouseDown, ht, hhit, commit]
    · intro l1 l2 hel hfresh
      have h1 := hmid l1 l2 hel hfresh
      refine ⟨h1, ?_, ?_⟩
      · rw [h1, hel, List.append_assoc]
        exact List.Perm.append_left l1 (List.perm_append_singleton el l2)
      · rw [h1, hel]
        simp
    · intro hnd
      obtain ⟨_, l1, l2, hel, _⟩ := hitTestElement_some s.elements el m.x m.y hhit
      rw [hel] at hnd
      exact ⟨l1, l2, hel, hmid l1 l2 hel (nodup_split l1 l2 el hnd).1⟩
  · intro hnone
    simp [step, handleCanvasMouseDown, ht, hnone]

/-- Witness for C29 as amended: a drag pointer-down at (50,30) on the sample
board picks the rectangle beneath the circle and moves it to the end. -/
theorem drag_down_brings_to_top_witness :
    (sampleEnvWith .drag).tool = .drag ∧
    hitTestElement sampleBoard.elements 50 30 = some (sampleRect (.num 1)) ∧
    sampleBoard.elements = [] ++ sampleRect (.num 1) :: [sampleCircle] ∧
    (step (sampleEnvWith .drag) (.mouseDown 50 30) sampleBoard).1.elements
      = [] ++ [sampleCircle] ++ [sampleRect (.num 1)] ∧
    (step (sampleEnvWith .drag) (.mouseDown 50 30) sampleBoard).1.undoStack
      = sampleBoard.undoStack ++ [sampleBoard.elements] ∧
    (step (sampleEnvWith .drag) (.mouseDown 50 30) sampleBoard).1.redoStack = [] :=
  have hhit : hitTestElement sampleBoard.elements 50 30 = some (sampleRect (.num 1)) := by
    rw [hitTestElement_eq_find]
    simp only [sampleBoard, sampleRect, List.reverse_cons, List.reverse_nil,
      List.nil_append, List.cons_append, List.find?_cons, hitsElement, sqrtLe]
    norm_num
  have hall := (drag_down_brings_to_top (sampleEnvWith .drag) sampleBoard ⟨50, 30⟩ rfl).1
    (sampleRect (.num 1)) hhit
  ⟨rfl, hhit, rfl,
    (hall.2.2.1 [] [sampleCircle] rfl (by simp)).1, hall.1, hall.2.1⟩

/-- C29 as stated fails: on the board reached from the empty board by the
add-element messages for a rectangle and a circle that carry no id, a drag
pointer-down at (200,200) hits the circle, the last element, and the code
moves the rectangle to the end instead: the hit element ends up first. -/
theorem drag_down_moves_other_element :
    sampleTwoNoIdBoard.elements = [sampleRect .undef, noIdCircle] ∧
    hitTestElement sampleTwoNoIdBoard.elements 200 200 = some noIdCircle ∧
    (step (sampleEnvWith .drag) (.mouseDown 200 200) sampleTwoNoIdBoard).1.elements
      = [noIdCircle, sampleRect .undef] ∧
    (step (sampleEnvWith .drag) (.mouseDown 200 200) sampleTwoNoIdBoard).1.elements.getLast?
      ≠ some noIdCircle := by
  have hel : sampleTwoNoIdBoard.elements = [sampleRect .undef, noIdCircle] := by
    simp [sampleTwoNoIdBoard, deliver, receive, onAddElement, applyRemoteElementAdd,
      emptyBoard, sampleRect, noIdCircle, JsId.truthy]
  have hhit : hitTestElement sampleTwoNoIdBoard.elements 200 200 = some noIdCircle := by
    rw [hel, hitTestElement_eq_find]
    simp only [sampleRect, noIdCircle, List.reverse_cons, List.reverse_nil,
      List.nil_append, List.cons_append, List.find?_cons, hitsElement, sqrtLe]
    norm_num
  have hstep : (step (sampleEnvWith .drag) (.mouseDown 200 200) sampleTwoNoIdBoard).1.elements
      = [noIdCircle, sampleRect .undef] := by
    have hhit2 := hhit
    rw [hel] at hhit2
    simp only [step, handleCanvasMouseDown, sampleEnvWith, if_true, hel, hhit2, commit]
    simp [bringToTop, noIdCircle, sampleRect, List.findIdx?_cons]
  refine ⟨hel, hhit, hstep, ?_⟩
  rw [hstep]
  simp [noIdCircle, sampleRect]

end Whiteboard
